import Mathlib

/-!
Verification of the accident-extraction pipeline (structuring-test).

This file shallowly embeds the core data model and operations of the
repository — the deterministic fusion (`event_merge_service._deterministic_fuse`),
event-id assignment (`event_id_service.assign_event_ids`), the regex
pre-extractor (`accident_preextract.pre_extract_fields`), the postprocessor
(`accident_postprocess._postprocess`), the confidence scorer
(`compute_confidence`), and the LLM wrapper (`accident_llm.llm_extract`) —
and proves or refutes the frozen claims about them.

Modelling conventions:
* Python values are modelled by the inductive type `PyVal` (None, bool, int,
  float, str, list, dict).  Python dicts are association lists with unique
  keys in insertion order; `bool` is kept as a distinct constructor but the
  embedding reproduces Python's `isinstance(True, int) = True` where the
  source depends on it.
* Python floats are modelled as rationals (`Rat`); `nan`/`inf` are outside
  the embedded domain.
* Whitespace handling (`str.strip`, `str.lower`) is modelled for the ASCII
  range, which covers every string the source manipulates in the claims.
* External libraries (`dateutil`, `json.loads`, the OpenAI client) are
  modelled as explicit oracle parameters; everything written by hand in the
  repository is embedded concretely.
-/

namespace StructuringTest

/-- Python runtime values as produced by `json.loads` / manipulated by the
pipeline: `None`, `bool`, `int`, `float` (modelled as a rational), `str`,
`list`, and `dict` (association list in insertion order). -/
inductive PyVal where
  | none : PyVal
  | bool (b : Bool) : PyVal
  | int (n : Int) : PyVal
  | float (q : Rat) : PyVal
  | str (s : String) : PyVal
  | list (xs : List PyVal) : PyVal
  | dict (kvs : List (String × PyVal)) : PyVal
  deriving Repr

/-- A Python dict: association list of string keys in insertion order. -/
abbrev PyDict := List (String × PyVal)

/-! ### ASCII string helpers (Python `str.strip`, `str.lower`) -/

/-- The characters stripped by Python `str.strip()` (ASCII fragment):
space, tab, newline, carriage return, vertical tab, form feed. -/
def isPySpace (c : Char) : Bool :=
  c = ' ' || c = '\t' || c = '\n' || c = '\r' || c = '\x0b' || c = '\x0c'

/-- `str.strip()` on the character list: drop leading and trailing whitespace. -/
def stripChars (cs : List Char) : List Char :=
  ((cs.dropWhile isPySpace).reverse.dropWhile isPySpace).reverse

/-- Python `s.strip()`. -/
def pyStrip (s : String) : String := ⟨stripChars s.data⟩

/-- ASCII lower-casing of one character (Python `str.lower` restricted to
the ASCII range). -/
def lowerChar (c : Char) : Char :=
  if 65 ≤ c.toNat ∧ c.toNat ≤ 90 then Char.ofNat (c.toNat + 32) else c

/-- Python `s.lower()` (ASCII fragment). -/
def pyLower (s : String) : String := ⟨s.data.map lowerChar⟩

/-- The `seen = set(); ...` de-duplication loop used throughout the source:
`seen` accumulates elements already emitted. -/
def pyDedupAcc {α : Type} [DecidableEq α] : List α → List α → List α
  | _, [] => []
  | seen, x :: xs =>
    if x ∈ seen then pyDedupAcc seen xs else x :: pyDedupAcc (x :: seen) xs

/-- Order-preserving de-duplication keeping the first occurrence of each
element. -/
def pyDedup {α : Type} [DecidableEq α] (l : List α) : List α := pyDedupAcc [] l

/-- Python truthiness: `bool(v)`. -/
def truthy : PyVal → Bool
  | .none => false
  | .bool b => b
  | .int n => n ≠ 0
  | .float q => q ≠ 0
  | .str s => s ≠ ""
  | .list xs => !xs.isEmpty
  | .dict kvs => !kvs.isEmpty

/-! ### Association-list (Python dict) operations -/

/-- `d.get(k)` / `k in d`: first binding of `k`. -/
def lookupA (kvs : PyDict) (k : String) : Option PyVal :=
  match kvs.find? (fun p => p.1 = k) with
  | some p => some p.2
  | Option.none => Option.none

/-- `d[k] = v` when `k` is known to be present: replace the value in place
(insertion order unchanged). -/
def updateA (kvs : PyDict) (k : String) (v : PyVal) : PyDict :=
  kvs.map (fun p => if p.1 = k then (p.1, v) else p)

/-- `d.pop(k, None)` / `del d[k]`. -/
def removeA (kvs : PyDict) (k : String) : PyDict :=
  kvs.filter (fun p => p.1 ≠ k)

/-- `d[k] = v`: update in place if present, else append (Python dict
assignment preserves insertion order for existing keys). -/
def setA (kvs : PyDict) (k : String) (v : PyVal) : PyDict :=
  if (kvs.find? (fun p => p.1 = k)).isSome then updateA kvs k v
  else kvs ++ [(k, v)]

/-! ### Python numeric / string conversions used by the source -/

/-- Decimal digit character (`0 ≤ k ≤ 9`). -/
def digitChar (k : Nat) : Char := Char.ofNat (48 + k % 10)

/-- Decimal digit characters of a natural number (auxiliary, fuel-driven so
that it reduces in the kernel). -/
def natDigitsAux : Nat → Nat → List Char
  | 0, _ => []
  | fuel + 1, n =>
    if n < 10 then [digitChar n]
    else natDigitsAux fuel (n / 10) ++ [digitChar (n % 10)]

/-- Decimal digit characters of a natural number. -/
def natDigits (n : Nat) : List Char := natDigitsAux (n + 1) n

/-- Python `str(n)` for an int. -/
def pyStrOfInt (n : Int) : String :=
  if n < 0 then ⟨'-' :: natDigits n.natAbs⟩ else ⟨natDigits n.natAbs⟩

/-- Value of a list of decimal digits (most significant first). -/
def digitsVal (cs : List Char) : Nat :=
  cs.foldl (fun acc c => acc * 10 + (c.toNat - 48)) 0

/-- Python `int(s)` on an already-stripped string: optional sign followed by
one or more decimal digits (the underscore-separator extension of CPython is
outside the embedded domain). -/
def parseIntStripped (cs : List Char) : Option Int :=
  match cs with
  | '-' :: rest =>
    if rest ≠ [] ∧ rest.all Char.isDigit then some (-(digitsVal rest : Int)) else Option.none
  | '+' :: rest =>
    if rest ≠ [] ∧ rest.all Char.isDigit then some (digitsVal rest : Int) else Option.none
  | rest =>
    if rest ≠ [] ∧ rest.all Char.isDigit then some (digitsVal rest : Int) else Option.none

/-- Python `int(s)`: strips whitespace itself, then parses. -/
def pyParseInt (s : String) : Option Int := parseIntStripped (stripChars s.data)

/-- Python `float(s)` after the optional sign: `digits [. digits]` or
`. digits`, with an optional decimal exponent.  (`inf`/`nan` are outside the
embedded domain.) -/
def parseFloatBody (body : List Char) : Option Rat :=
    let (intPart, rest) := body.span Char.isDigit
    match rest with
    | [] => if intPart ≠ [] then some (digitsVal intPart : Rat) else Option.none
    | '.' :: frac =>
      let (fracPart, rest2) := frac.span Char.isDigit
      if intPart = [] ∧ fracPart = [] then Option.none
      else
        let base : Rat :=
          (digitsVal intPart : Rat) + (digitsVal fracPart : Rat) / ((10 : Rat) ^ fracPart.length)
        match rest2 with
        | [] => some base
        | 'e' :: ex | 'E' :: ex =>
          (match ex with
           | '-' :: ds => if ds ≠ [] ∧ ds.all Char.isDigit then
               some (base / (10 : Rat) ^ digitsVal ds) else Option.none
           | '+' :: ds => if ds ≠ [] ∧ ds.all Char.isDigit then
               some (base * (10 : Rat) ^ digitsVal ds) else Option.none
           | ds => if ds ≠ [] ∧ ds.all Char.isDigit then
               some (base * (10 : Rat) ^ digitsVal ds) else Option.none)
        | _ => Option.none
    | 'e' :: ex | 'E' :: ex =>
      if intPart = [] then Option.none
      else
        (match ex with
         | '-' :: ds => if ds ≠ [] ∧ ds.all Char.isDigit then
             some ((digitsVal intPart : Rat) / (10 : Rat) ^ digitsVal ds) else Option.none
         | '+' :: ds => if ds ≠ [] ∧ ds.all Char.isDigit then
             some ((digitsVal intPart : Rat) * (10 : Rat) ^ digitsVal ds) else Option.none
         | ds => if ds ≠ [] ∧ ds.all Char.isDigit then
             some ((digitsVal intPart : Rat) * (10 : Rat) ^ digitsVal ds) else Option.none)
    | _ => Option.none

/-- Python `float(s)` on a stripped character list: an optional sign, then
`parseFloatBody`. -/
def parseFloatCore (cs : List Char) : Option Rat :=
  match cs with
  | '-' :: body => (parseFloatBody body).map (fun q => -q)
  | '+' :: body => parseFloatBody body
  | body => parseFloatBody body

/-- Python `float(s)`: strips whitespace itself, then parses. -/
def pyParseFloat (s : String) : Option Rat := parseFloatCore (stripChars s.data)

/-- Python `int(x)` truncation of a float toward zero. -/
def pyTrunc (q : Rat) : Int := if 0 ≤ q then ⌊q⌋ else ⌈q⌉

/-- Python `float(x)` applied to a `PyVal`; `Option.none` models the raised
`TypeError`/`ValueError`. -/
def pyFloatOf : PyVal → Option Rat
  | .int n => some (n : Rat)
  | .float q => some q
  | .bool b => some (if b then 1 else 0)
  | .str s => pyParseFloat s
  | _ => Option.none

/-- Python `int(x)` applied to a `PyVal`; `Option.none` models the raised
exception. -/
def pyIntOf : PyVal → Option Int
  | .int n => some n
  | .bool b => some (if b then 1 else 0)
  | .float q => some (pyTrunc q)
  | .str s => pyParseInt s
  | _ => Option.none

/-- Shortest finite decimal expansion exponent: least `k ≤ fuel` with
`den ∣ 10 ^ k`. -/
def decExp (den : Nat) : Nat → Option Nat
  | 0 => if den ∣ 1 then some 0 else Option.none
  | k + 1 =>
    match decExp den k with
    | some j => some j
    | Option.none => if den ∣ 10 ^ (k + 1) then some (k + 1) else Option.none

/-- Python `str(x)` for a float, for the dyadic/decimal rationals Python
floats denote: a finite decimal expansion with at least one fractional
digit (`str(2.0) = "2.0"`); other rationals (unreachable from Python floats)
fall back to a fraction notation. -/
def pyStrOfFloat (q : Rat) : String :=
  match decExp q.den 64 with
  | some k =>
    let k := max k 1
    let scaled : Int := q.num * ((10 : Int) ^ k / (q.den : Int))
    let sign := if scaled < 0 then "-" else ""
    let digits := natDigits scaled.natAbs
    let digits := if digits.length ≤ k then List.replicate (k + 1 - digits.length) '0' ++ digits else digits
    sign ++ ⟨digits.take (digits.length - k)⟩ ++ "." ++ ⟨digits.drop (digits.length - k)⟩
  | Option.none => pyStrOfInt q.num ++ "/" ++ pyStrOfInt (q.den : Int)

/-- Python `str(x)` for scalars (the `str(x)` in the fusion's dedup key and
in the nested-causes numeric coercions). -/
def pyStr : PyVal → String
  | .none => "None"
  | .bool b => if b then "True" else "False"
  | .int n => pyStrOfInt n
  | .float q => pyStrOfFloat q
  | .str s => s
  | .list _ => "<list>"
  | .dict _ => "<dict>"

/-! ### Miscellaneous string predicates -/

/-- `needle in hay` for Python strings (substring test). -/
def strContainsL (hay needle : List Char) : Bool :=
  match hay with
  | [] => needle.isEmpty
  | _ :: rest => needle.isPrefixOf hay || strContainsL rest needle

/-- Python `needle in hay`. -/
def strContains (hay needle : String) : Bool := strContainsL hay.data needle.data

/-- Python `s.startswith(p)`. -/
def strStartsWith (s p : String) : Bool := p.data.isPrefixOf s.data

/-! ### `json.dumps(x, sort_keys=True, ensure_ascii=False)`

Used by the fusion/merge services only to build de-duplication keys.  The
embedding reproduces the default separators and sorted keys; only the
escapes relevant to the pipeline's values (`"` and `\`) are modelled. -/

/-- Minimal JSON string escaping. -/
def escapeJson (s : String) : String :=
  ⟨s.data.flatMap (fun c =>
    if c = '"' then ['\\', '"'] else if c = '\\' then ['\\', '\\'] else [c])⟩

/-- Insert into a list sorted ascending by string key (stable). -/
def insertByKey {α : Type} (key : α → String) (x : α) : List α → List α
  | [] => [x]
  | y :: ys => if key y ≤ key x then y :: insertByKey key x ys else x :: y :: ys

/-- Stable insertion sort ascending by string key. -/
def sortByKey {α : Type} (key : α → String) (l : List α) : List α :=
  l.foldl (fun acc x => insertByKey key x acc) []

mutual

/-- Executable size of a `PyVal` (fuel for the `json.dumps` recursion). -/
def PyVal.size : PyVal → Nat
  | .list xs => 1 + PyVal.sizeList xs
  | .dict kvs => 1 + PyVal.sizeDict kvs
  | _ => 1

/-- Size of a list of values. -/
def PyVal.sizeList : List PyVal → Nat
  | [] => 0
  | x :: xs => PyVal.size x + PyVal.sizeList xs

/-- Size of a dict's bindings. -/
def PyVal.sizeDict : List (String × PyVal) → Nat
  | [] => 0
  | p :: ps => PyVal.size p.2 + PyVal.sizeDict ps

end

/-- Fuel-driven `json.dumps` core (fuel bounds the recursion depth; called
with `PyVal.size v` fuel, which never runs out on finite values). -/
def jsonDumpsAux : Nat → PyVal → String
  | 0, _ => ""
  | fuel + 1, v =>
    match v with
    | .none => "null"
    | .bool b => if b then "true" else "false"
    | .int n => pyStrOfInt n
    | .float q => pyStrOfFloat q
    | .str s => "\"" ++ escapeJson s ++ "\""
    | .list xs => "[" ++ String.intercalate ", " (xs.map (jsonDumpsAux fuel)) ++ "]"
    | .dict kvs =>
      "\x7b" ++ String.intercalate ", "
        ((sortByKey Prod.fst kvs).map
          (fun p => "\"" ++ escapeJson p.1 ++ "\": " ++ jsonDumpsAux fuel p.2)) ++ "\x7d"

/-- `json.dumps(x, sort_keys=True, ensure_ascii=False)`. -/
def pyJsonDumps (v : PyVal) : String := jsonDumpsAux (PyVal.size v) v

/-! ### `event_merge_service._deterministic_fuse` -/

/-- The de-duplication key of `list_union`:
`json.dumps(x, sort_keys=True, ensure_ascii=False) if isinstance(x, (dict, list)) else str(x)`. -/
def fuseKey : PyVal → String
  | .list xs => pyJsonDumps (.list xs)
  | .dict kvs => pyJsonDumps (.dict kvs)
  | v => pyStr v

/-- Inner loop of `list_union`: walk one contributed array, skipping values
whose key was already seen. -/
def listUnionInner : List String → List PyVal → List String × List PyVal
  | seen, [] => (seen, [])
  | seen, x :: xs =>
    let key := fuseKey x
    if key ∈ seen then listUnionInner seen xs
    else
      let (seen', res) := listUnionInner (key :: seen) xs
      (seen', x :: res)

/-- Outer loop of `list_union`: non-list contributions are skipped
(`if not isinstance(arr, list): continue`). -/
def listUnionOuter : List String → List PyVal → List String × List PyVal
  | _, [] => ([], [])
  | seen, arr :: rest =>
    match arr with
    | .list xs =>
      let (s1, r1) := listUnionInner seen xs
      let (s2, r2) := listUnionOuter s1 rest
      (s2, r1 ++ r2)
    | _ => listUnionOuter seen rest

/-- `list_union(vals)` from `_deterministic_fuse`: de-duplicated union of
the *list-valued* contributions; any scalar contribution is skipped. -/
def list_union (vals : List PyVal) : List PyVal := (listUnionOuter [] vals).2

/-- `v not in (None, "", [], {})` — the "non-empty" filter of `keep_scalar`. -/
def isEmptyish : PyVal → Bool
  | .none => true
  | .str s => s = ""
  | .list xs => xs.isEmpty
  | .dict kvs => kvs.isEmpty
  | _ => false

/-- Python `len(x)`; `Option.none` models the `TypeError` for unsized values. -/
def pyLen : PyVal → Option Nat
  | .str s => some s.data.length
  | .list xs => some xs.length
  | .dict kvs => some kvs.length
  | _ => Option.none

/-- `max(vals, key=len)`: first value with the maximal length; an unsized
value raises. -/
def maxByLen (vals : List PyVal) : Except Unit PyVal :=
  match vals with
  | [] => .error ()
  | v :: rest =>
    match pyLen v with
    | Option.none => .error ()
    | some n =>
      let step : PyVal × Nat → PyVal → Except Unit (PyVal × Nat) := fun best x =>
        match pyLen x with
        | Option.none => .error ()
        | some m => .ok (if m > best.2 then (x, m) else best)
      (rest.foldlM step (v, n)).map Prod.fst

/-- Python `a > b` for the value shapes comparable in `keep_scalar`
(numbers with numbers, strings with strings); anything else raises. -/
def pyGT : PyVal → PyVal → Option Bool
  | .int a, .int b => some (a > b)
  | .int a, .float b => some ((a : Rat) > b)
  | .int a, .bool b => some ((a : Rat) > (if b then 1 else 0))
  | .float a, .int b => some (a > (b : Rat))
  | .float a, .float b => some (a > b)
  | .float a, .bool b => some (a > (if b then 1 else 0))
  | .bool a, .int b => some (((if a then 1 else 0) : Rat) > (b : Rat))
  | .bool a, .float b => some (((if a then 1 else 0) : Rat) > b)
  | .bool a, .bool b => some (a > b)
  | .str a, .str b => some (decide (b < a))
  | _, _ => Option.none

/-- `max(vals)`: first maximal element under Python `>`. -/
def pyMax (vals : List PyVal) : Except Unit PyVal :=
  match vals with
  | [] => .error ()
  | v :: rest =>
    rest.foldlM
      (fun best x =>
        match pyGT x best with
        | Option.none => .error ()
        | some gt => .ok (if gt then x else best))
      v

/-- The `title` sort key:
`(isinstance(t, str) and 'None' in t, -len(str(t)))`. -/
def titleKey (t : PyVal) : Bool × Int :=
  (match t with
   | .str s => strContains s "None"
   | _ => false,
   -((pyStr t).data.length : Int))

/-- Strict lexicographic order on the `title` sort key (`False < True`). -/
def titleKeyLT (a b : Bool × Int) : Bool :=
  (!a.1 && b.1) || (a.1 = b.1 && a.2 < b.2)

/-- `sorted(non_empty_vals, key=titleKey)[0]`: the first value with the
minimal key (Python's sort is stable). -/
def titleSelect (vals : List PyVal) : PyVal :=
  match vals with
  | [] => .none
  | v :: rest =>
    rest.foldl (fun best x => if titleKeyLT (titleKey x) (titleKey best) then x else best) v

/-- The `accident_date` rule: earliest string starting with `"20"`, else the
first non-empty value. -/
def dateSelect (vals : List PyVal) : PyVal :=
  let validDates := vals.filterMap (fun v =>
    match v with
    | .str s => if strStartsWith s "20" then some s else Option.none
    | _ => Option.none)
  match validDates with
  | [] => vals.headD .none
  | d :: rest => .str (rest.foldl (fun best x => if x < best then x else best) d)

/-- `keep_scalar(k, vals)` from `_deterministic_fuse`: field-specific scalar
selection.  `Except.error` models an uncaught exception. -/
def keep_scalar (k : String) (vals : List PyVal) : Except Unit PyVal :=
  let non_empty := vals.filter (fun v => !isEmptyish v)
  match non_empty with
  | [] => .ok (vals.headD .none)
  | v :: _ =>
    if k = "accident_summary_text" ∨ k = "timeline_text" then maxByLen non_empty
    else if k = "title" then .ok (titleSelect non_empty)
    else if k = "accident_date" then .ok (dateSelect non_empty)
    else if k = "extraction_confidence_score" then pyMax non_empty
    else .ok v

/-- `merged.update(v)` over the dict-valued contributions. -/
def dictUpdate (base upd : PyDict) : PyDict :=
  upd.foldl (fun b p => setA b p.1 p.2) base

/-- The sort key of `_deterministic_fuse`:
`float(r.get('extraction_confidence_score', 0) or 0)`; `Option.none` models
an uncaught conversion exception. -/
def fuseSortKey (r : PyDict) : Option Rat :=
  let v := (lookupA r "extraction_confidence_score").getD (.int 0)
  pyFloatOf (if truthy v then v else .int 0)

/-- Stable descending insertion (equal keys keep list order), matching
`items.sort(key=..., reverse=True)`. -/
def insertDesc {α : Type} (x : Rat × α) : List (Rat × α) → List (Rat × α)
  | [] => [x]
  | y :: ys => if x.1 ≤ y.1 then y :: insertDesc x ys else x :: y :: ys

/-- Stable sort, descending by the rational key. -/
def sortDescByKey {α : Type} (l : List (Rat × α)) : List (Rat × α) :=
  l.foldl (fun acc x => insertDesc x acc) []

/-- One key of the fusion loop: list-union if any contribution is a list,
shallow dict-merge if any is a dict, else `keep_scalar`. -/
def fuseOneKey (items : List PyDict) (k : String) : Except Unit PyVal :=
  let vals := items.filterMap (fun it => lookupA it k)
  if vals.any (fun v => match v with | .list _ => true | _ => false) then
    .ok (.list (list_union vals))
  else if vals.any (fun v => match v with | .dict _ => true | _ => false) then
    .ok (.dict (vals.foldl (fun m v => match v with | .dict d => dictUpdate m d | _ => m) []))
  else keep_scalar k vals

/-- `_deterministic_fuse(items)` (event_merge_service.py:340-406): sort the
candidates by confidence descending, build the canonical record key-by-key
over the sorted union of all keys, then overwrite `source_url` with the
`list_union` of every contributor's `source_url`.  `Except.error` models an
uncaught exception. -/
def deterministicFuse (items : List PyDict) : Except Unit PyDict := do
  let keyed ← items.mapM (fun r =>
    match fuseSortKey r with
    | some q => Except.ok ((q, r) : Rat × PyDict)
    | Option.none => Except.error ())
  let items := (sortDescByKey keyed).map Prod.snd
  let sorted_keys := sortByKey id (pyDedup (items.flatMap (fun it => it.map Prod.fst)))
  let out ← sorted_keys.foldlM
    (fun out k => do
      let v ← fuseOneKey items k
      pure (out ++ [(k, v)]))
    ([] : PyDict)
  pure (setA out "source_url"
    (.list (list_union (items.map (fun it => (lookupA it "source_url").getD .none)))))

/-! ### `hashlib.md5` (RFC 1321), used for event signatures and event ids -/

/-- UTF-8 encoding of one code point (`str.encode('utf-8')`). -/
def utf8Encode (c : Char) : List Nat :=
  let cp := c.toNat
  if cp < 0x80 then [cp]
  else if cp < 0x800 then [0xC0 + cp / 64, 0x80 + cp % 64]
  else if cp < 0x10000 then [0xE0 + cp / 4096, 0x80 + cp / 64 % 64, 0x80 + cp % 64]
  else [0xF0 + cp / 262144, 0x80 + cp / 4096 % 64, 0x80 + cp / 64 % 64, 0x80 + cp % 64]

/-- 32-bit left rotation (on `Nat` values `< 2^32`). -/
def rotl32 (x s : Nat) : Nat := ((x <<< s) % 4294967296) + (x >>> (32 - s))

/-- The 64 MD5 sine-derived constants `⌊2^32·|sin(i+1)|⌋`. -/
def md5K : List Nat :=
  [0xd76aa478, 0xe8c7b756, 0x242070db, 0xc1bdceee,
   0xf57c0faf, 0x4787c62a, 0xa8304613, 0xfd469501,
   0x698098d8, 0x8b44f7af, 0xffff5bb1, 0x895cd7be,
   0x6b901122, 0xfd987193, 0xa679438e, 0x49b40821,
   0xf61e2562, 0xc040b340, 0x265e5a51, 0xe9b6c7aa,
   0xd62f105d, 0x02441453, 0xd8a1e681, 0xe7d3fbc8,
   0x21e1cde6, 0xc33707d6, 0xf4d50d87, 0x455a14ed,
   0xa9e3e905, 0xfcefa3f8, 0x676f02d9, 0x8d2a4c8a,
   0xfffa3942, 0x8771f681, 0x6d9d6122, 0xfde5380c,
   0xa4beea44, 0x4bdecfa9, 0xf6bb4b60, 0xbebfbc70,
   0x289b7ec6, 0xeaa127fa, 0xd4ef3085, 0x04881d05,
   0xd9d4d039, 0xe6db99e5, 0x1fa27cf8, 0xc4ac5665,
   0xf4292244, 0x432aff97, 0xab9423a7, 0xfc93a039,
   0x655b59c3, 0x8f0ccc92, 0xffeff47d, 0x85845dd1,
   0x6fa87e4f, 0xfe2ce6e0, 0xa3014314, 0x4e0811a1,
   0xf7537e82, 0xbd3af235, 0x2ad7d2bb, 0xeb86d391]

/-- The 64 MD5 per-round shift amounts. -/
def md5S : List Nat :=
  [7, 12, 17, 22, 7, 12, 17, 22, 7, 12, 17, 22, 7, 12, 17, 22,
   5, 9, 14, 20, 5, 9, 14, 20, 5, 9, 14, 20, 5, 9, 14, 20,
   4, 11, 16, 23, 4, 11, 16, 23, 4, 11, 16, 23, 4, 11, 16, 23,
   6, 10, 15, 21, 6, 10, 15, 21, 6, 10, 15, 21, 6, 10, 15, 21]

/-- One MD5 round step on state `(a, b, c, d)` with the 16 message words. -/
def md5Step (M : List Nat) (st : Nat × Nat × Nat × Nat) (i : Nat) :
    Nat × Nat × Nat × Nat :=
  let (a, b, c, d) := st
  let mask := 0xFFFFFFFF
  let (f, g) :=
    if i < 16 then ((b &&& c) ||| ((b ^^^ mask) &&& d), i)
    else if i < 32 then ((d &&& b) ||| ((d ^^^ mask) &&& c), (5 * i + 1) % 16)
    else if i < 48 then (b ^^^ c ^^^ d, (3 * i + 5) % 16)
    else (c ^^^ (b ||| (d ^^^ mask)), (7 * i) % 16)
  let tmp := (a + f + md5K.getD i 0 + M.getD g 0) % 4294967296
  let nb := (b + rotl32 tmp (md5S.getD i 0)) % 4294967296
  (d, nb, b, c)

/-- Process one 64-byte chunk: 64 round steps, then add into the state. -/
def md5Chunk (chunk : List Nat) (st : Nat × Nat × Nat × Nat) :
    Nat × Nat × Nat × Nat :=
  let M := (List.range 16).map (fun j =>
    chunk.getD (4 * j) 0 + 256 * chunk.getD (4 * j + 1) 0 +
    65536 * chunk.getD (4 * j + 2) 0 + 16777216 * chunk.getD (4 * j + 3) 0)
  let (a, b, c, d) := (List.range 64).foldl (md5Step M) st
  ((st.1 + a) % 4294967296, (st.2.1 + b) % 4294967296,
   (st.2.2.1 + c) % 4294967296, (st.2.2.2 + d) % 4294967296)

/-- Split the padded message into 64-byte chunks (fuel-driven). -/
def chunks64Aux : Nat → List Nat → List (List Nat)
  | 0, _ => []
  | _, [] => []
  | fuel + 1, l => l.take 64 :: chunks64Aux fuel (l.drop 64)

/-- Little-endian byte expansion of a value, `k` bytes. -/
def leBytes (k n : Nat) : List Nat :=
  (List.range k).map (fun i => n >>> (8 * i) % 256)

/-- MD5 digest (16 bytes) of a byte sequence. -/
def md5Bytes (msg : List Nat) : List Nat :=
  let len := msg.length
  let zeros := (64 + 56 - (len + 1) % 64) % 64
  let padded := msg ++ [0x80] ++ List.replicate zeros 0 ++ leBytes 8 (8 * len)
  let st := (chunks64Aux (padded.length / 64 + 1) padded).foldl
    (fun st c => md5Chunk c st) (0x67452301, 0xefcdab89, 0x98badcfe, 0x10325476)
  leBytes 4 st.1 ++ leBytes 4 st.2.1 ++ leBytes 4 st.2.2.1 ++ leBytes 4 st.2.2.2

/-- Lower-case hex digit. -/
def hexDigit (n : Nat) : Char := ("0123456789abcdef".data).getD (n % 16) '0'

/-- Two hex characters of a byte. -/
def byteHex (n : Nat) : List Char := [hexDigit (n / 16), hexDigit (n % 16)]

/-- `hashlib.md5(s.encode('utf-8')).hexdigest()`. -/
def md5hex (s : String) : String :=
  ⟨(md5Bytes (s.data.flatMap utf8Encode)).flatMap byteHex⟩

/-- `hashlib.md5(seed.encode('utf-8')).hexdigest()[:12]` — the event-id hash. -/
def md5hex12 (s : String) : String := ⟨(md5hex s).data.take 12⟩

/-! ### `event_id_service.assign_event_ids` -/

/-- The fields of an `accident_info.json` record read by the event-id
service (`event_id_service.py`): each is `Option String` (`None`/missing vs
a string value).  `file_path` models the `__file_path` key injected by
`load_records`. -/
structure ERec where
  mountain_name : Option String := Option.none
  accident_date : Option String := Option.none
  article_date_published : Option String := Option.none
  article_title : Option String := Option.none
  source_url : Option String := Option.none
  file_path : Option String := Option.none
  event_id : Option String := Option.none
  deriving Repr, DecidableEq

/-- `(r.get(k) or '')` for a string-or-missing field: `None` and `''` are
falsy, so both collapse to `''`. -/
def orBlank : Option String → String
  | some s => s
  | Option.none => ""

/-- A chain `a or b or ... or ''` over string-or-missing values: the first
truthy (non-empty) string, else `''`. -/
def firstTruthy : List (Option String) → String
  | [] => ""
  | some s :: rest => if s ≠ "" then s else firstTruthy rest
  | Option.none :: rest => firstTruthy rest

/-- The event-id seed of `assign_event_ids` (event_id_service.py:195-198):
`(mountain_name or '').strip() + '|' + (accident_date or
article_date_published or '').strip()`, with a fallback to
`title or source_url or __file_path or ''` when the joined seed strips to
the empty string. -/
def eventSeed (first : ERec) : String :=
  let seed := pyStrip (orBlank first.mountain_name) ++ "|" ++
    pyStrip (firstTruthy [first.accident_date, first.article_date_published])
  if pyStrip seed = "" then
    firstTruthy [first.article_title, first.source_url, first.file_path]
  else seed

/-- Python list indexing `records[i]` position resolution: non-negative
in-range, or negative wrap-around; `Option.none` models the `IndexError`. -/
def pyIndex {α : Type} (xs : List α) (i : Int) : Option Nat :=
  if 0 ≤ i ∧ i < (xs.length : Int) then some i.toNat
  else if -(xs.length : Int) ≤ i ∧ i < 0 then some ((xs.length : Int) + i).toNat
  else Option.none

/-- `records[idx]['event_id'] = event_id`. -/
def setEventId (r : ERec) (e : String) : ERec := { r with event_id := some e }

/-- One iteration of the write-back loop `records[idx]['event_id'] = event_id`. -/
def setIdStep (eid : String) (acc : List ERec) (i : Int) : Option (List ERec) :=
  (pyIndex acc i).bind fun p =>
    (acc[p]?).bind fun r => some (acc.set p (setEventId r eid))

/-- Process one cluster of `assign_event_ids`: empty index lists are skipped
(`if not c.get('indices'): continue`); otherwise the id is derived from the
record at the first listed index and written to every listed index. -/
def assignCluster (recs : List ERec) (idxs : List Int) : Option (List ERec) :=
  match idxs with
  | [] => some recs
  | i0 :: _ =>
    (pyIndex recs i0).bind fun p0 =>
      (recs[p0]?).bind fun first =>
        idxs.foldlM (setIdStep (md5hex12 (eventSeed first))) recs

/-- `assign_event_ids(records, clusters)` (event_id_service.py:190-201),
with clusters modelled by their integer index lists.  `Option.none` models
an uncaught `IndexError`. -/
def assignEventIds (recs : List ERec) (clusters : List (List Int)) :
    Option (List ERec) :=
  clusters.foldlM assignCluster recs

/-- The event-id derivation for a `(mountain_name, accident_date)` pair:
the id `assign_event_ids` computes for a record carrying exactly those two
fields. -/
def deriveEventId (m d : String) : String :=
  md5hex12 (eventSeed { mountain_name := some m, accident_date := some d })

/-! ### Supporting lemmas: strip and md5 output shape -/

theorem mem_dropWhile_of_neg {p : Char → Bool} {c : Char} (hc : ¬ p c = true) :
    ∀ l : List Char, c ∈ l → c ∈ l.dropWhile p := by
  intro l hl
  induction l with
  | nil => cases hl
  | cons a t ih =>
    by_cases ha : p a = true
    · rcases List.mem_cons.mp hl with rfl | ht
      · exact absurd ha hc
      · simpa [List.dropWhile_cons, ha] using ih ht
    · simpa [List.dropWhile_cons, ha] using hl

theorem mem_stripChars {c : Char} (hc : ¬ isPySpace c = true) {cs : List Char}
    (h : c ∈ cs) : c ∈ stripChars cs := by
  unfold stripChars
  exact List.mem_reverse.mpr
    (mem_dropWhile_of_neg hc _ (List.mem_reverse.mpr (mem_dropWhile_of_neg hc _ h)))

theorem pyStrip_ne_empty_of_pipe {s : String} (h : '|' ∈ s.data) :
    pyStrip s ≠ "" := by
  intro he
  have hdata : stripChars s.data = [] := congrArg String.data he
  exact List.ne_nil_of_mem (mem_stripChars (by decide) h) hdata

/-- Seed of the event-id derivation for a two-field record: exactly
`m.strip() + "|" + d.strip()` (the blank-fallback branch is unreachable
because the seed always contains `'|'`). -/
theorem eventSeed_pair (m d : String) :
    eventSeed { mountain_name := some m, accident_date := some d } =
      pyStrip m ++ "|" ++ pyStrip d := by
  have hd : pyStrip (firstTruthy [some d, Option.none]) = pyStrip d := by
    by_cases h : d = "" <;> simp [firstTruthy, h]
  have hpipe : '|' ∈ (pyStrip m ++ "|" ++ pyStrip d).data := by
    simp [String.data_append]
  simp only [eventSeed, orBlank, hd]
  rw [if_neg (pyStrip_ne_empty_of_pipe hpipe)]

theorem md5Bytes_length (msg : List Nat) : (md5Bytes msg).length = 16 := by
  simp [md5Bytes, leBytes]

theorem hexDigit_mem (n : Nat) : hexDigit n ∈ "0123456789abcdef".data := by
  have h : n % 16 < ("0123456789abcdef".data).length := by
    simpa using Nat.mod_lt n (by norm_num)
  rw [hexDigit, List.getD_eq_getElem _ _ h]
  exact List.getElem_mem h

theorem byteHex_mem {c : Char} {b : Nat} (h : c ∈ byteHex b) :
    c ∈ "0123456789abcdef".data := by
  simp only [byteHex, List.mem_cons, List.not_mem_nil, or_false] at h
  rcases h with rfl | rfl <;> exact hexDigit_mem _

theorem md5hex_data_length (s : String) : (md5hex s).data.length = 32 := by
  show ((md5Bytes _).flatMap byteHex).length = 32
  rw [List.length_flatMap]
  have h2 : ∀ l : List Nat, (l.map (List.length ∘ byteHex)).sum = 2 * l.length := by
    intro l
    induction l with
    | nil => simp
    | cons a t ih => simp [byteHex, ih, Function.comp]; ring
  rw [h2, md5Bytes_length]

theorem md5hex12_data_length (s : String) : (md5hex12 s).data.length = 12 := by
  show ((md5hex s).data.take 12).length = 12
  rw [List.length_take, md5hex_data_length]
  omega

theorem md5hex12_hex (s : String) :
    ∀ c ∈ (md5hex12 s).data, c ∈ "0123456789abcdef".data := by
  intro c hc
  have hc' : c ∈ (md5hex s).data := List.mem_of_mem_take hc
  have : c ∈ (md5Bytes (s.data.flatMap utf8Encode)).flatMap byteHex := hc'
  rcases List.mem_flatMap.mp this with ⟨b, _, hb⟩
  exact byteHex_mem hb

/-! ### Claims C1, C2, C3 and the C10 counterexample -/

/-- C1: `_deterministic_fuse` on two records whose `source_url` values are
the scalar strings `"https://x/1"` and `"https://x/2"` produces
`source_url = []` — the empty list — because `list_union` skips every
non-list contribution.  This contradicts the claimed invariant (and the
in-code comment "Always union source_url to track all original reports" as
well as `tests/test_fusion_sources.py`): neither contributing URL survives
into the fused record. -/
theorem c1_fuse_drops_scalar_source_urls :
    deterministicFuse
        [[("source_url", PyVal.str "https://x/1")],
         [("source_url", PyVal.str "https://x/2")]]
      = .ok [("source_url", PyVal.list [])] := by
  rfl

/-- C2: for a cluster whose first record has `mountain_name`,
`accident_date` and `article_date_published` all blank, `assign_event_ids`
hashes the literal seed `"|"` — not the title/source-url/path fallback —
because `seed.strip()` is the string `"|"`, which is truthy, so the
fallback branch (event_id_service.py:196-198) is dead code.  The second
conjunct shows the assigned id differs from the id the documented fallback
(hashing the title `"T"`) would produce. -/
theorem c2_blank_fields_hash_pipe_seed :
    assignEventIds
        [{ article_title := some "T", source_url := some "U",
           file_path := some "P" }] [[0]]
      = some [{ article_title := some "T", source_url := some "U",
                file_path := some "P", event_id := some (md5hex12 "|") }] ∧
    md5hex12 "|" ≠ md5hex12 "T" := by
  exact ⟨rfl, by decide⟩

/-- C3 (counterexample): two distinct `(mountain_name, accident_date)`
pairs — differing in the mountain component by a trailing space — receive
the identical event id, because the derivation strips both components
before hashing. -/
theorem c3_counterexample_distinct_pairs_same_id :
    deriveEventId "Rainier " "2025-10-01" = deriveEventId "Rainier" "2025-10-01" ∧
    (("Rainier " : String), ("2025-10-01" : String)) ≠ ("Rainier", "2025-10-01") := by
  constructor
  · unfold deriveEventId
    rw [eventSeed_pair, eventSeed_pair]
    exact congrArg md5hex12 (by decide)
  · decide

/-- C3 (amended): the event-id derivation is a function of the joined
stripped seed `mountain.strip() + "|" + date.strip()` alone — identical
inputs (and more generally, inputs with equal stripped seeds) always yield
the identical id — and the id is always a 12-character lower-case hex
string.  Distinct stripped seeds are *not* guaranteed distinct ids (the
hash is truncated to 48 bits). -/
theorem c3_event_id_deterministic_seed_function (m d m' d' : String)
    (hseed : pyStrip m ++ "|" ++ pyStrip d = pyStrip m' ++ "|" ++ pyStrip d') :
    deriveEventId m d = deriveEventId m' d' ∧
    (deriveEventId m d).data.length = 12 ∧
    ∀ c ∈ (deriveEventId m d).data, c ∈ "0123456789abcdef".data := by
  refine ⟨?_, md5hex12_data_length _, md5hex12_hex _⟩
  unfold deriveEventId
  rw [eventSeed_pair, eventSeed_pair, hseed]

/-- C3 (witness): the amended theorem applied at concrete inputs whose
stripped seeds agree. -/
theorem c3_event_id_deterministic_seed_function_witness :
    deriveEventId "Rainier" "2025-10-01 " = deriveEventId "Rainier" "2025-10-01" ∧
    (deriveEventId "Rainier" "2025-10-01 ").data.length = 12 := by
  have h := c3_event_id_deterministic_seed_function
    "Rainier" "2025-10-01 " "Rainier" "2025-10-01" (by decide)
  exact ⟨h.1, h.2.1⟩

/-- C10 (counterexample): when clusters overlap, a later cluster overwrites
the event id of a shared record, so the records of the earlier cluster
`[0, 1]` no longer carry one identical id after `assign_event_ids` runs. -/
theorem c10_counterexample_overlapping_clusters :
    ¬ (∀ out : List ERec,
        assignEventIds
            [{ mountain_name := some "A", accident_date := some "2025-01-01" },
             { mountain_name := some "B", accident_date := some "2025-01-01" }]
            [[0, 1], [1]]
          = some out →
        ∀ i ∈ ([0, 1] : List Nat), ∀ j ∈ ([0, 1] : List Nat),
          (out.getD i {}).event_id = (out.getD j {}).event_id) := by
  intro h
  have h01 := h
    [{ mountain_name := some "A", accident_date := some "2025-01-01",
       event_id := some (md5hex12 "A|2025-01-01") },
     { mountain_name := some "B", accident_date := some "2025-01-01",
       event_id := some (md5hex12 "B|2025-01-01") }]
    rfl 0 (by simp) 1 (by simp)
  simp only [List.getD] at h01
  exact absurd h01 (by decide)

/-! ### C10 (amended): disjoint in-range clusters share one id per cluster -/

theorem setEventId_idem (r : ERec) (e : String) :
    setEventId (setEventId r e) e = setEventId r e := rfl

theorem pyIndex_of_range {recs : List ERec} {i : Int}
    (h : 0 ≤ i ∧ i < (recs.length : Int)) : pyIndex recs i = some i.toNat := by
  unfold pyIndex
  rw [if_pos h]

theorem getD_of_range {recs : List ERec} {p : Nat} (h : p < recs.length) :
    recs[p]? = some (recs.getD p {}) := by
  rw [List.getElem?_eq_getElem h, List.getD_eq_getElem?_getD,
    List.getElem?_eq_getElem h, Option.getD_some]

theorem setIdStep_of_range {eid : String} {acc : List ERec} {i : Int}
    (h : 0 ≤ i ∧ i < (acc.length : Int)) :
    setIdStep eid acc i =
      some (acc.set i.toNat (setEventId (acc.getD i.toNat {}) eid)) := by
  have hlt : i.toNat < acc.length := by omega
  unfold setIdStep
  rw [pyIndex_of_range h, Option.some_bind, getD_of_range hlt, Option.some_bind]

theorem setIdFold_spec (eid : String) :
    ∀ (todo : List Int) (acc : List ERec),
    (∀ i ∈ todo, 0 ≤ i ∧ i < (acc.length : Int)) →
    ∃ res, todo.foldlM (setIdStep eid) acc = some res ∧
      res.length = acc.length ∧
      (∀ p : Nat, (∀ i ∈ todo, i.toNat ≠ p) → res.getD p {} = acc.getD p {}) ∧
      (∀ i ∈ todo, res.getD i.toNat {} = setEventId (acc.getD i.toNat {}) eid) := by
  intro todo
  induction todo with
  | nil => exact fun acc _ => ⟨acc, rfl, rfl, fun _ _ => rfl, fun i hi => absurd hi (by simp)⟩
  | cons i rest ih =>
    intro acc hr
    have hi := hr i (List.mem_cons_self _ _)
    have hlt : i.toNat < acc.length := by omega
    have hlen' : (acc.set i.toNat (setEventId (acc.getD i.toNat {}) eid)).length
        = acc.length := List.length_set ..
    have hrest : ∀ j ∈ rest, 0 ≤ j ∧
        j < ((acc.set i.toNat (setEventId (acc.getD i.toNat {}) eid)).length : Int) := by
      intro j hj
      have := hr j (List.mem_cons_of_mem _ hj)
      omega
    obtain ⟨res, hfold, hlen, hunt, htch⟩ := ih _ hrest
    have hset_ne : ∀ p : Nat, i.toNat ≠ p →
        (acc.set i.toNat (setEventId (acc.getD i.toNat {}) eid)).getD p {}
          = acc.getD p {} := by
      intro p hp
      rw [List.getD_eq_getElem?_getD, List.getElem?_set_ne hp,
        ← List.getD_eq_getElem?_getD]
    have hset_self :
        (acc.set i.toNat (setEventId (acc.getD i.toNat {}) eid)).getD i.toNat {}
          = setEventId (acc.getD i.toNat {}) eid := by
      rw [List.getD_eq_getElem?_getD, List.getElem?_set_eq_of_lt _ hlt,
        Option.getD_some]
    refine ⟨res, ?_, hlen.trans hlen', ?_, ?_⟩
    · rw [List.foldlM_cons, setIdStep_of_range hi]
      exact hfold
    · intro p hp
      rw [hunt p (fun j hj => hp j (List.mem_cons_of_mem _ hj)),
        hset_ne p (hp i (List.mem_cons_self _ _))]
    · intro j hj
      rcases List.mem_cons.mp hj with rfl | hjr
      · by_cases hrep : ∀ r ∈ rest, r.toNat ≠ j.toNat
        · rw [hunt j.toNat hrep, hset_self]
        · push_neg at hrep
          obtain ⟨r, hrmem, hreq⟩ := hrep
          have h2 := htch r hrmem
          rw [hreq] at h2
          rw [h2, hset_self, setEventId_idem]
      · have h2 := htch j hjr
        by_cases hji : i.toNat = j.toNat
        · rw [h2, ← hji, hset_self, setEventId_idem, hji]
        · rw [h2, hset_ne j.toNat hji]

theorem assignCluster_spec {recs : List ERec} {i0 : Int} {rest : List Int}
    (hr : ∀ i ∈ i0 :: rest, 0 ≤ i ∧ i < (recs.length : Int)) :
    ∃ out, assignCluster recs (i0 :: rest) = some out ∧
      out.length = recs.length ∧
      (∀ p : Nat, (∀ i ∈ i0 :: rest, i.toNat ≠ p) → out.getD p {} = recs.getD p {}) ∧
      (∀ i ∈ i0 :: rest, out.getD i.toNat {} =
        setEventId (recs.getD i.toNat {})
          (md5hex12 (eventSeed (recs.getD i0.toNat {})))) := by
  have hi0 := hr i0 (List.mem_cons_self _ _)
  have hlt : i0.toNat < recs.length := by omega
  obtain ⟨res, hfold, hlen, hunt, htch⟩ :=
    setIdFold_spec (md5hex12 (eventSeed (recs.getD i0.toNat {}))) (i0 :: rest) recs hr
  refine ⟨res, ?_, hlen, hunt, htch⟩
  show (pyIndex recs i0).bind _ = some res
  rw [pyIndex_of_range hi0, Option.some_bind, getD_of_range hlt, Option.some_bind]
  exact hfold

/-- Pairwise-disjoint clusters do not interfere: the invariant carried over
the fold of `assign_event_ids`. -/
theorem assignEventIds_fold_spec :
    ∀ (clusters : List (List Int)) (cur : List ERec) (out : List ERec),
    clusters.foldlM assignCluster cur = some out →
    (∀ c ∈ clusters, ∀ i ∈ c, 0 ≤ i ∧ i < (cur.length : Int)) →
    List.Pairwise (fun c₁ c₂ => ∀ i ∈ c₁, ∀ j ∈ c₂, i ≠ j) clusters →
    out.length = cur.length ∧
    (∀ p : Nat, (∀ c ∈ clusters, ∀ i ∈ c, i.toNat ≠ p) →
      out.getD p {} = cur.getD p {}) ∧
    (∀ c ∈ clusters, ∀ i0 rest, c = i0 :: rest → ∀ i ∈ c,
      out.getD i.toNat {} = setEventId (cur.getD i.toNat {})
        (md5hex12 (eventSeed (cur.getD i0.toNat {})))) := by
  intro clusters
  induction clusters with
  | nil =>
    intro cur out h _ _
    cases h
    exact ⟨rfl, fun _ _ => rfl, fun c hc => absurd hc (by simp)⟩
  | cons c rem ih =>
    intro cur out hfold hrange hpw
    rw [List.foldlM_cons] at hfold
    obtain ⟨mid, hmid, hrest⟩ := Option.bind_eq_some.mp hfold
    have hpw_head : ∀ c' ∈ rem, ∀ i ∈ c, ∀ j ∈ c', i ≠ j :=
      fun c' hc' i hi j hj => (List.pairwise_cons.mp hpw).1 c' hc' i hi j hj
    have hpw_tail := (List.pairwise_cons.mp hpw).2
    -- facts about the first cluster's effect
    have hc_spec : mid.length = cur.length ∧
        (∀ p : Nat, (∀ i ∈ c, i.toNat ≠ p) → mid.getD p {} = cur.getD p {}) ∧
        (∀ i0 rest, c = i0 :: rest → ∀ i ∈ c,
          mid.getD i.toNat {} = setEventId (cur.getD i.toNat {})
            (md5hex12 (eventSeed (cur.getD i0.toNat {})))) := by
      match c, hmid with
      | [], hmid =>
        cases hmid
        exact ⟨rfl, fun _ _ => rfl, fun i0 rest h => by cases h⟩
      | i0 :: rest, hmid =>
        obtain ⟨out', hout', hlen', hunt', htch'⟩ :=
          assignCluster_spec (hrange _ (List.mem_cons_self _ _))
        rw [hout'] at hmid
        cases hmid
        refine ⟨hlen', hunt', ?_⟩
        intro i0' rest' heq i hi
        cases heq
        exact htch' i hi
    obtain ⟨hmidlen, hmidunt, hmidtch⟩ := hc_spec
    have hrange' : ∀ c' ∈ rem, ∀ i ∈ c', 0 ≤ i ∧ i < (mid.length : Int) := by
      intro c' hc' i hi
      have := hrange c' (List.mem_cons_of_mem _ hc') i hi
      omega
    obtain ⟨hlen, hunt, htch⟩ := ih mid out hrest hrange' hpw_tail
    have toNat_ne : ∀ {i j : Int}, 0 ≤ i → 0 ≤ j → i ≠ j → i.toNat ≠ j.toNat := by
      intro i j h1 h2 h3; omega
    refine ⟨hlen.trans hmidlen, ?_, ?_⟩
    · intro p hp
      rw [hunt p (fun c' hc' i hi => hp c' (List.mem_cons_of_mem _ hc') i hi),
        hmidunt p (hp c (List.mem_cons_self _ _))]
    · intro c' hc' i0 rest heq i hi
      rcases List.mem_cons.mp hc' with rfl | hc'rem
      · -- the head cluster: its positions are untouched by the tail fold
        have hinrange := hrange c' (List.mem_cons_self _ _)
        have huntail : ∀ cr ∈ rem, ∀ j ∈ cr, j.toNat ≠ i.toNat := by
          intro cr hcr j hj
          have h0i := hinrange i hi
          have h0j := hrange' cr hcr j hj
          exact toNat_ne (by omega) (by omega)
            (fun hji => hpw_head cr hcr i hi j hj hji.symm)
        rw [hunt i.toNat huntail]
        exact hmidtch i0 rest heq i hi
      · -- a later cluster: its positions are untouched by the head cluster
        have hgetD_eq : ∀ j ∈ c', mid.getD j.toNat {} = cur.getD j.toNat {} := by
          intro j hj
          apply hmidunt
          intro k hk
          have h0k := hrange c (List.mem_cons_self _ _) k hk
          have h0j := hrange c' (List.mem_cons_of_mem _ hc'rem) j hj
          exact toNat_ne (by omega) (by omega)
            (hpw_head c' hc'rem k hk j hj)
        have := htch c' hc'rem i0 rest heq i hi
        rw [this, hgetD_eq i hi, hgetD_eq i0 (heq ▸ List.mem_cons_self _ _)]

/-- C10 (amended): after `assign_event_ids` runs on clusters whose index
lists are in range and pairwise disjoint (as the deterministic clustering
produces), every record at a cluster's indices carries the identical
event id, and that id is derived solely from the record at the cluster's
first listed index (`md5` of its seed, truncated to 12 hex characters).
Overlapping clusters violate the claim (see the counterexample). -/
theorem c10_cluster_records_share_first_record_id
    (recs : List ERec) (clusters : List (List Int)) (out : List ERec)
    (hout : assignEventIds recs clusters = some out)
    (hrange : ∀ c ∈ clusters, ∀ i ∈ c, 0 ≤ i ∧ i < (recs.length : Int))
    (hdisj : List.Pairwise (fun c₁ c₂ => ∀ i ∈ c₁, ∀ j ∈ c₂, i ≠ j) clusters) :
    ∀ c ∈ clusters, ∀ i0 rest, c = i0 :: rest → ∀ i ∈ c,
      (out.getD i.toNat {}).event_id =
        some (md5hex12 (eventSeed (recs.getD i0.toNat {}))) := by
  intro c hc i0 rest heq i hi
  obtain ⟨-, -, htch⟩ := assignEventIds_fold_spec clusters recs out hout hrange hdisj
  rw [htch c hc i0 rest heq i hi]
  rfl

/-- Records for the C10 witness: three records, clusters `[[0, 1], [2]]`. -/
def c10recs : List ERec :=
  [{ mountain_name := some "A", accident_date := some "2025-01-01" },
   { article_title := some "t" },
   { mountain_name := some "B", accident_date := some "2025-01-02" }]

/-- Output of `assign_event_ids` on the C10 witness input. -/
def c10out : List ERec :=
  [{ mountain_name := some "A", accident_date := some "2025-01-01",
     event_id := some (md5hex12 "A|2025-01-01") },
   { article_title := some "t", event_id := some (md5hex12 "A|2025-01-01") },
   { mountain_name := some "B", accident_date := some "2025-01-02",
     event_id := some (md5hex12 "B|2025-01-02") }]

/-- C10 (witness): the amended theorem applied to two concrete disjoint
in-range clusters over three records. -/
theorem c10_cluster_records_share_first_record_id_witness :
    assignEventIds c10recs [[0, 1], [2]] = some c10out ∧
    (c10out.getD 1 {}).event_id = some (md5hex12 (eventSeed (c10recs.getD 0 {}))) := by
  refine ⟨rfl, ?_⟩
  exact c10_cluster_records_share_first_record_id c10recs [[0, 1], [2]] c10out rfl
    (by decide) (by decide) [0, 1] (by simp) 0 [1] rfl 1 (by simp)

/-! ### `openai_call_manager` and `accident_llm.llm_extract` (C8) -/

/-- State of the persistent call counter (`openai_call_manager.py`):
`cap` is `_CAP` (`MAX_OPENAI_CALLS`, `<= 0` = unlimited), `count` the
persisted `count`. -/
structure CallState where
  cap : Int
  count : Int
  deriving Repr, DecidableEq

/-- `can_make_call()` (openai_call_manager.py:41-47). -/
def canMakeCall (st : CallState) : Bool :=
  if st.cap ≤ 0 then true else st.count < st.cap

/-- `record_call(n)` (openai_call_manager.py:56-64). -/
def recordCall (n : Int) (st : CallState) : CallState :=
  if st.cap ≤ 0 then st else { st with count := st.count + n }

/-- `llm_extract(article_text)` (accident_llm.py:83-151).  The OpenAI
client and `json.loads` are external collaborators, modelled as oracles:
`chat k` is the content string of the `k`-th chat-completion request of
this invocation (`Except.error` = the request raised), `jsonParse` is
`json.loads` (`Option.none` = raised).  The prompt construction (text
truncation to 18000 chars, `pre_extract_fields`, schema text) is pure and
only feeds the request contents, over which the oracle is universally
quantified.  The result triple is (returned value or propagated exception,
final counter state, number of chat-completion requests issued). -/
def llmExtract (avail : Bool) (chat : Nat → Except Unit String)
    (jsonParse : String → Option PyVal) (article_text : String)
    (st : CallState) : Except Unit PyVal × CallState × Nat :=
  -- `content = article_text[:18000]; pre = pre_extract_fields(article_text)`
  if !avail then (.ok (.dict []), st, 0)
  else if !canMakeCall st then (.ok (.dict []), st, 0)
  else
    match chat 0 with
    | .error e => (.error e, st, 1)
    | .ok raw0 =>
      let st1 := recordCall 1 st
      let raw := pyStrip raw0
      match jsonParse raw with
      | some (.dict d) => (.ok (.dict d), st1, 1)
      | _ =>
        match chat 1 with
        | .error e => (.error e, st1, 2)
        | .ok raw1 =>
          let st2 := recordCall 1 st1
          match jsonParse (pyStrip raw1) with
          | some v => (.ok v, st2, 2)
          | Option.none => (.ok (.dict []), st2, 2)

/-- C8: whenever the budget gate reports that no call may be made,
`llm_extract` returns the empty mapping, leaves the counter untouched, and
issues zero chat-completion requests — in particular no repair request —
regardless of the article text, the client availability, and the behaviour
of the chat/JSON oracles. -/
theorem c8_budget_exhausted_no_requests
    (avail : Bool) (chat : Nat → Except Unit String)
    (jsonParse : String → Option PyVal) (article_text : String)
    (st : CallState) (h : canMakeCall st = false) :
    llmExtract avail chat jsonParse article_text st = (.ok (.dict []), st, 0) := by
  cases avail <;> simp [llmExtract, h]

/-- C8 (witness): the theorem applied at a concrete exhausted state
(`cap = 1`, `count = 1`). -/
theorem c8_budget_exhausted_no_requests_witness :
    canMakeCall ⟨1, 1⟩ = false ∧
    llmExtract true (fun _ => .error ()) (fun _ => Option.none) "text" ⟨1, 1⟩
      = (.ok (.dict []), ⟨1, 1⟩, 0) :=
  ⟨by decide,
   c8_budget_exhausted_no_requests true (fun _ => .error ()) (fun _ => Option.none)
     "text" ⟨1, 1⟩ (by decide)⟩

/-! ### `accident_utils._iso_or_none`

The function first tries `datetime.fromisoformat` (passthrough), then
`dateutil.parser.parse(s, fuzzy=True)` (an external library, modelled as an
oracle returning the parsed `(year, month, day)` or `Option.none` when the
library is absent or the parse fails — both fall through), then two manual
`YYYY/MM/DD` / `MM/DD/YYYY` patterns. -/

/-- Gregorian leap year (`datetime`'s calendar). -/
def isLeap (y : Nat) : Bool := y % 4 = 0 ∧ (y % 100 ≠ 0 ∨ y % 400 = 0)

/-- Days in a month. -/
def daysInMonth (y m : Nat) : Nat :=
  if m = 2 then (if isLeap y then 29 else 28)
  else if m = 4 ∨ m = 6 ∨ m = 9 ∨ m = 11 then 30
  else 31

/-- Valid `datetime.date` components (`MINYEAR = 1`, `MAXYEAR = 9999`). -/
def validDate (y m d : Nat) : Bool :=
  1 ≤ y ∧ y ≤ 9999 ∧ 1 ≤ m ∧ m ≤ 12 ∧ 1 ≤ d ∧ d ≤ daysInMonth y m

/-- `datetime.date(y, m, d).isoformat()`: zero-padded `YYYY-MM-DD`
(years of real `datetime.date` values are at most 9999, so four fixed
digit positions are exact). -/
def isoDate (y m d : Nat) : String :=
  ⟨[digitChar (y / 1000), digitChar (y / 100), digitChar (y / 10), digitChar y, '-',
    digitChar (m / 10), digitChar m, '-', digitChar (d / 10), digitChar d]⟩

/-- Read exactly two digits. -/
def digits2 : List Char → Option (Nat × List Char)
  | a :: b :: rest =>
    if a.isDigit ∧ b.isDigit then some (10 * (a.toNat - 48) + (b.toNat - 48), rest)
    else Option.none
  | _ => Option.none

/-- Read exactly four digits. -/
def digits4 : List Char → Option (Nat × List Char)
  | a :: b :: c :: d :: rest =>
    if a.isDigit ∧ b.isDigit ∧ c.isDigit ∧ d.isDigit then
      some (1000 * (a.toNat - 48) + 100 * (b.toNat - 48) +
        10 * (c.toNat - 48) + (d.toNat - 48), rest)
    else Option.none
  | _ => Option.none

/-- Trailing UTC-offset acceptance (`±HH:MM` or nothing). -/
def tzOK : List Char → Bool
  | [] => true
  | c :: rest =>
    (c == '+' || c == '-') &&
    match digits2 rest with
    | some (hh, ':' :: r2) =>
      decide (hh < 24) &&
      (match digits2 r2 with
       | some (mm, []) => decide (mm < 60)
       | _ => false)
    | _ => false

/-- Fractional-second part after `'.'`: 3 or 6 digits, then an optional
offset. -/
def fracOK (cs : List Char) : Bool :=
  let (ds, rest) := cs.span Char.isDigit
  (ds.length == 3 || ds.length == 6) && tzOK rest

/-- Time-of-day acceptance after the separator: `HH[:MM[:SS[.fff[fff]]]]`
plus optional offset (the core `fromisoformat` time grammar). -/
def timeOK (cs : List Char) : Bool :=
  match digits2 cs with
  | some (hh, rest) =>
    decide (hh < 24) &&
    match rest with
    | [] => true
    | ':' :: r =>
      (match digits2 r with
       | some (mm, r2) =>
         decide (mm < 60) &&
         (match r2 with
          | [] => true
          | ':' :: r3 =>
            (match digits2 r3 with
             | some (ss, r4) =>
               decide (ss < 60) &&
               (match r4 with
                | [] => true
                | '.' :: r5 => fracOK r5
                | other => tzOK other)
             | Option.none => false)
          | other => tzOK other)
       | Option.none => false)
    | other => tzOK other
  | Option.none => false

/-- Acceptance test of `datetime.fromisoformat` on an already-stripped
string: a valid `YYYY-MM-DD` date, optionally followed by a one-character
separator and a time-of-day. -/
def fromisoOK (s : String) : Bool :=
  match digits4 s.data with
  | some (y, '-' :: r1) =>
    (match digits2 r1 with
     | some (m, '-' :: r2) =>
       (match digits2 r2 with
        | some (d, rest) =>
          validDate y m d &&
          (match rest with
           | [] => true
           | _ :: timepart => timeOK timepart)
        | Option.none => false)
     | _ => false)
  | _ => false

/-- The two manual fallback patterns of `_iso_or_none`:
`^(\d{4})/(\d{2})/(\d{2})$` then `^(\d{2})/(\d{2})/(\d{4})$`; an invalid
`datetime(y, mo, d)` raises inside the matching arm and is swallowed
(`except: pass`), and the other pattern cannot match the same shape, so the
loop returns `None`. -/
def slashFallback : List Char → Option String
  | [y1, y2, y3, y4, '/', m1, m2, '/', d1, d2] =>
    if [y1, y2, y3, y4, m1, m2, d1, d2].all Char.isDigit then
      let y := digitsVal [y1, y2, y3, y4]
      let m := digitsVal [m1, m2]
      let d := digitsVal [d1, d2]
      if validDate y m d then some (isoDate y m d) else Option.none
    else Option.none
  | [m1, m2, '/', d1, d2, '/', y1, y2, y3, y4] =>
    if [m1, m2, d1, d2, y1, y2, y3, y4].all Char.isDigit then
      let y := digitsVal [y1, y2, y3, y4]
      let m := digitsVal [m1, m2]
      let d := digitsVal [d1, d2]
      if validDate y m d then some (isoDate y m d) else Option.none
    else Option.none
  | _ => Option.none

/-- The `dateutil.parser.parse(s, fuzzy=True).date()` oracle: `Option.none`
covers both an absent library and a parse failure (the code falls through
to the manual patterns in either case). -/
abbrev DateOracle := String → Option (Nat × Nat × Nat)

/-- A well-behaved oracle only returns components of real `datetime.date`
values. -/
def DateOracleValid (du : DateOracle) : Prop :=
  ∀ s y m d, du s = some (y, m, d) → validDate y m d = true

/-- `_iso_or_none(s)` (accident_utils.py:34-66) on a `PyVal`: falsy or
non-string input yields `None`; otherwise strip, ISO passthrough, dateutil
oracle, manual slash patterns. -/
def isoOrNone (du : DateOracle) : PyVal → Option String
  | .str s =>
    if s = "" then Option.none
    else
      let t := pyStrip s
      if fromisoOK t then some t
      else
        match du t with
        | some (y, m, d) => some (isoDate y m d)
        | Option.none => slashFallback t.data
  | _ => Option.none

/-! ### `compute_confidence(pre, llm)` (accident_postprocess.py:409-451 and
the identical copy accident_info.py:845-906) -/

/-- Python `for x in v`: the sequence iterated, or `Option.none` for a
`TypeError` (non-iterable).  Strings iterate their characters (as 1-char
strings), dicts their keys. -/
def pyIter : PyVal → Option (List PyVal)
  | .list xs => some xs
  | .str s => some (s.data.map (fun c => .str ⟨[c]⟩))
  | .dict kvs => some (kvs.map (fun p => .str p.1))
  | _ => Option.none

/-- Python `v == s` for a string literal `s` (no exception; cross-type
comparison is `False`). -/
def pyEqStr : PyVal → String → Bool
  | .str t, s => t = s
  | _, _ => false

/-- Python `x[0]`; `Option.none` models the raised
`IndexError`/`KeyError`/`TypeError`. -/
def pyGetItem0 : PyVal → Option PyVal
  | .list (x :: _) => some x
  | .list [] => Option.none
  | .str ⟨c :: _⟩ => some (.str ⟨[c]⟩)
  | .str ⟨[]⟩ => Option.none
  | _ => Option.none

/-- Python `"age" in v`: key test for dicts, element test for lists,
substring test for strings; `Option.none` models the `TypeError`. -/
def pyContainsAge : PyVal → Option Bool
  | .dict kvs => some ((kvs.find? (fun p => p.1 = "age")).isSome)
  | .list xs => some (xs.any (fun v => pyEqStr v "age"))
  | .str s => some (strContains s "age")
  | _ => Option.none

/-- Python `p["age"]` after a successful `"age" in p`; only dicts subscript
by string — a list or string raises `TypeError`/`IndexError`. -/
def pyGetAge : PyVal → Option PyVal
  | .dict kvs => lookupA kvs "age"
  | _ => Option.none

/-- Python `q.get("age", -1)`; non-dicts have no `.get` (`AttributeError`). -/
def pyDictGetAge : PyVal → Option PyVal
  | .dict kvs => some ((lookupA kvs "age").getD (.int (-1)))
  | _ => Option.none

/-- `round(x, 2)` (exact on the scorer's multiples of 0.05, where
round-half-even and round-half-up agree). -/
def round2 (q : Rat) : Rat := (round (100 * q) : Int) / 100

/-- Date block of `compute_confidence`: the loop over `pre_dates` adds
0.25 and breaks at the first normalized date equal to the LLM's
`accident_date` or `article_date_published` — i.e. it hits iff some element
matches; `Except.error` models a `TypeError` from iterating a non-iterable
`pre_dates`, caught by the outer `except`. -/
def ccDatesHit (du : DateOracle) (pre llm : PyDict) : Except Unit Bool :=
  let pd := (lookupA pre "pre_dates").getD (.list [])
  match pyIter pd with
  | Option.none => .error ()
  | some elems =>
    .ok (elems.any (fun d =>
      match isoOrNone du d with
      | some iso =>
        (match lookupA llm "accident_date" with
         | some v => pyEqStr v iso
         | Option.none => false) ||
        (match lookupA llm "article_date_published" with
         | some v => pyEqStr v iso
         | Option.none => false)
      | Option.none => false))

/-- Score contribution of the date block. -/
def ccDates (du : DateOracle) (pre llm : PyDict) : Except Unit Rat :=
  (ccDatesHit du pre llm).map (fun b => if b then (1/4 : Rat) else 0)

/-- Gazetteer block: hit iff the first gazetteer match is a
case-insensitive substring of the LLM's `mountain_name`.  Python's
evaluation order: the subscript `pre['gazetteer_matches'][0]` may raise;
the truthiness of `llm.get('mountain_name')` short-circuits before
`g0.lower()` runs, so a non-string `g0` or `mountain_name` raises only
when `mountain_name` is truthy. -/
def ccGazetteerHit (pre llm : PyDict) : Except Unit Bool :=
  match lookupA pre "gazetteer_matches" with
  | some gm =>
    if truthy gm then
      match pyGetItem0 gm with
      | Option.none => .error ()
      | some g0 =>
        match lookupA llm "mountain_name" with
        | some mv =>
          if truthy mv then
            match g0 with
            | .str gs =>
              (match mv with
               | .str ms => .ok (strContains (pyLower ms) (pyLower gs))
               | _ => .error ())
            | _ => .error ()
          else .ok false
        | Option.none => .ok false
    else .ok false
  | Option.none => .ok false

/-- Score contribution of the gazetteer block. -/
def ccGazetteer (pre llm : PyDict) : Except Unit Rat :=
  (ccGazetteerHit pre llm).map (fun b => if b then (1/5 : Rat) else 0)

/-- Fall-height block (inner `try`): +0.2 when the pre-extracted feet,
converted to meters, is within 15% relative error of the LLM estimate;
conversion failures contribute nothing. -/
def ccFallHeight (pre llm : PyDict) : Rat :=
  match lookupA pre "fall_height_feet_pre", lookupA llm "fall_height_meters_estimate" with
  | some fv, some mv =>
    (match pyFloatOf fv, pyFloatOf mv with
     | some feet, some meters_est =>
       if |feet * (3048/10000 : Rat) - meters_est| / max meters_est 1 < (15/100 : Rat)
       then (1/5 : Rat) else 0
     | _, _ => 0)
  | _, _ => 0

/-- Fatality block (inner `try`): +0.15 on exact `int` equality. -/
def ccFatalities (pre llm : PyDict) : Rat :=
  match lookupA pre "num_fatalities_pre", lookupA llm "num_fatalities" with
  | some pv, some lv =>
    (match pyIntOf pv, pyIntOf lv with
     | some a, some b => if a = b then (3/20 : Rat) else 0
     | _, _ => 0)
  | _, _ => 0

/-- One `(p, q)` age-comparison of the people block, with Python's
short-circuit order; `Except.error` models an uncaught exception (there is
no inner `try` here). -/
def ccPersonMatch (p q : PyVal) : Except Unit Bool := do
  match pyContainsAge p with
  | Option.none => .error ()
  | some cp =>
    if !cp then pure false
    else
      match pyContainsAge q with
      | Option.none => .error ()
      | some cq =>
        if !cq then pure false
        else
          match pyGetAge p with
          | Option.none => .error ()
          | some pv =>
            match pyIntOf pv with
            | Option.none => .error ()
            | some np =>
              match pyDictGetAge q with
              | Option.none => .error ()
              | some qv =>
                match pyIntOf qv with
                | Option.none => .error ()
                | some nq => pure (np = nq)

/-- Inner loop over the LLM people for one pre-extracted person (`break`
on the first match). -/
def ccInnerLoop (p : PyVal) : List PyVal → Except Unit Bool
  | [] => pure false
  | q :: rest => do
    let b ← ccPersonMatch p q
    if b then pure true else ccInnerLoop p rest

/-- People block: hit iff at least one pre-extracted age matches an
LLM-extracted age (`matches >= 1`); `Except.error` models an uncaught
exception anywhere in the two loops (which forfeits the whole block,
caught by the outer `except`). -/
def ccPeopleHit (pre llm : PyDict) : Except Unit Bool :=
  match lookupA pre "people_pre", lookupA llm "people" with
  | some pp, some lp =>
    (match pyIter pp with
     | Option.none => .error ()
     | some pre_people =>
       let ll_people := match lp with | .list xs => xs | _ => []
       (pre_people.foldlM
         (fun acc p => (ccInnerLoop p ll_people).map
           (fun b => if b then acc + 1 else acc))
         (0 : Nat)).map (fun nmatches => nmatches ≥ 1))
  | _, _ => .ok false

/-- Score contribution of the people block. -/
def ccPeople (pre llm : PyDict) : Except Unit Rat :=
  (ccPeopleHit pre llm).map (fun b => if b then (1/5 : Rat) else 0)

/-- `compute_confidence(pre, llm)`: the five blocks run in order inside one
`try`; an exception in a block freezes the score accumulated so far
(`except: pass`), and the result is `min(1.0, round(score, 2))`. -/
def computeConfidence (du : DateOracle) (pre llm : PyDict) : Rat :=
  let finish : Rat → Rat := fun s => min 1 (round2 s)
  match ccDates du pre llm with
  | .error _ => finish 0
  | .ok d1 =>
    match ccGazetteer pre llm with
    | .error _ => finish d1
    | .ok d2 =>
      let d3 := ccFallHeight pre llm
      let d4 := ccFatalities pre llm
      match ccPeople pre llm with
      | .error _ => finish (d1 + d2 + d3 + d4)
      | .ok d5 => finish (d1 + d2 + d3 + d4 + d5)

/-! ### C7: confidence bounds -/

theorem round2_nonneg {s : Rat} (hs : 0 ≤ s) : 0 ≤ round2 s := by
  unfold round2
  have h1 : (0 : Int) ≤ round (100 * s) := by
    rw [round_eq]
    exact Int.floor_nonneg.mpr (by linarith)
  positivity

theorem finish_bounds {s : Rat} (hs : 0 ≤ s) :
    0 ≤ min 1 (round2 s) ∧ min 1 (round2 s) ≤ 1 :=
  ⟨le_min (by norm_num) (round2_nonneg hs), min_le_left _ _⟩

theorem ccDates_nonneg (du : DateOracle) (pre llm : PyDict) :
    ∀ d, ccDates du pre llm = .ok d → 0 ≤ d := by
  intro d h
  unfold ccDates at h
  rcases hc : ccDatesHit du pre llm with e | b <;> rw [hc] at h
  · cases h
  · simp only [Except.map, Except.ok.injEq] at h
    subst h
    split <;> norm_num

theorem ccGazetteer_nonneg (pre llm : PyDict) :
    ∀ d, ccGazetteer pre llm = .ok d → 0 ≤ d := by
  intro d h
  unfold ccGazetteer at h
  rcases hc : ccGazetteerHit pre llm with e | b <;> rw [hc] at h
  · cases h
  · simp only [Except.map, Except.ok.injEq] at h
    subst h
    split <;> norm_num

theorem ccFallHeight_nonneg (pre llm : PyDict) : 0 ≤ ccFallHeight pre llm := by
  unfold ccFallHeight
  split
  · split
    · split <;> norm_num
    · norm_num
  · norm_num

theorem ccFatalities_nonneg (pre llm : PyDict) : 0 ≤ ccFatalities pre llm := by
  unfold ccFatalities
  split
  · split
    · split <;> norm_num
    · norm_num
  · norm_num

theorem ccPeople_nonneg (pre llm : PyDict) :
    ∀ d, ccPeople pre llm = .ok d → 0 ≤ d := by
  intro d h
  unfold ccPeople at h
  rcases hc : ccPeopleHit pre llm with e | b <;> rw [hc] at h
  · cases h
  · simp only [Except.map, Except.ok.injEq] at h
    subst h
    split <;> norm_num

/-- C7: `compute_confidence` always returns a value in `[0, 1]`;
exceptions are modelled by the `Except` plumbing of the five blocks and
always resolve to a partial score, never propagate (the function is total
by construction). -/
theorem c7_compute_confidence_bounds (du : DateOracle) (pre llm : PyDict) :
    0 ≤ computeConfidence du pre llm ∧ computeConfidence du pre llm ≤ 1 := by
  unfold computeConfidence
  rcases h1 : ccDates du pre llm with e | d1
  · exact finish_bounds le_rfl
  · have hd1 := ccDates_nonneg du pre llm d1 h1
    rcases h2 : ccGazetteer pre llm with e | d2
    · exact finish_bounds hd1
    · have hd2 := ccGazetteer_nonneg pre llm d2 h2
      have hd3 := ccFallHeight_nonneg pre llm
      have hd4 := ccFatalities_nonneg pre llm
      rcases h5 : ccPeople pre llm with e | d5
      · exact finish_bounds (by linarith)
      · have hd5 := ccPeople_nonneg pre llm d5 h5
        exact finish_bounds (by linarith)

/-! ### C6: blending the model score with the deterministic score -/

theorem lookupA_updateA {kvs : PyDict} {k : String} (v : PyVal)
    (h : (kvs.find? (fun p => p.1 = k)).isSome) :
    lookupA (updateA kvs k v) k = some v := by
  induction kvs with
  | nil => simp [List.find?] at h
  | cons a t ih =>
    by_cases ha : a.1 = k
    · simp [updateA, lookupA, List.find?, ha]
    · have h' : (t.find? (fun p => p.1 = k)).isSome := by
        simpa [List.find?_cons, ha] using h
      simpa [updateA, lookupA, List.find?_cons, ha] using ih h'

theorem lookupA_append_right {kvs : PyDict} {k : String} (v : PyVal)
    (h : kvs.find? (fun p => p.1 = k) = Option.none) :
    lookupA (kvs ++ [(k, v)]) k = some v := by
  induction kvs with
  | nil => simp [lookupA, List.find?]
  | cons a t ih =>
    by_cases ha : a.1 = k
    · simp [List.find?_cons, ha] at h
    · have h' : t.find? (fun p => p.1 = k) = Option.none := by
        simpa [List.find?_cons, ha] using h
      simpa [lookupA, List.find?_cons, ha] using ih h'

theorem lookupA_setA (kvs : PyDict) (k : String) (v : PyVal) :
    lookupA (setA kvs k v) k = some v := by
  unfold setA
  by_cases h : (kvs.find? (fun p => p.1 = k)).isSome
  · rw [if_pos h]
    exact lookupA_updateA v h
  · rw [if_neg h]
    exact lookupA_append_right v (Option.not_isSome_iff_eq_none.mp h)

/-- The confidence-score finalization of `extract_accident_info`
(accident_info.py:938-950): if the postprocessed record carries a float
`extraction_confidence_score`, blend it with the deterministic score as
`round(0.4 * model + 0.6 * det, 2)`; otherwise store the deterministic
score. -/
def applyConfidenceScore (du : DateOracle) (pre info : PyDict) : PyDict :=
  match lookupA info "extraction_confidence_score" with
  | some (.float m) =>
    setA info "extraction_confidence_score"
      (.float (round2 ((4/10 : Rat) * m + (6/10 : Rat) * computeConfidence du pre info)))
  | _ =>
    setA info "extraction_confidence_score" (.float (computeConfidence du pre info))

/-- C6: the final stored score is the 0.4/0.6 blend when the LLM output
carried a float score, and the bare deterministic `compute_confidence`
value otherwise. -/
theorem c6_confidence_blend (du : DateOracle) (pre info : PyDict) :
    (∀ m : Rat, lookupA info "extraction_confidence_score" = some (.float m) →
      lookupA (applyConfidenceScore du pre info) "extraction_confidence_score"
        = some (.float (round2 ((4/10 : Rat) * m +
            (6/10 : Rat) * computeConfidence du pre info)))) ∧
    ((∀ m : Rat, lookupA info "extraction_confidence_score" ≠ some (.float m)) →
      lookupA (applyConfidenceScore du pre info) "extraction_confidence_score"
        = some (.float (computeConfidence du pre info))) := by
  constructor
  · intro m hm
    unfold applyConfidenceScore
    rw [hm]
    exact lookupA_setA ..
  · intro hnot
    unfold applyConfidenceScore
    split
    · exact absurd (by assumption) (hnot _)
    · exact lookupA_setA ..

/-- C6 (witness): both branches of the theorem at concrete inputs. -/
theorem c6_confidence_blend_witness :
    lookupA (applyConfidenceScore (fun _ => Option.none) []
        [("extraction_confidence_score", .float (1/2))]) "extraction_confidence_score"
      = some (.float (round2 ((4/10 : Rat) * (1/2) +
          (6/10 : Rat) * computeConfidence (fun _ => Option.none) []
            [("extraction_confidence_score", .float (1/2))]))) ∧
    lookupA (applyConfidenceScore (fun _ => Option.none) [] [])
        "extraction_confidence_score"
      = some (.float (computeConfidence (fun _ => Option.none) [] [])) :=
  ⟨(c6_confidence_blend (fun _ => Option.none) []
      [("extraction_confidence_score", .float (1/2))]).1 (1/2) rfl,
   (c6_confidence_blend (fun _ => Option.none) [] []).2
     (fun _ h => Option.noConfusion h)⟩

/-! ### `accident_preextract.pre_extract_fields` (C4)

Each regex scan that the claim touches is embedded as a direct matcher
over the character list, reproducing `re.finditer` semantics (leftmost
matches, greedy quantifiers with the backtracking the concrete patterns
admit, non-overlapping continuation after each match).  Character classes
are the ASCII classes the patterns spell out. -/

/-- `[A-Z]`. -/
def isUpperAZ (c : Char) : Bool := decide (65 ≤ c.toNat) && decide (c.toNat ≤ 90)

/-- `[a-z]`. -/
def isLowerAZ (c : Char) : Bool := decide (97 ≤ c.toNat) && decide (c.toNat ≤ 122)

/-- `\w` (ASCII fragment). -/
def isWordC (c : Char) : Bool := isUpperAZ c || isLowerAZ c || c.isDigit || c == '_'

/-- `\b` before the current position: start of text or non-word previous
character. -/
def prevNonWord : Option Char → Bool
  | Option.none => true
  | some c => !isWordC c

/-- `\b` after a match: end of text or non-word next character. -/
def nonWordHead : List Char → Bool
  | [] => true
  | c :: _ => !isWordC c

/-- Case-insensitive literal prefix match: `pat` is given lower-case;
returns the actually-matched characters and the rest. -/
def matchCIPrefix : List Char → List Char → Option (List Char × List Char)
  | [], cs => some ([], cs)
  | _ :: _, [] => Option.none
  | p :: ps, c :: cs =>
    if lowerChar c == p then
      (matchCIPrefix ps cs).map (fun q => (c :: q.1, q.2))
    else Option.none

/-- The `(?:\s+[A-Z][a-z]+){1,3}` repetitions of the named-people pattern:
all reachable states `(consumed, rest)` for 1, 2, … up to `limit`
repetitions, in increasing order. -/
def peopleExtras : Nat → List Char → List (List Char × List Char)
  | 0, _ => []
  | limit + 1, cs =>
    let (ws, r1) := cs.span isPySpace
    if ws.isEmpty then []
    else
      match r1 with
      | [] => []
      | u :: r2 =>
        if isUpperAZ u then
          let (ls, r3) := r2.span isLowerAZ
          if ls.isEmpty then []
          else
            (ws ++ u :: ls, r3) ::
              (peopleExtras limit r3).map (fun q => (ws ++ u :: ls ++ q.1, q.2))
        else []

/-- The `,\s*(\d{1,3})\b` tail of the named-people pattern: a 4th digit or
a trailing word character defeats every `{1,3}` backtrack, so the match
succeeds exactly on a 1–3 digit run followed by a non-word character.
Returns the age, the rest, and the last matched character. -/
def personComma (cs : List Char) : Option (Nat × List Char × Char) :=
  match cs with
  | ',' :: r1 =>
    let (_, r2) := r1.span isPySpace
    let (ds, r3) := r2.span Char.isDigit
    if decide (1 ≤ ds.length) && decide (ds.length ≤ 3) && nonWordHead r3 then
      (ds.getLast?).map (fun lc => (digitsVal ds, r3, lc))
    else Option.none
  | _ => Option.none

/-- One attempt of `\b([A-Z][a-z]+(?:\s+[A-Z][a-z]+){1,3}),\s*(\d{1,3})\b`
at the current position (greedy: most repetitions first). -/
def tryPerson (prev : Option Char) (cs : List Char) :
    Option (String × Nat × List Char × Char) :=
  if prevNonWord prev then
    match cs with
    | c0 :: r0 =>
      if isUpperAZ c0 then
        let (ls, r1) := r0.span isLowerAZ
        if ls.isEmpty then Option.none
        else
          (peopleExtras 3 r1).reverse.findSome? (fun q =>
            (personComma q.2).map (fun pr => (⟨c0 :: (ls ++ q.1)⟩, pr.1, pr.2.1, pr.2.2)))
      else Option.none
    | [] => Option.none
  else Option.none

/-- `re.finditer` loop for the named-people pattern. -/
def scanPeopleAux : Nat → Option Char → List Char → List (String × Nat)
  | 0, _, _ => []
  | fuel + 1, prev, cs =>
    match cs with
    | [] => []
    | c :: rest =>
      match tryPerson prev cs with
      | some (name, age, rem, lc) => (name, age) :: scanPeopleAux fuel (some lc) rem
      | Option.none => scanPeopleAux fuel (some c) rest

/-- All named-people matches of the text. -/
def scanPeople (cs : List Char) : List (String × Nat) := scanPeopleAux cs.length Option.none cs

/-- `[- ]?` followed by a case-insensitive literal: greedy — consume the
separator when the literal follows it, else try the literal directly. -/
def optSepThen (pat : List Char) (cs : List Char) : Option (List Char × List Char) :=
  match cs with
  | c :: rest =>
    if (c == '-' || c == ' ') then
      match matchCIPrefix pat rest with
      | some q => some (c :: q.1, q.2)
      | Option.none => matchCIPrefix pat cs
    else matchCIPrefix pat cs
  | [] => matchCIPrefix pat cs

/-- One attempt of
`\b(\d{1,3})[- ]?year[- ]?old\b(?:\s+([A-Za-z\-]+))?` at the current
position.  Returns age, optional trailing word, rest, last matched char. -/
def tryUnnamed (prev : Option Char) (cs : List Char) :
    Option (Nat × Option String × List Char × Char) :=
  if prevNonWord prev then
    let (ds, r1) := cs.span Char.isDigit
    if decide (1 ≤ ds.length) && decide (ds.length ≤ 3) then
      match optSepThen ['y', 'e', 'a', 'r'] r1 with
      | some (_, r2) =>
        match optSepThen ['o', 'l', 'd'] r2 with
        | some (m2, r3) =>
          if nonWordHead r3 then
            -- optional `\s+([A-Za-z\-]+)`
            let (ws, r4) := r3.span isPySpace
            let (wd, r5) := r4.span (fun c => isUpperAZ c || isLowerAZ c || c == '-')
            if !ws.isEmpty && !wd.isEmpty then
              (wd.getLast?).map (fun lc => (digitsVal ds, some ⟨wd⟩, r5, lc))
            else
              (m2.getLast?).map (fun lc => (digitsVal ds, Option.none, r3, lc))
          else Option.none
        | Option.none => Option.none
      | Option.none => Option.none
    else Option.none
  else Option.none

/-- `re.finditer` loop for the unnamed-ages pattern. -/
def scanUnnamedAux : Nat → Option Char → List Char → List (Nat × Option String)
  | 0, _, _ => []
  | fuel + 1, prev, cs =>
    match cs with
    | [] => []
    | c :: rest =>
      match tryUnnamed prev cs with
      | some (age, sexw, rem, lc) => (age, sexw) :: scanUnnamedAux fuel (some lc) rem
      | Option.none => scanUnnamedAux fuel (some c) rest

/-- All unnamed-age matches of the text. -/
def scanUnnamed (cs : List Char) : List (Nat × Option String) :=
  scanUnnamedAux cs.length Option.none cs

/-- One attempt of `\b(\d+)\s+word\b` at the current position (`\d+` must
take the whole digit run, since whitespace must follow). -/
def tryDigitsBefore (word : List Char) (needPrevB : Bool) (prev : Option Char)
    (cs : List Char) : Option (Nat × List Char × Char) :=
  if !needPrevB || prevNonWord prev then
    let (ds, r1) := cs.span Char.isDigit
    if ds.isEmpty then Option.none
    else
      let (ws, r2) := r1.span isPySpace
      if ws.isEmpty then Option.none
      else
        match matchCIPrefix word r2 with
        | some (m, r3) =>
          if nonWordHead r3 then
            (m.getLast?).map (fun lc => (digitsVal ds, r3, lc))
          else Option.none
        | Option.none => Option.none
  else Option.none

/-- `re.finditer` loop for a `(\d+)\s+word\b` pattern (with or without a
leading `\b`). -/
def scanDigitsBeforeAux (word : List Char) (needPrevB : Bool) :
    Nat → Option Char → List Char → List Nat
  | 0, _, _ => []
  | fuel + 1, prev, cs =>
    match cs with
    | [] => []
    | c :: rest =>
      match tryDigitsBefore word needPrevB prev cs with
      | some (n, rem, lc) => n :: scanDigitsBeforeAux word needPrevB fuel (some lc) rem
      | Option.none => scanDigitsBeforeAux word needPrevB fuel (some c) rest

/-- All matches of `(\d+)\s+word` (optionally `\b`-anchored in front). -/
def scanDigitsBefore (word : List Char) (needPrevB : Bool) (cs : List Char) : List Nat :=
  scanDigitsBeforeAux word needPrevB cs.length Option.none cs

/-- One attempt of `\b(killed)\s+(\d+)\b`: group 1 is the literal word
`killed` (the source then feeds it to `int(...)`, which always raises and
is swallowed — the pattern can never contribute a count). -/
def tryKilledFirst (prev : Option Char) (cs : List Char) :
    Option (List Char × List Char × Char) :=
  if prevNonWord prev then
    match matchCIPrefix ['k', 'i', 'l', 'l', 'e', 'd'] cs with
    | some (m, r1) =>
      let (ws, r2) := r1.span isPySpace
      if ws.isEmpty then Option.none
      else
        let (ds, r3) := r2.span Char.isDigit
        if !ds.isEmpty && nonWordHead r3 then
          (ds.getLast?).map (fun lc => (m, r3, lc))
        else Option.none
    | Option.none => Option.none
  else Option.none

/-- `re.finditer` loop for `\b(killed)\s+(\d+)\b`, collecting group 1. -/
def scanKilledFirstAux : Nat → Option Char → List Char → List (List Char)
  | 0, _, _ => []
  | fuel + 1, prev, cs =>
    match cs with
    | [] => []
    | c :: rest =>
      match tryKilledFirst prev cs with
      | some (g1, rem, lc) => g1 :: scanKilledFirstAux fuel (some lc) rem
      | Option.none => scanKilledFirstAux fuel (some c) rest

/-- All group-1 captures of `\b(killed)\s+(\d+)\b`. -/
def scanKilledFirst (cs : List Char) : List (List Char) :=
  scanKilledFirstAux cs.length Option.none cs

/-- One attempt of `\b{w}\b\s+(?:people\s+)?(?:died|dead|killed)\b`. -/
def tryWordDied (w : List Char) (prev : Option Char) (cs : List Char) : Bool :=
  if prevNonWord prev then
    match matchCIPrefix w cs with
    | some (_, r1) =>
      if nonWordHead r1 then
        let (ws, r2) := r1.span isPySpace
        if ws.isEmpty then false
        else
          let tryDied : List Char → Bool := fun r =>
            [['d', 'i', 'e', 'd'], ['d', 'e', 'a', 'd'],
             ['k', 'i', 'l', 'l', 'e', 'd']].any (fun d =>
              match matchCIPrefix d r with
              | some (_, r') => nonWordHead r'
              | Option.none => false)
          (match matchCIPrefix ['p', 'e', 'o', 'p', 'l', 'e'] r2 with
           | some (_, rp) =>
             let (ws2, rq) := rp.span isPySpace
             (!ws2.isEmpty && tryDied rq) || tryDied r2
           | Option.none => tryDied r2)
      else false
    | Option.none => false
  else false

/-- `re.search` for the number-word fatality phrase. -/
def searchWordDiedAux (w : List Char) : Nat → Option Char → List Char → Bool
  | 0, _, _ => false
  | fuel + 1, prev, cs =>
    match cs with
    | [] => false
    | c :: rest =>
      tryWordDied w prev cs || searchWordDiedAux w fuel (some c) rest

/-- Whether `\b{w}\b\s+(?:people\s+)?(?:died|dead|killed)\b` occurs. -/
def searchWordDied (w : List Char) (cs : List Char) : Bool :=
  searchWordDiedAux w cs.length Option.none cs

/-- One attempt of a case-insensitive literal token (the rescue-team
tokens), optionally requiring a trailing `\b`. -/
def tryLiteral (pat : List Char) (needB : Bool) (cs : List Char) :
    Option (List Char × List Char × Option Char) :=
  match matchCIPrefix pat cs with
  | some (m, rest) =>
    if !needB || nonWordHead rest then some (m, rest, m.getLast?)
    else Option.none
  | Option.none => Option.none

/-- `re.finditer` loop for a literal token. -/
def scanLiteralAux (pat : List Char) (needB : Bool) : Nat → List Char → List (List Char)
  | 0, _ => []
  | fuel + 1, cs =>
    match cs with
    | [] => []
    | c :: rest =>
      match tryLiteral pat needB cs with
      | some (m, rem, _) => m :: scanLiteralAux pat needB fuel rem
      | Option.none => scanLiteralAux pat needB fuel rest

/-- All matches of a literal token. -/
def scanLiteral (pat : List Char) (needB : Bool) (cs : List Char) : List (List Char) :=
  scanLiteralAux pat needB cs.length cs

/-- One attempt of `(\d{2,5})\s*(?:feet|ft|foot)\b`: a longer digit run
defeats every backtrack (the alternatives start with letters), so the
match succeeds exactly on a 2–5 digit run, optional whitespace, one of the
three unit words, and a trailing boundary. -/
def tryFall (cs : List Char) : Option Nat :=
  let (ds, r1) := cs.span Char.isDigit
  if decide (2 ≤ ds.length) && decide (ds.length ≤ 5) then
    let (_, r2) := r1.span isPySpace
    if [['f', 'e', 'e', 't'], ['f', 't'], ['f', 'o', 'o', 't']].any (fun u =>
        match matchCIPrefix u r2 with
        | some (_, r3) => nonWordHead r3
        | Option.none => false) then
      some (digitsVal ds)
    else Option.none
  else Option.none

/-- `re.search` for the fall-height pattern: the leftmost match. -/
def searchFallAux : Nat → List Char → Option Nat
  | 0, _ => Option.none
  | fuel + 1, cs =>
    match cs with
    | [] => Option.none
    | _ :: rest =>
      match tryFall cs with
      | some n => some n
      | Option.none => searchFallAux fuel rest

/-- First fall-height match of the text. -/
def searchFall (cs : List Char) : Option Nat := searchFallAux cs.length cs

/-- One pre-extracted person (`{'name': ..., 'age': ..., 'sex'?: ...}`). -/
structure PrePerson where
  name : String
  age : Nat
  sex : Option String := Option.none
  deriving Repr, DecidableEq

/-- The fields of `pre_extract_fields` that the claims mention (absent
fields are `Option.none`; scans the claims do not touch — dates, area,
gazetteer, lead sentences, difficulty/route/equipment tokens, slope and
aspect — write other keys and are omitted from this projection). -/
structure PreExtract where
  people_pre : Option (List PrePerson) := Option.none
  num_fatalities_pre : Option Nat := Option.none
  num_injured_pre : Option Nat := Option.none
  rescue_teams_pre : Option (List String) := Option.none
  fall_height_feet_pre : Option Nat := Option.none
  fall_height_meters_pre : Option Rat := Option.none
  deriving Repr, DecidableEq

/-- `round(x, 1)`. -/
def round1 (q : Rat) : Rat := (round (10 * q) : Int) / 10

/-- The rescue-team token patterns, in source order:
`Search and Rescue`, `SAR\b`, `RCMP\b`, `police\b`, `Fire Department`,
`EMS\b`.  (The matches land in a Python `set`, whose iteration order is
unspecified; the embedding lists them in encounter order — the claims only
test membership.) -/
def rescueTokens : List (List Char × Bool) :=
  [("search and rescue".data, false), ("sar".data, true), ("rcmp".data, true),
   ("police".data, true), ("fire department".data, false), ("ems".data, true)]

/-- The `word_map` of spelled-out fatality counts. -/
def wordMap : List (List Char × Nat) :=
  [("one".data, 1), ("two".data, 2), ("three".data, 3), ("four".data, 4),
   ("five".data, 5)]

/-- `pre_extract_fields(text)` (accident_preextract.py:14-187), projected
to the claim-relevant fields. -/
def preExtractFields (text : String) : PreExtract :=
  if text = "" then {}
  else
    let cs := text.data
    -- people patterns
    let named := (scanPeople cs).map (fun p => { name := pyStrip p.1, age := p.2 : PrePerson })
    let unnamed := (scanUnnamed cs).map (fun p =>
      { name := "Unknown", age := p.1,
        sex := match p.2 with
          | some w =>
            let s := pyLower w
            if s = "man" ∨ s = "male" ∨ s = "boy" then some "male"
            else if s = "woman" ∨ s = "female" ∨ s = "girl" then some "female"
            else Option.none
          | Option.none => Option.none : PrePerson })
    let people :=
      if named ≠ [] then some (named.take 10 ++ unnamed)
      else if unnamed ≠ [] then some unnamed
      else Option.none
    -- counts
    let killed :=
      ((scanKilledFirst cs).filterMap (fun g1 => pyParseInt ⟨g1⟩)).map Int.toNat ++
      scanDigitsBefore "killed".data true cs ++
      scanDigitsBefore "dead".data true cs ++
      (wordMap.filterMap (fun p => if searchWordDied p.1 cs then some p.2 else Option.none))
    let injured :=
      scanDigitsBefore "injured".data true cs ++
      scanDigitsBefore "hurt".data false cs
    -- rescue teams
    let rescues := pyDedup ((rescueTokens.flatMap (fun t => scanLiteral t.1 t.2 cs)).map
      (fun m => pyStrip ⟨m⟩))
    -- fall height
    let fall := searchFall cs
    { people_pre := people,
      num_fatalities_pre := if killed ≠ [] then some (killed.foldl max 0) else Option.none,
      num_injured_pre := if injured ≠ [] then some (injured.foldl max 0) else Option.none,
      rescue_teams_pre := if rescues ≠ [] then some rescues else Option.none,
      fall_height_feet_pre := fall,
      fall_height_meters_pre := fall.map (fun feet => round1 ((feet : Rat) * (3048/10000))) }

/-- The end-to-end scenario text of the claim. -/
def janeText : String :=
  "Jane Doe, 34, died in a 100-foot fall near Mount Example on October 1, 2025. Squamish Search and Rescue responded."

set_option maxRecDepth 10000 in
/-- Full evaluation of the embedded pre-extractor on the scenario text:
`Jane Doe, 34` is found, no fatality trigger fires ("died" is not in the
killed-word list), the rescue token matches — and the fall-height scan
finds nothing, because `(\d{2,5})\s*(?:feet|ft|foot)\b` does not match the
hyphenated "100-foot" (the hyphen is not `\s`). -/
theorem preExtract_jane_eval :
    preExtractFields janeText =
      { people_pre := some [{ name := "Jane Doe", age := 34 }],
        rescue_teams_pre := some ["Search and Rescue"] } := by
  decide

/-- C4 (counterexample): the claim as stated is false on the code — for
the given text, `fall_height_feet_pre` is absent (not `100`), because the
fall-height regex requires optional *whitespace* between the number and
the unit and therefore does not match "100-foot". -/
theorem c4_counterexample_fall_height_absent :
    ¬ ((preExtractFields janeText).num_fatalities_pre = Option.none ∧
       (⟨"Jane Doe", 34, Option.none⟩ : PrePerson) ∈
         ((preExtractFields janeText).people_pre.getD []) ∧
       (preExtractFields janeText).fall_height_feet_pre = some 100 ∧
       (preExtractFields janeText).fall_height_meters_pre = some (61/2 : Rat) ∧
       ∃ s ∈ ((preExtractFields janeText).rescue_teams_pre.getD []),
         strContains s "Search and Rescue" = true) := by
  intro h
  have hfall := h.2.2.1
  rw [preExtract_jane_eval] at hfall
  exact Option.noConfusion hfall

/-- C4 (amended): on the scenario text, pre-extraction yields
`num_fatalities_pre` absent, `people_pre` containing
`{name: "Jane Doe", age: 34}`, `rescue_teams_pre` containing a string
matching "Search and Rescue" — and both fall-height fields absent (the
hyphenated "100-foot" defeats the `\s*`-joined fall-height regex). -/
theorem c4_preextract_scenario :
    (preExtractFields janeText).num_fatalities_pre = Option.none ∧
    (⟨"Jane Doe", 34, Option.none⟩ : PrePerson) ∈
      ((preExtractFields janeText).people_pre.getD []) ∧
    (preExtractFields janeText).fall_height_feet_pre = Option.none ∧
    (preExtractFields janeText).fall_height_meters_pre = Option.none ∧
    ∃ s ∈ ((preExtractFields janeText).rescue_teams_pre.getD []),
      strContains s "Search and Rescue" = true := by
  rw [preExtract_jane_eval]
  exact ⟨rfl, by decide, rfl, rfl, "Search and Rescue", by decide, by decide⟩

/-! ### `accident_postprocess._postprocess` (C5, C9)

The schema table, the per-type coercions, the nested `accident_causes`
cleaner, the date normalization pass, and the confidence-score range check,
translated clause by clause from accident_postprocess.py:19-406. -/

/-- The declared type of a schema field. -/
inductive PTy where
  | str | int | float | bool | list | dict
  deriving Repr, DecidableEq

/-- The `expected` table (accident_postprocess.py:20-58). -/
def expectedTable : List (String × PTy) :=
  [("source_url", .str), ("source_name", .str), ("article_title", .str),
   ("article_date_published", .str), ("region", .str), ("mountain_name", .str),
   ("route_name", .str), ("activity_type", .str), ("accident_type", .str),
   ("accident_date", .str), ("accident_time_approx", .str),
   ("num_people_involved", .int), ("num_fatalities", .int), ("num_injured", .int),
   ("num_rescued", .int), ("people", .list), ("rescue_teams_involved", .list),
   ("response_agencies", .list), ("quoted_dialogue", .list), ("photo_urls", .list),
   ("video_urls", .list), ("related_articles_urls", .list),
   ("fundraising_links", .list), ("official_reports_links", .list),
   ("rescue_method", .str), ("response_difficulties", .str),
   ("bodies_recovery_method", .str), ("accident_summary_text", .str),
   ("timeline_text", .str), ("notable_equipment_details", .str),
   ("local_expert_commentary", .str), ("family_statements", .str),
   ("fall_height_meters_estimate", .float), ("self_rescue_boolean", .bool),
   ("anchor_failure_boolean", .bool), ("extraction_confidence_score", .float),
   ("accident_causes", .dict)]

/-- Declared type of a key, if any. -/
def expectedType (k : String) : Option PTy :=
  (expectedTable.find? (fun p => p.1 = k)).map (fun p => p.2)

/-- `keep_str`. -/
def keep_str (v : PyVal) : Option PyVal :=
  match v with
  | .str s => if pyStrip s ≠ "" then some (.str (pyStrip s)) else Option.none
  | _ => Option.none

/-- `keep_int` (`isinstance(v, int)` is true for Python bools, which are
stored back unchanged). -/
def keep_int (v : PyVal) : Option PyVal :=
  match v with
  | .bool b => some (.bool b)
  | .int n => some (.int n)
  | .str s => (pyParseInt (pyStrip s)).map .int
  | .float q => some (.int (pyTrunc q))
  | _ => Option.none

/-- `keep_float` (bools are instances of `int`, so `float(True) = 1.0`). -/
def keep_float (v : PyVal) : Option PyVal :=
  match v with
  | .bool b => some (.float (if b then 1 else 0))
  | .int n => some (.float (n : Rat))
  | .float q => some (.float q)
  | .str s => (pyParseFloat (pyStrip s)).map .float
  | _ => Option.none

/-- `keep_bool`. -/
def keep_bool (v : PyVal) : Option PyVal :=
  match v with
  | .bool b => some (.bool b)
  | .str s =>
    let t := pyLower (pyStrip s)
    if t = "true" ∨ t = "yes" ∨ t = "1" then some (.bool true)
    else if t = "false" ∨ t = "no" ∨ t = "0" then some (.bool false)
    else Option.none
  | _ => Option.none

/-- The `isinstance(x, str) and x.strip()` element filter shared by
`keep_list_of_str` and `_clean_list_str`. -/
def strEntry : PyVal → Option String
  | .str s => if pyStrip s ≠ "" then some (pyStrip s) else Option.none
  | _ => Option.none

/-- `keep_list_of_str`: lists are filtered to non-blank strings, trimmed
and de-duplicated; a single non-blank string becomes a one-element list. -/
def keep_list_of_str (v : PyVal) : Option PyVal :=
  match v with
  | .list xs =>
    let vals := xs.filterMap strEntry
    if vals ≠ [] then some (.list ((pyDedup vals).map .str)) else Option.none
  | .str s => if pyStrip s ≠ "" then some (.list [.str (pyStrip s)]) else Option.none
  | _ => Option.none

/-- One optional binding of a sub-object under construction. -/
def optEntry (k : String) : Option PyVal → PyDict
  | some v => [(k, v)]
  | Option.none => []

/-- The `name` field of one `people` entry: trimmed, kept when non-blank. -/
def personName (person : PyDict) : Option String :=
  match lookupA person "name" with
  | some (.str s) => if pyStrip s ≠ "" then some (pyStrip s) else Option.none
  | _ => Option.none

/-- The `age` field of one `people` entry: `int(...)`, exceptions dropped. -/
def personAge (person : PyDict) : Option Int :=
  match lookupA person "age" with
  | some av => pyIntOf av
  | Option.none => Option.none

/-- The `outcome` field of one `people` entry: trimmed when a string. -/
def personOutcome (person : PyDict) : Option String :=
  match lookupA person "outcome" with
  | some (.str s) => some (pyStrip s)
  | _ => Option.none

/-- The `injuries` field of one `people` entry: trimmed when a string. -/
def personInjuries (person : PyDict) : Option String :=
  match lookupA person "injuries" with
  | some (.str s) => some (pyStrip s)
  | _ => Option.none

/-- The cleaned `people` entry, fields in write order. -/
def personBuild (no : Option String) (ao : Option Int) (oo io : Option String) : PyDict :=
  optEntry "name" (no.map .str) ++ optEntry "age" (ao.map .int) ++
  optEntry "outcome" (oo.map .str) ++ optEntry "injuries" (io.map .str)

/-- One `people` entry (accident_postprocess.py:357-373): non-dicts are
skipped; name trimmed non-blank, `age` through `int(...)`, `outcome` and
`injuries` trimmed when strings; an empty result is dropped. -/
def cleanPerson (v : PyVal) : Option PyDict :=
  match v with
  | .dict person =>
    let p : PyDict := personBuild (personName person) (personAge person)
      (personOutcome person) (personInjuries person)
    if p.isEmpty then Option.none else some p
  | _ => Option.none

/-- The `people`-as-list branch. -/
def keep_people (v : PyVal) : Option PyVal :=
  match v with
  | .list xs =>
    let people_out := xs.filterMap cleanPerson
    if people_out.isEmpty then Option.none else some (.list (people_out.map .dict))
  | _ => Option.none

/-- `_clean_list_str(vals)`. -/
def clean_list_str (v : Option PyVal) : List String :=
  match v with
  | some (.list xs) => xs.filterMap strEntry
  | some (.str s) => if pyStrip s ≠ "" then [pyStrip s] else []
  | _ => []

/-- `_keep_enum(val, allowed)`. -/
def keep_enum (v : Option PyVal) (allowed : List String) : Option String :=
  match v with
  | some (.str s) =>
    if s ≠ "" then
      (let t := pyLower (pyStrip s)
       if t ∈ allowed then some t else Option.none)
    else Option.none
  | _ => Option.none

/-- The `int(float(str(x).strip()))` coercion of the nested cleaner
(guarded by `isinstance(x, (int, float, str))`, which bools satisfy). -/
def causes_int (v : Option PyVal) : Option Int :=
  match v with
  | some w =>
    (match w with
     | .int _ | .float _ | .str _ | .bool _ =>
       (let s := pyStrip (pyStr w)
        if s ≠ "" then
          (match pyParseFloat s with
           | some q => some (pyTrunc q)
           | Option.none => Option.none)
        else Option.none)
     | _ => Option.none)
  | Option.none => Option.none

/-- A real-boolean field of the nested cleaner. -/
def causes_bool (v : Option PyVal) : Option Bool :=
  match v with
  | some (.bool b) => some b
  | _ => Option.none

/-- A trimmed non-blank string field of the nested cleaner. -/
def causes_str (v : Option PyVal) : Option String :=
  match v with
  | some (.str s) => if pyStrip s ≠ "" then some (pyStrip s) else Option.none
  | _ => Option.none

/-- `list(dict.fromkeys([s.lower() for s in vals]))`. -/
def lowerDedup (l : List String) : List String := pyDedup (l.map pyLower)

/-- Enum vocabulary: `proximate_causes`. -/
def proxAllowed : List String :=
  ["anchor_failure", "rope_system_failure", "fall_on_steep_snow", "rockfall",
   "icefall", "avalanche", "crevasse_fall", "weather_change", "visibility_loss",
   "cornice_collapse", "terrain_trap_involvement", "slip_or_trip",
   "miscommunication", "medical_emergency", "equipment_malfunction"]

/-- Enum vocabulary: `contributing_factors`. -/
def contribAllowed : List String :=
  ["single_point_anchor", "anchor_old_or_weathered", "no_anchor_backup",
   "overloaded_anchor", "party_all_on_one_rope", "no_fixed_protection",
   "improper_knots", "inadequate_edge_protection", "unroped_on_glacier",
   "late_in_day", "rapid_temperature_change", "storm_arrival",
   "wind_slab_loading", "poor_visibility", "human_factor_heuristic_trap",
   "route_finding_error", "fatigue", "equipment_left_in_place",
   "improvised_anchor", "technical_skill_mismatch"]

/-- The `anchor_system` sub-object fields, in write order. -/
def anchorBuild (o1 : Option String) (o2 : Option Int) (o3 : Option Bool)
    (o4 o5 : Option String) : PyDict :=
  optEntry "anchor_type" (o1.map .str) ++ optEntry "num_points" (o2.map .int) ++
  optEntry "redundancy_present" (o3.map .bool) ++
  optEntry "anchor_condition" (o4.map .str) ++ optEntry "failure_mode" (o5.map .str)

/-- `anchor_system` cleaner. -/
def cleanAnchor (v : Option PyVal) : Option PyDict :=
  match v with
  | some (.dict a) =>
    let out := anchorBuild
      (keep_enum (lookupA a "anchor_type")
        ["piton", "bolt", "gear_anchor", "snow_picket", "bollard", "v-thread",
         "tree", "rock_horn", "natural", "unknown"])
      (causes_int (lookupA a "num_points"))
      (causes_bool (lookupA a "redundancy_present"))
      (keep_enum (lookupA a "anchor_condition")
        ["new", "good", "old", "weathered", "rusted", "unknown"])
      (keep_enum (lookupA a "failure_mode") ["pulled", "snapped", "sheared", "unknown"])
    if out.isEmpty then Option.none else some out
  | _ => Option.none

/-- The `rope_system` sub-object fields, in write order. -/
def ropeBuild (o1 : Option Int) (o2 o3 o4 : Option Bool) (o5 o6 : Option String)
    (o7 : Option String) (o8 : Option (List String)) : PyDict :=
  optEntry "num_people_on_rope" (o1.map .int) ++
  optEntry "roped_for_descent" (o2.map .bool) ++
  optEntry "roped_for_ascent" (o3.map .bool) ++
  optEntry "protection_in_place" (o4.map .bool) ++
  optEntry "rope_type" (o5.map .str) ++ optEntry "belay_method" (o6.map .str) ++
  optEntry "failure_description" (o7.map .str) ++
  optEntry "knots_used" (o8.map (fun l => .list (l.map .str)))

/-- `rope_system` cleaner. -/
def cleanRope (v : Option PyVal) : Option PyDict :=
  match v with
  | some (.dict r) =>
    let k := clean_list_str (lookupA r "knots_used")
    let out := ropeBuild
      (causes_int (lookupA r "num_people_on_rope"))
      (causes_bool (lookupA r "roped_for_descent"))
      (causes_bool (lookupA r "roped_for_ascent"))
      (causes_bool (lookupA r "protection_in_place"))
      (keep_enum (lookupA r "rope_type") ["single", "half", "twin", "static", "unknown"])
      (keep_enum (lookupA r "belay_method")
        ["rappel", "lower", "simul", "pitch", "running_belay", "short_rope", "unroped"])
      (causes_str (lookupA r "failure_description"))
      (if k ≠ [] then some k else Option.none)
    if out.isEmpty then Option.none else some out
  | _ => Option.none

/-- The `decision_factors` sub-object fields, in write order. -/
def decisionBuild (o1 : Option String) (o2 : Option Bool) (o3 o4 : Option String)
    (o5 o6 : Option Bool) : PyDict :=
  optEntry "objective_hazard_awareness" (o1.map .str) ++
  optEntry "time_pressure" (o2.map .bool) ++
  optEntry "group_dynamics" (o3.map .str) ++
  optEntry "experience_level_est" (o4.map .str) ++
  optEntry "weather_forecast_considered" (o5.map .bool) ++
  optEntry "alternate_plan_available" (o6.map .bool)

/-- `decision_factors` cleaner. -/
def cleanDecision (v : Option PyVal) : Option PyDict :=
  match v with
  | some (.dict d) =>
    let out := decisionBuild
      (keep_enum (lookupA d "objective_hazard_awareness") ["low", "medium", "high", "unknown"])
      (causes_bool (lookupA d "time_pressure"))
      (keep_enum (lookupA d "group_dynamics")
        ["leader_follower", "peer_pressure", "independent", "unknown"])
      (keep_enum (lookupA d "experience_level_est")
        ["beginner", "intermediate", "advanced", "expert", "mixed", "unknown"])
      (causes_bool (lookupA d "weather_forecast_considered"))
      (causes_bool (lookupA d "alternate_plan_available"))
    if out.isEmpty then Option.none else some out
  | _ => Option.none

/-- The `equipment_status` sub-object fields, in write order. -/
def equipmentBuild (o1 o2 o3 o4 : Option (List String)) : PyDict :=
  optEntry "critical_gear_present" (o1.map (fun l => .list (l.map .str))) ++
  optEntry "gear_condition_issues" (o2.map (fun l => .list (l.map .str))) ++
  optEntry "missing_expected_gear" (o3.map (fun l => .list (l.map .str))) ++
  optEntry "equipment_failure_noted" (o4.map (fun l => .list (l.map .str)))

/-- `equipment_status` cleaner. -/
def cleanEquipment (v : Option PyVal) : Option PyDict :=
  match v with
  | some (.dict e) =>
    let f : String → Option (List String) := fun key =>
      let vals := clean_list_str (lookupA e key)
      if vals ≠ [] then some vals else Option.none
    let out := equipmentBuild (f "critical_gear_present") (f "gear_condition_issues")
      (f "missing_expected_gear") (f "equipment_failure_noted")
    if out.isEmpty then Option.none else some out
  | _ => Option.none

/-- The `environmental_conditions` sub-object fields, in write order. -/
def envBuild (o1 o2 o3 o4 : Option String) (o5 : Option (List String))
    (o6 : Option String) : PyDict :=
  optEntry "weather_change_timing" (o1.map .str) ++
  optEntry "precipitation_intensity" (o2.map .str) ++
  optEntry "temperature_trend" (o3.map .str) ++
  optEntry "wind_speed_est" (o4.map .str) ++
  optEntry "snowpack_instability_signs" (o5.map (fun l => .list (l.map .str))) ++
  optEntry "visibility_class" (o6.map .str)

/-- `environmental_conditions` cleaner. -/
def cleanEnv (v : Option PyVal) : Option PyDict :=
  match v with
  | some (.dict env) =>
    let sps := clean_list_str (lookupA env "snowpack_instability_signs")
    let out := envBuild
      (keep_enum (lookupA env "weather_change_timing")
        ["before", "during", "after", "none", "unknown"])
      (keep_enum (lookupA env "precipitation_intensity")
        ["none", "light", "moderate", "heavy"])
      (keep_enum (lookupA env "temperature_trend")
        ["warming", "cooling", "stable", "unknown"])
      (keep_enum (lookupA env "wind_speed_est") ["calm", "moderate", "strong", "storm"])
      (if sps ≠ [] then some (lowerDedup sps) else Option.none)
      (keep_enum (lookupA env "visibility_class") ["good", "moderate", "poor", "whiteout"])
    if out.isEmpty then Option.none else some out
  | _ => Option.none

/-- The `human_factors` sub-object fields, in write order. -/
def humanBuild (o1 : Option Int) (o2 : Option String) (o3 : Option (List String))
    (o4 : Option Bool) (o5 : Option (List String)) (o6 o7 : Option String) : PyDict :=
  optEntry "group_size" (o1.map .int) ++
  optEntry "group_experience_mix" (o2.map .str) ++
  optEntry "communication_method" (o3.map (fun l => .list (l.map .str))) ++
  optEntry "language_barrier_present" (o4.map .bool) ++
  optEntry "heuristic_traps_observed" (o5.map (fun l => .list (l.map .str))) ++
  optEntry "fatigue_level" (o6.map .str) ++
  optEntry "risk_tolerance_inferred" (o7.map .str)

/-- `human_factors` cleaner. -/
def cleanHuman (v : Option PyVal) : Option PyDict :=
  match v with
  | some (.dict hf) =>
    let cm := clean_list_str (lookupA hf "communication_method")
    let ht := clean_list_str (lookupA hf "heuristic_traps_observed")
    let out := humanBuild
      (causes_int (lookupA hf "group_size"))
      (keep_enum (lookupA hf "group_experience_mix") ["homogeneous", "mixed", "unknown"])
      (if cm ≠ [] then some (lowerDedup cm) else Option.none)
      (causes_bool (lookupA hf "language_barrier_present"))
      (if ht ≠ [] then some (lowerDedup ht) else Option.none)
      (keep_enum (lookupA hf "fatigue_level") ["low", "moderate", "high", "unknown"])
      (keep_enum (lookupA hf "risk_tolerance_inferred") ["low", "moderate", "high", "unknown"])
    if out.isEmpty then Option.none else some out
  | _ => Option.none

/-- The `rescue_and_outcome` sub-object fields, in write order. -/
def rescueBuild (o1 : Option Int) (o2 o3 : Option Bool) (o4 o5 : Option String) : PyDict :=
  optEntry "rescue_delay_minutes_est" (o1.map .int) ++
  optEntry "self_rescue_attempted" (o2.map .bool) ++
  optEntry "remains_recovered" (o3.map .bool) ++
  optEntry "survivor_condition_notes" (o4.map .str) ++
  optEntry "body_recovery_difficulty" (o5.map .str)

/-- `rescue_and_outcome` cleaner. -/
def cleanRescue (v : Option PyVal) : Option PyDict :=
  match v with
  | some (.dict ro) =>
    let out := rescueBuild
      (causes_int (lookupA ro "rescue_delay_minutes_est"))
      (causes_bool (lookupA ro "self_rescue_attempted"))
      (causes_bool (lookupA ro "remains_recovered"))
      (causes_str (lookupA ro "survivor_condition_notes"))
      (keep_enum (lookupA ro "body_recovery_difficulty")
        ["easy", "moderate", "technical", "high", "unknown"])
    if out.isEmpty then Option.none else some out
  | _ => Option.none

/-- The `investigation_notes` sub-object fields, in write order. -/
def invBuild (o1 o2 o3 : Option Bool) (o4 : Option String)
    (o5 : Option (List String)) : PyDict :=
  optEntry "investigation_in_progress" (o1.map .bool) ++
  optEntry "anchor_recovered" (o2.map .bool) ++
  optEntry "anchor_backup_found" (o3.map .bool) ++
  optEntry "gear_recovered_description" (o4.map .str) ++
  optEntry "uncertainties_list" (o5.map (fun l => .list (l.map .str)))

/-- `investigation_notes` cleaner. -/
def cleanInv (v : Option PyVal) : Option PyDict :=
  match v with
  | some (.dict inv) =>
    let ul := clean_list_str (lookupA inv "uncertainties_list")
    let out := invBuild
      (causes_bool (lookupA inv "investigation_in_progress"))
      (causes_bool (lookupA inv "anchor_recovered"))
      (causes_bool (lookupA inv "anchor_backup_found"))
      (causes_str (lookupA inv "gear_recovered_description"))
      (if ul ≠ [] then some ul else Option.none)
    if out.isEmpty then Option.none else some out
  | _ => Option.none

/-- The `cause_classification` sub-object fields, in write order. -/
def classBuild (o1 : Option String) (o2 : Option (List String))
    (o3 : Option String) : PyDict :=
  optEntry "primary_cause_category" (o1.map .str) ++
  optEntry "secondary_cause_categories" (o2.map (fun l => .list (l.map .str))) ++
  optEntry "narrative_summary" (o3.map .str)

/-- `cause_classification` cleaner. -/
def cleanClass (v : Option PyVal) : Option PyDict :=
  match v with
  | some (.dict cc) =>
    let sc := clean_list_str (lookupA cc "secondary_cause_categories")
    let out := classBuild
      (keep_enum (lookupA cc "primary_cause_category")
        ["technical_system_failure", "environmental", "human_factor", "medical", "unknown"])
      (if sc ≠ [] then some (lowerDedup sc) else Option.none)
      (causes_str (lookupA cc "narrative_summary"))
    if out.isEmpty then Option.none else some out
  | _ => Option.none

/-- The `proximate_causes`/`contributing_factors` pipeline: clean to
strings, lower-case-filter against the vocabulary, de-duplicate. -/
def enumListClean (v : Option PyVal) (allowed : List String) : Option (List String) :=
  let l := (clean_list_str v).filterMap (fun p =>
    let lp := pyLower p
    if lp ∈ allowed then some lp else Option.none)
  if l ≠ [] then some (pyDedup l) else Option.none

/-- The full `_clean_causes(data)` (non-dict input yields `{}`). -/
def cleanCauses (v : PyVal) : PyDict :=
  match v with
  | .dict data =>
    optEntry "proximate_causes"
      ((enumListClean (lookupA data "proximate_causes") proxAllowed).map
        (fun l => .list (l.map .str))) ++
    optEntry "contributing_factors"
      ((enumListClean (lookupA data "contributing_factors") contribAllowed).map
        (fun l => .list (l.map .str))) ++
    optEntry "anchor_system" ((cleanAnchor (lookupA data "anchor_system")).map .dict) ++
    optEntry "rope_system" ((cleanRope (lookupA data "rope_system")).map .dict) ++
    optEntry "decision_factors" ((cleanDecision (lookupA data "decision_factors")).map .dict) ++
    optEntry "equipment_status" ((cleanEquipment (lookupA data "equipment_status")).map .dict) ++
    optEntry "environmental_conditions" ((cleanEnv (lookupA data "environmental_conditions")).map .dict) ++
    optEntry "human_factors" ((cleanHuman (lookupA data "human_factors")).map .dict) ++
    optEntry "rescue_and_outcome" ((cleanRescue (lookupA data "rescue_and_outcome")).map .dict) ++
    optEntry "investigation_notes" ((cleanInv (lookupA data "investigation_notes")).map .dict) ++
    optEntry "cause_classification" ((cleanClass (lookupA data "cause_classification")).map .dict)
  | _ => []

/-- Main-loop handling of one `(key, value)` binding
(accident_postprocess.py:340-382): the value written to `out`, if any. -/
def processKey (k : String) (v : PyVal) : Option PyVal :=
  match expectedType k with
  | Option.none =>
    (match v with
     | .str s => if pyStrip s ≠ "" then some (.str (pyStrip s)) else Option.none
     | _ => Option.none)
  | some .str => keep_str v
  | some .int => keep_int v
  | some .float => keep_float v
  | some .bool => keep_bool v
  | some .list =>
    if k = "people" then
      (match v with
       | .list _ => keep_people v
       | _ => keep_list_of_str v)
    else keep_list_of_str v
  | some .dict =>
    if k = "accident_causes" then
      (let c := cleanCauses v
       if c.isEmpty then Option.none else some (.dict c))
    else Option.none

/-- The `for k, v in obj.items()` loop. -/
def mainLoop (obj : PyDict) : PyDict :=
  obj.filterMap (fun p => (processKey p.1 p.2).map (fun w => (p.1, w)))

/-- The four date keys normalized after the main loop. -/
def dateKeys : List String :=
  ["article_date_published", "accident_date", "missing_since", "recovery_date"]

/-- One step of the date normalization: re-normalize in place or drop. -/
def dateFix1 (du : DateOracle) (out : PyDict) (dk : String) : PyDict :=
  match lookupA out dk with
  | some v =>
    (match isoOrNone du v with
     | some iso => updateA out dk (.str iso)
     | Option.none => removeA out dk)
  | Option.none => out

/-- The date normalization pass. -/
def dateFix (du : DateOracle) (out : PyDict) : PyDict :=
  dateKeys.foldl (dateFix1 du) out

/-- The `extraction_confidence_score` range check: keep as float in
`[0, 1]`, else drop. -/
def scoreFix (out : PyDict) : PyDict :=
  match lookupA out "extraction_confidence_score" with
  | some v =>
    (match pyFloatOf v with
     | some q =>
       if 0 ≤ q ∧ q ≤ 1 then updateA out "extraction_confidence_score" (.float q)
       else removeA out "extraction_confidence_score"
     | Option.none => removeA out "extraction_confidence_score")
  | Option.none => out

/-- `_postprocess(obj)` (accident_postprocess.py:19-406).  The
`num_fatalities > num_people_involved` check only logs and is omitted. -/
def postprocess (du : DateOracle) (obj : PyDict) : PyDict :=
  scoreFix (dateFix du (mainLoop obj))

/-! ### Dictionary lemmas for the postprocessor -/

theorem lookupA_cons (k' : String) (v' : PyVal) (t : PyDict) (k : String) :
    lookupA ((k', v') :: t) k = if k' = k then some v' else lookupA t k := by
  unfold lookupA
  by_cases h : k' = k <;> simp [List.find?_cons, h]

theorem mainLoop_cons (k' : String) (v' : PyVal) (t : PyDict) :
    mainLoop ((k', v') :: t) =
      match processKey k' v' with
      | some w => (k', w) :: mainLoop t
      | Option.none => mainLoop t := by
  unfold mainLoop
  rw [List.filterMap_cons]
  cases processKey k' v' <;> rfl

theorem lookupA_mainLoop {obj : PyDict} {k : String} {v w : PyVal}
    (hv : lookupA obj k = some v) (hw : processKey k v = some w) :
    lookupA (mainLoop obj) k = some w := by
  induction obj with
  | nil => cases hv
  | cons p t ih =>
    obtain ⟨k₁, v₁⟩ := p
    rw [lookupA_cons] at hv
    by_cases h : k₁ = k
    · rw [if_pos h] at hv
      injection hv with hv'
      subst h
      subst hv'
      rw [mainLoop_cons, hw, lookupA_cons, if_pos rfl]
    · rw [if_neg h] at hv
      rw [mainLoop_cons]
      cases hpk : processKey k₁ v₁
      · exact ih hv
      · rw [lookupA_cons, if_neg h]
        exact ih hv

theorem updateA_cons (k₁ : String) (v₁ : PyVal) (t : PyDict) (j : String) (v : PyVal) :
    updateA ((k₁, v₁) :: t) j v =
      (if k₁ = j then (k₁, v) else (k₁, v₁)) :: updateA t j v := by
  unfold updateA
  rw [List.map_cons]

theorem removeA_cons (k₁ : String) (v₁ : PyVal) (t : PyDict) (j : String) :
    removeA ((k₁, v₁) :: t) j =
      if k₁ = j then removeA t j else (k₁, v₁) :: removeA t j := by
  unfold removeA
  rw [List.filter_cons]
  by_cases h : k₁ = j <;> simp [h]

theorem lookupA_updateA_ne {out : PyDict} {j k : String} (v : PyVal) (h : j ≠ k) :
    lookupA (updateA out j v) k = lookupA out k := by
  induction out with
  | nil => rfl
  | cons p t ih =>
    obtain ⟨k₁, v₁⟩ := p
    rw [updateA_cons]
    by_cases h₁ : k₁ = j
    · have hk₁ : k₁ ≠ k := by rw [h₁]; exact h
      rw [if_pos h₁, lookupA_cons, lookupA_cons, if_neg hk₁, if_neg hk₁]
      exact ih
    · rw [if_neg h₁, lookupA_cons, lookupA_cons]
      by_cases h₂ : k₁ = k
      · rw [if_pos h₂, if_pos h₂]
      · rw [if_neg h₂, if_neg h₂]
        exact ih

theorem lookupA_removeA_ne {out : PyDict} {j k : String} (h : j ≠ k) :
    lookupA (removeA out j) k = lookupA out k := by
  induction out with
  | nil => rfl
  | cons p t ih =>
    obtain ⟨k₁, v₁⟩ := p
    rw [removeA_cons]
    by_cases h₁ : k₁ = j
    · have hk₁ : k₁ ≠ k := by rw [h₁]; exact h
      rw [if_pos h₁, lookupA_cons, if_neg hk₁]
      exact ih
    · rw [if_neg h₁, lookupA_cons, lookupA_cons]
      by_cases h₂ : k₁ = k
      · rw [if_pos h₂, if_pos h₂]
      · rw [if_neg h₂, if_neg h₂]
        exact ih

theorem dateFix1_preserves {du : DateOracle} {out : PyDict} {dk k : String}
    (h : dk ≠ k) : lookupA (dateFix1 du out dk) k = lookupA out k := by
  rcases hx : lookupA out dk with _ | v
  · simp [dateFix1, hx]
  · rcases hiso : isoOrNone du v with _ | iso
    · simp only [dateFix1, hx, hiso]
      exact lookupA_removeA_ne h
    · simp only [dateFix1, hx, hiso]
      exact lookupA_updateA_ne _ h

theorem dateFix_preserves {du : DateOracle} {out : PyDict} {k : String}
    (h : k ∉ dateKeys) : lookupA (dateFix du out) k = lookupA out k := by
  simp only [dateKeys, List.mem_cons, List.not_mem_nil, or_false, not_or] at h
  obtain ⟨h1, h2, h3, h4⟩ := h
  show lookupA (dateFix1 du (dateFix1 du (dateFix1 du (dateFix1 du out _) _) _) _) k = _
  rw [dateFix1_preserves (Ne.symm h4), dateFix1_preserves (Ne.symm h3),
    dateFix1_preserves (Ne.symm h2), dateFix1_preserves (Ne.symm h1)]

theorem scoreFix_preserves {out : PyDict} {k : String}
    (h : k ≠ "extraction_confidence_score") :
    lookupA (scoreFix out) k = lookupA out k := by
  rcases hx : lookupA out "extraction_confidence_score" with _ | v
  · simp [scoreFix, hx]
  · rcases hq : pyFloatOf v with _ | q
    · simp only [scoreFix, hx, hq]
      exact lookupA_removeA_ne (Ne.symm h)
    · by_cases hr : 0 ≤ q ∧ q ≤ 1
      · simp only [scoreFix, hx, hq, if_pos hr]
        exact lookupA_updateA_ne _ (Ne.symm h)
      · simp only [scoreFix, hx, hq, if_neg hr]
        exact lookupA_removeA_ne (Ne.symm h)

theorem expectedType_list_not_special {k : String}
    (hty : expectedType k = some PTy.list) :
    k ∉ dateKeys ∧ k ≠ "extraction_confidence_score" := by
  constructor
  · intro hmem
    simp only [dateKeys, List.mem_cons, List.not_mem_nil, or_false] at hmem
    rcases hmem with rfl | rfl | rfl | rfl <;> exact absurd hty (by decide)
  · intro hk
    rw [hk] at hty
    exact absurd hty (by decide)

theorem processKey_liststr {k : String} {s : String}
    (hty : expectedType k = some PTy.list) (hs : pyStrip s ≠ "") :
    processKey k (.str s) = some (.list [.str (pyStrip s)]) := by
  unfold processKey
  rw [hty]
  by_cases hk : k = "people" <;> simp [hk, keep_list_of_str, hs]

/-- C9: for every schema key declared as a list, a single non-blank string
value survives postprocessing as the one-element list of its trimmed form
(it is not dropped). -/
theorem c9_scalar_string_becomes_singleton_list
    (du : DateOracle) (obj : PyDict) (k s : String)
    (hty : expectedType k = some PTy.list)
    (hv : lookupA obj k = some (.str s))
    (hs : pyStrip s ≠ "") :
    lookupA (postprocess du obj) k = some (.list [.str (pyStrip s)]) := by
  have h1 := lookupA_mainLoop hv (processKey_liststr hty hs)
  obtain ⟨hnd, hns⟩ := expectedType_list_not_special hty
  unfold postprocess
  rw [scoreFix_preserves hns, dateFix_preserves hnd, h1]

/-- C9 (witness): the theorem applied to `photo_urls` carrying the scalar
string `" a.jpg "`. -/
theorem c9_scalar_string_becomes_singleton_list_witness :
    lookupA (postprocess (fun _ => Option.none) [("photo_urls", .str " a.jpg ")])
        "photo_urls" = some (.list [.str (pyStrip " a.jpg ")]) :=
  c9_scalar_string_becomes_singleton_list (fun _ => Option.none)
    [("photo_urls", .str " a.jpg ")] "photo_urls" " a.jpg "
    (by decide) rfl (by decide)

/-- C5 (counterexample): the postprocessor is not idempotent.  A `people`
field carrying a single non-blank string is kept as a one-element list on
the first pass (via `keep_list_of_str`), but the second pass routes the
list through the `people` branch, whose entries must be dicts — so the
field is dropped entirely. -/
theorem c5_counterexample_people_string :
    postprocess (fun _ => Option.none)
        (postprocess (fun _ => Option.none) [("people", .str "John")]) ≠
      postprocess (fun _ => Option.none) [("people", .str "John")] := by
  intro h
  have h1 : postprocess (fun _ => Option.none) [("people", .str "John")]
      = [("people", .list [.str "John"])] := rfl
  have h2 : postprocess (fun _ => Option.none) [("people", .list [.str "John"])] = [] := rfl
  rw [h1, h2] at h
  exact List.noConfusion h

/-! ### String and character lemmas for the idempotence proof -/

theorem toNat_ofNat_valid {n : Nat} (h : n < 55296) : (Char.ofNat n).toNat = n := by
  unfold Char.ofNat
  rw [dif_pos]
  · rfl
  · exact Or.inl h

theorem char_ne_of_toNat_ne {c d : Char} (h : c.toNat ≠ d.toNat) : c ≠ d :=
  fun he => h (by rw [he])

theorem isPySpace_false_of_toNat_ge {x : Char} (h : 33 ≤ x.toNat) :
    isPySpace x = false := by
  unfold isPySpace
  rw [decide_eq_false (char_ne_of_toNat_ne (by intro he; rw [he] at h; exact absurd h (by decide))),
    decide_eq_false (char_ne_of_toNat_ne (by intro he; rw [he] at h; exact absurd h (by decide))),
    decide_eq_false (char_ne_of_toNat_ne (by intro he; rw [he] at h; exact absurd h (by decide))),
    decide_eq_false (char_ne_of_toNat_ne (by intro he; rw [he] at h; exact absurd h (by decide))),
    decide_eq_false (char_ne_of_toNat_ne (by intro he; rw [he] at h; exact absurd h (by decide))),
    decide_eq_false (char_ne_of_toNat_ne (by intro he; rw [he] at h; exact absurd h (by decide)))]
  rfl

theorem lowerChar_idem (c : Char) : lowerChar (lowerChar c) = lowerChar c := by
  unfold lowerChar
  by_cases h : 65 ≤ c.toNat ∧ c.toNat ≤ 90
  · rw [if_pos h]
    have ht : (Char.ofNat (c.toNat + 32)).toNat = c.toNat + 32 :=
      toNat_ofNat_valid (by omega)
    rw [if_neg (by rw [ht]; omega)]
  · rw [if_neg h, if_neg h]

theorem isPySpace_lowerChar (c : Char) : isPySpace (lowerChar c) = isPySpace c := by
  unfold lowerChar
  by_cases h : 65 ≤ c.toNat ∧ c.toNat ≤ 90
  · rw [if_pos h]
    have ht : (Char.ofNat (c.toNat + 32)).toNat = c.toNat + 32 :=
      toNat_ofNat_valid (by omega)
    rw [isPySpace_false_of_toNat_ge (by omega),
      isPySpace_false_of_toNat_ge (by omega)]
  · rw [if_neg h]

theorem dropWhile_all_neg {p : Char → Bool} : ∀ {l : List Char},
    (∀ c ∈ l, p c = false) → l.dropWhile p = l := by
  intro l h
  induction l with
  | nil => rfl
  | cons a t _ =>
    rw [List.dropWhile_cons, h a (List.mem_cons_self _ _)]
    rfl

theorem dropWhile_head_neg {p : Char → Bool} : ∀ {l : List Char} {c : Char},
    (l.dropWhile p).head? = some c → p c = false := by
  intro l
  induction l with
  | nil => intro c h; cases h
  | cons a t ih =>
    intro c h
    rw [List.dropWhile_cons] at h
    by_cases ha : p a = true
    · rw [if_pos ha] at h
      exact ih h
    · rw [if_neg ha] at h
      injection h with h'
      subst h'
      exact Bool.eq_false_iff.mpr ha

theorem dropWhile_of_head_neg {p : Char → Bool} {l : List Char}
    (h : ∀ c, l.head? = some c → p c = false) : l.dropWhile p = l := by
  cases l with
  | nil => rfl
  | cons a t =>
    rw [List.dropWhile_cons, h a rfl]
    rfl

theorem head?_of_isPrefixOf {l₁ l₂ : List Char} (h : l₁ <+: l₂) {c : Char}
    (hc : l₁.head? = some c) : l₂.head? = some c := by
  obtain ⟨r, rfl⟩ := h
  cases l₁ with
  | nil => cases hc
  | cons a t => exact hc

theorem stripChars_head_neg {cs : List Char} {c : Char}
    (h : (stripChars cs).head? = some c) : isPySpace c = false := by
  unfold stripChars at h
  have hsuff : (cs.dropWhile isPySpace).reverse.dropWhile isPySpace <:+
      (cs.dropWhile isPySpace).reverse := List.dropWhile_suffix _
  have hpre : ((cs.dropWhile isPySpace).reverse.dropWhile isPySpace).reverse <+:
      cs.dropWhile isPySpace := by
    have := List.reverse_prefix.mpr hsuff
    simpa using this
  exact dropWhile_head_neg (head?_of_isPrefixOf hpre h)

theorem stripChars_getLast_neg {cs : List Char} {c : Char}
    (h : (stripChars cs).getLast? = some c) : isPySpace c = false := by
  unfold stripChars at h
  rw [List.getLast?_reverse] at h
  exact dropWhile_head_neg h

theorem stripChars_idem (cs : List Char) :
    stripChars (stripChars cs) = stripChars cs := by
  show ((((stripChars cs).dropWhile isPySpace).reverse.dropWhile isPySpace)).reverse
      = stripChars cs
  rw [dropWhile_of_head_neg (fun c hc => stripChars_head_neg hc)]
  rw [dropWhile_of_head_neg (fun c hc => by
    rw [List.head?_reverse] at hc
    exact stripChars_getLast_neg hc)]
  exact List.reverse_reverse _

theorem data_pyStrip (s : String) : (pyStrip s).data = stripChars s.data := rfl

theorem pyStrip_idem (s : String) : pyStrip (pyStrip s) = pyStrip s :=
  congrArg String.mk (stripChars_idem s.data)

theorem stripChars_all_neg {cs : List Char}
    (h : ∀ c ∈ cs, isPySpace c = false) : stripChars cs = cs := by
  unfold stripChars
  rw [dropWhile_all_neg h,
    dropWhile_all_neg (fun c hc => h c (List.mem_reverse.mp hc)),
    List.reverse_reverse]

theorem stripChars_map_lower (cs : List Char) :
    stripChars (cs.map lowerChar) = (stripChars cs).map lowerChar := by
  have hf : (isPySpace ∘ lowerChar) = isPySpace := funext isPySpace_lowerChar
  unfold stripChars
  rw [List.dropWhile_map, hf, List.reverse_map, List.dropWhile_map, hf, List.reverse_map]

theorem pyStrip_pyLower (s : String) :
    pyStrip (pyLower s) = pyLower (pyStrip s) :=
  congrArg String.mk (stripChars_map_lower s.data)

theorem pyLower_idem (s : String) : pyLower (pyLower s) = pyLower s := by
  unfold pyLower
  refine congrArg String.mk ?_
  show (s.data.map lowerChar).map lowerChar = s.data.map lowerChar
  rw [List.map_map]
  exact List.map_congr_left (fun c _ => lowerChar_idem c)

theorem pyLower_ne_empty {s : String} (h : s ≠ "") : pyLower s ≠ "" := by
  intro he
  apply h
  cases s with
  | mk d =>
    have hd : d.map lowerChar = [] := congrArg String.data he
    have hdd : d = [] := by
      cases d with
      | nil => rfl
      | cons a t => cases hd
    rw [hdd]

/-! ### `pyDedup` lemmas -/

theorem pyDedupAcc_subset {α : Type} [DecidableEq α] :
    ∀ (seen l : List α) (x : α), x ∈ pyDedupAcc seen l → x ∈ l := by
  intro seen l
  induction l generalizing seen with
  | nil => intro x h; cases h
  | cons a t ih =>
    intro x h
    unfold pyDedupAcc at h
    by_cases ha : a ∈ seen
    · rw [if_pos ha] at h
      exact List.mem_cons_of_mem _ (ih seen x h)
    · rw [if_neg ha] at h
      rcases List.mem_cons.mp h with rfl | h'
      · exact List.mem_cons_self _ _
      · exact List.mem_cons_of_mem _ (ih _ x h')

theorem pyDedupAcc_not_seen {α : Type} [DecidableEq α] :
    ∀ (seen l : List α) (x : α), x ∈ pyDedupAcc seen l → x ∉ seen := by
  intro seen l
  induction l generalizing seen with
  | nil => intro x h; cases h
  | cons a t ih =>
    intro x h
    unfold pyDedupAcc at h
    by_cases ha : a ∈ seen
    · rw [if_pos ha] at h
      exact ih seen x h
    · rw [if_neg ha] at h
      rcases List.mem_cons.mp h with rfl | h'
      · exact ha
      · intro hx
        exact ih _ x h' (List.mem_cons_of_mem _ hx)

theorem pyDedupAcc_nodup {α : Type} [DecidableEq α] :
    ∀ (seen l : List α), (pyDedupAcc seen l).Nodup := by
  intro seen l
  induction l generalizing seen with
  | nil => exact List.nodup_nil
  | cons a t ih =>
    unfold pyDedupAcc
    by_cases ha : a ∈ seen
    · rw [if_pos ha]
      exact ih seen
    · rw [if_neg ha]
      refine List.nodup_cons.mpr ⟨?_, ih _⟩
      intro hmem
      exact pyDedupAcc_not_seen _ _ _ hmem (List.mem_cons_self _ _)

theorem pyDedupAcc_eq_self {α : Type} [DecidableEq α] :
    ∀ (seen l : List α), l.Nodup → (∀ x ∈ l, x ∉ seen) →
      pyDedupAcc seen l = l := by
  intro seen l
  induction l generalizing seen with
  | nil => intro _ _; rfl
  | cons a t ih =>
    intro hnd hs
    unfold pyDedupAcc
    rw [if_neg (hs a (List.mem_cons_self _ _))]
    congr 1
    refine ih _ (List.nodup_cons.mp hnd).2 ?_
    intro x hx hxs
    rcases List.mem_cons.mp hxs with rfl | h'
    · exact (List.nodup_cons.mp hnd).1 hx
    · exact hs x (List.mem_cons_of_mem _ hx) h'

theorem pyDedup_idem {α : Type} [DecidableEq α] (l : List α) :
    pyDedup (pyDedup l) = pyDedup l :=
  pyDedupAcc_eq_self _ _ (pyDedupAcc_nodup _ _) (fun _ _ h => absurd h (List.not_mem_nil _))

theorem pyDedup_subset {α : Type} [DecidableEq α] {l : List α} {x : α}
    (h : x ∈ pyDedup l) : x ∈ l := pyDedupAcc_subset _ _ _ h

theorem pyDedup_ne_nil {α : Type} [DecidableEq α] {l : List α} (h : l ≠ []) :
    pyDedup l ≠ [] := by
  cases l with
  | nil => exact absurd rfl h
  | cons a t =>
    show pyDedupAcc [] (a :: t) ≠ []
    unfold pyDedupAcc
    rw [if_neg (List.not_mem_nil a)]
    exact List.cons_ne_nil _ _

theorem pyDedup_nodup {α : Type} [DecidableEq α] (l : List α) :
    (pyDedup l).Nodup := pyDedupAcc_nodup _ _

theorem pyDedup_eq_self {α : Type} [DecidableEq α] {l : List α} (h : l.Nodup) :
    pyDedup l = l :=
  pyDedupAcc_eq_self _ _ h (fun _ _ hm => absurd hm (List.not_mem_nil _))

/-! ### Decimal digits and the `str(int)` round trip -/

theorem digitChar_toNat (k : Nat) : (digitChar k).toNat = 48 + k % 10 := by
  unfold digitChar
  exact toNat_ofNat_valid (by omega)

theorem digitChar_sub48 (k : Nat) : (digitChar k).toNat - 48 = k % 10 := by
  rw [digitChar_toNat]
  omega

theorem digitChar_isDigit (k : Nat) : (digitChar k).isDigit = true := by
  unfold digitChar
  have h : k % 10 < 10 := Nat.mod_lt _ (by decide)
  generalize k % 10 = r at h
  interval_cases r <;> decide

theorem isPySpace_digitChar (k : Nat) : isPySpace (digitChar k) = false :=
  isPySpace_false_of_toNat_ge (by rw [digitChar_toNat]; omega)

theorem natDigitsAux_form : ∀ (fuel n : Nat), ∀ c ∈ natDigitsAux fuel n,
    ∃ k, c = digitChar k := by
  intro fuel
  induction fuel with
  | zero => intro n c hc; cases hc
  | succ f ih =>
    intro n c hc
    unfold natDigitsAux at hc
    by_cases h : n < 10
    · rw [if_pos h, List.mem_singleton] at hc
      exact ⟨n, hc⟩
    · rw [if_neg h] at hc
      rcases List.mem_append.mp hc with h1 | h2
      · exact ih _ c h1
      · rw [List.mem_singleton] at h2
        exact ⟨n % 10, h2⟩

theorem natDigits_form {n : Nat} {c : Char} (hc : c ∈ natDigits n) :
    ∃ k, c = digitChar k :=
  natDigitsAux_form _ _ c hc

theorem natDigits_all_digit {n : Nat} : ∀ c ∈ natDigits n, c.isDigit = true := by
  intro c hc
  obtain ⟨k, rfl⟩ := natDigits_form hc
  exact digitChar_isDigit k

theorem natDigits_ne_nil (n : Nat) : natDigits n ≠ [] := by
  unfold natDigits natDigitsAux
  by_cases h : n < 10
  · rw [if_pos h]; simp
  · rw [if_neg h]; simp

theorem digitsVal_append_one (a : List Char) (c : Char) :
    digitsVal (a ++ [c]) = digitsVal a * 10 + (c.toNat - 48) := by
  unfold digitsVal
  rw [List.foldl_append]
  rfl

theorem digitsVal_natDigitsAux : ∀ (fuel n : Nat), n < 10 ^ fuel →
    digitsVal (natDigitsAux fuel n) = n := by
  intro fuel
  induction fuel with
  | zero =>
    intro n h
    rw [pow_zero] at h
    have h0 : n = 0 := by omega
    subst h0; rfl
  | succ f ih =>
    intro n h
    unfold natDigitsAux
    by_cases h10 : n < 10
    · rw [if_pos h10]
      have h1 : digitsVal [digitChar n] = (digitChar n).toNat - 48 := by
        unfold digitsVal
        simp [List.foldl]
      rw [h1, digitChar_sub48, Nat.mod_eq_of_lt h10]
    · have hp : 10 ^ (f + 1) = 10 ^ f * 10 := pow_succ 10 f
      have hdiv : n / 10 < 10 ^ f := by omega
      rw [if_neg h10, digitsVal_append_one, ih (n / 10) hdiv, digitChar_sub48]
      omega

theorem digitsVal_natDigits (n : Nat) : digitsVal (natDigits n) = n := by
  unfold natDigits
  exact digitsVal_natDigitsAux (n + 1) n
    (lt_of_lt_of_le (Nat.lt_pow_self (by norm_num) n)
      (Nat.pow_le_pow_right (by norm_num) (Nat.le_succ n)))

theorem pyStrOfInt_no_space {n : Int} : ∀ c ∈ (pyStrOfInt n).data, isPySpace c = false := by
  intro c hc
  unfold pyStrOfInt at hc
  by_cases h : n < 0
  · rw [if_pos h] at hc
    rcases List.mem_cons.mp hc with rfl | h2
    · decide
    · obtain ⟨k, rfl⟩ := natDigits_form h2
      exact isPySpace_digitChar k
  · rw [if_neg h] at hc
    obtain ⟨k, rfl⟩ := natDigits_form hc
    exact isPySpace_digitChar k

theorem pyStrip_pyStrOfInt (n : Int) : pyStrip (pyStrOfInt n) = pyStrOfInt n := by
  unfold pyStrip
  rw [stripChars_all_neg pyStrOfInt_no_space]

theorem pyStrOfInt_ne_empty (n : Int) : pyStrOfInt n ≠ "" := by
  unfold pyStrOfInt
  by_cases h : n < 0
  · rw [if_pos h]
    intro he
    exact List.cons_ne_nil _ _ (congrArg String.data he)
  · rw [if_neg h]
    intro he
    exact natDigits_ne_nil n.natAbs (congrArg String.data he)

theorem takeWhile_all_pos {p : Char → Bool} {l : List Char} (h : ∀ c ∈ l, p c = true) :
    l.takeWhile p = l := List.takeWhile_eq_self_iff.mpr h

theorem dropWhile_all_pos {p : Char → Bool} {l : List Char} (h : ∀ c ∈ l, p c = true) :
    l.dropWhile p = [] := List.dropWhile_eq_nil_iff.mpr h

theorem parseFloatBody_digits {body : List Char} (hne : body ≠ [])
    (hd : ∀ c ∈ body, c.isDigit = true) :
    parseFloatBody body = some ((digitsVal body : Rat)) := by
  unfold parseFloatBody
  rw [List.span_eq_take_drop, takeWhile_all_pos hd, dropWhile_all_pos hd]
  show (if body ≠ [] then some ((digitsVal body : Rat)) else Option.none)
      = some ((digitsVal body : Rat))
  rw [if_pos hne]

theorem parseFloatCore_neg (body : List Char) :
    parseFloatCore ('-' :: body) = (parseFloatBody body).map (fun q => -q) := rfl

theorem parseFloatCore_digit {c : Char} (hc : c.isDigit = true) (rest : List Char) :
    parseFloatCore (c :: rest) = parseFloatBody (c :: rest) := by
  unfold parseFloatCore
  split
  · rename_i heq
    injection heq with h1 _
    rw [h1] at hc
    exact absurd hc (by decide)
  · rename_i heq
    injection heq with h1 _
    rw [h1] at hc
    exact absurd hc (by decide)
  · rfl

theorem pyParseFloat_strOfInt (n : Int) : pyParseFloat (pyStrOfInt n) = some ((n : Rat)) := by
  unfold pyParseFloat
  rw [stripChars_all_neg pyStrOfInt_no_space]
  by_cases h : n < 0
  · have hdata : (pyStrOfInt n).data = '-' :: natDigits n.natAbs := by
      unfold pyStrOfInt
      rw [if_pos h]
    rw [hdata, parseFloatCore_neg, parseFloatBody_digits (natDigits_ne_nil _) natDigits_all_digit,
      digitsVal_natDigits]
    have habs : ((n.natAbs : Nat) : Rat) = -((n : Int) : Rat) := by
      rw [Int.cast_natAbs]
      rw [abs_of_nonpos (by exact_mod_cast le_of_lt h)]
      push_cast
      ring
    show some (-((n.natAbs : Nat) : Rat)) = some ((n : Rat))
    rw [habs, neg_neg]
  · have hdata : (pyStrOfInt n).data = natDigits n.natAbs := by
      unfold pyStrOfInt
      rw [if_neg h]
    obtain ⟨c, cs', hcons⟩ : ∃ c cs', natDigits n.natAbs = c :: cs' := by
      cases hnd : natDigits n.natAbs with
      | nil => exact absurd hnd (natDigits_ne_nil _)
      | cons c cs' => exact ⟨c, cs', rfl⟩
    have hcdig : c.isDigit = true :=
      natDigits_all_digit c (hcons ▸ List.mem_cons_self c cs')
    rw [hdata, hcons, parseFloatCore_digit hcdig, ← hcons,
      parseFloatBody_digits (natDigits_ne_nil _) natDigits_all_digit, digitsVal_natDigits]
    have habs : ((n.natAbs : Nat) : Rat) = ((n : Int) : Rat) := by
      rw [Int.cast_natAbs]
      rw [abs_of_nonneg (by exact_mod_cast not_lt.mp h)]
    rw [habs]

theorem pyTrunc_intCast (n : Int) : pyTrunc ((n : Rat)) = n := by
  unfold pyTrunc
  by_cases h : (0 : Rat) ≤ (n : Rat)
  · rw [if_pos h, Int.floor_intCast]
  · rw [if_neg h, Int.ceil_intCast]

theorem causes_int_revisit (n : Int) : causes_int (some (.int n)) = some n := by
  unfold causes_int
  show (if pyStrip (pyStr (.int n)) ≠ "" then
      (match pyParseFloat (pyStrip (pyStr (.int n))) with
       | some q => some (pyTrunc q)
       | Option.none => Option.none)
    else Option.none) = some n
  have hs : pyStrip (pyStr (.int n)) = pyStrOfInt n := pyStrip_pyStrOfInt n
  rw [hs, if_pos (pyStrOfInt_ne_empty n), pyParseFloat_strOfInt]
  show some (pyTrunc ((n : Rat))) = some n
  rw [pyTrunc_intCast]

/-! ### The ISO-date fixed point of `_iso_or_none` -/

theorem digits2_digitChar (j k : Nat) (rest : List Char) :
    digits2 (digitChar j :: digitChar k :: rest) = some (10 * (j % 10) + k % 10, rest) := by
  show (if (digitChar j).isDigit = true ∧ (digitChar k).isDigit = true then
      some (10 * ((digitChar j).toNat - 48) + ((digitChar k).toNat - 48), rest)
    else Option.none) = some (10 * (j % 10) + k % 10, rest)
  rw [if_pos ⟨digitChar_isDigit _, digitChar_isDigit _⟩, digitChar_sub48, digitChar_sub48]

theorem digits4_digitChar (a b c d : Nat) (rest : List Char) :
    digits4 (digitChar a :: digitChar b :: digitChar c :: digitChar d :: rest) =
      some (1000 * (a % 10) + 100 * (b % 10) + 10 * (c % 10) + d % 10, rest) := by
  show (if (digitChar a).isDigit = true ∧ (digitChar b).isDigit = true ∧
        (digitChar c).isDigit = true ∧ (digitChar d).isDigit = true then
      some (1000 * ((digitChar a).toNat - 48) + 100 * ((digitChar b).toNat - 48) +
        10 * ((digitChar c).toNat - 48) + ((digitChar d).toNat - 48), rest)
    else Option.none)
    = some (1000 * (a % 10) + 100 * (b % 10) + 10 * (c % 10) + d % 10, rest)
  rw [if_pos ⟨digitChar_isDigit _, digitChar_isDigit _, digitChar_isDigit _, digitChar_isDigit _⟩,
    digitChar_sub48, digitChar_sub48, digitChar_sub48, digitChar_sub48]

theorem validDate_bounds {y m d : Nat} (h : validDate y m d = true) :
    1 ≤ y ∧ y ≤ 9999 ∧ 1 ≤ m ∧ m ≤ 12 ∧ 1 ≤ d ∧ d ≤ 31 := by
  have hb : 1 ≤ y ∧ y ≤ 9999 ∧ 1 ≤ m ∧ m ≤ 12 ∧ 1 ≤ d ∧ d ≤ daysInMonth y m := by
    simpa [validDate] using h
  have h31 : daysInMonth y m ≤ 31 := by
    unfold daysInMonth
    split
    · split <;> omega
    · split <;> omega
  exact ⟨hb.1, hb.2.1, hb.2.2.1, hb.2.2.2.1, hb.2.2.2.2.1, le_trans hb.2.2.2.2.2 h31⟩

theorem fromisoOK_isoDate {y m d : Nat} (h : validDate y m d = true) :
    fromisoOK (isoDate y m d) = true := by
  obtain ⟨hy1, hy2, hm1, hm2, hd1, hd2⟩ := validDate_bounds h
  have hdata : (isoDate y m d).data =
      digitChar (y / 1000) :: digitChar (y / 100) :: digitChar (y / 10) :: digitChar y ::
        '-' :: digitChar (m / 10) :: digitChar m :: '-' ::
        digitChar (d / 10) :: digitChar d :: [] := rfl
  have hy : 1000 * (y / 1000 % 10) + 100 * (y / 100 % 10) + 10 * (y / 10 % 10) + y % 10 = y := by
    omega
  have hm : 10 * (m / 10 % 10) + m % 10 = m := by omega
  have hd : 10 * (d / 10 % 10) + d % 10 = d := by omega
  simp only [fromisoOK, hdata, digits4_digitChar, digits2_digitChar, hy, hm, hd, h,
    Bool.and_true]

theorem isoDate_no_space {y m d : Nat} : ∀ c ∈ (isoDate y m d).data, isPySpace c = false := by
  intro c hc
  have hc' : c ∈ [digitChar (y / 1000), digitChar (y / 100), digitChar (y / 10), digitChar y,
      '-', digitChar (m / 10), digitChar m, '-', digitChar (d / 10), digitChar d] := hc
  fin_cases hc' <;> first
    | exact isPySpace_digitChar _
    | decide

theorem pyStrip_isoDate (y m d : Nat) : pyStrip (isoDate y m d) = isoDate y m d := by
  unfold pyStrip
  rw [stripChars_all_neg isoDate_no_space]

theorem isoDate_ne_empty (y m d : Nat) : isoDate y m d ≠ "" := by
  intro h
  exact List.cons_ne_nil _ _ (congrArg String.data h)

theorem slashFallback_inv {cs : List Char} {t : String} (h : slashFallback cs = some t) :
    ∃ y m d, validDate y m d = true ∧ t = isoDate y m d := by
  unfold slashFallback at h
  split at h
  · split at h
    · dsimp only [] at h
      split at h
      · rename_i hvalid
        exact ⟨_, _, _, hvalid, (Option.some.inj h).symm⟩
      · cases h
    · cases h
  · split at h
    · dsimp only [] at h
      split at h
      · rename_i hvalid
        exact ⟨_, _, _, hvalid, (Option.some.inj h).symm⟩
      · cases h
    · cases h
  · cases h

theorem isoOrNone_isoDate_self (du : DateOracle) {y m d : Nat}
    (hv : validDate y m d = true) :
    isoOrNone du (.str (isoDate y m d)) = some (isoDate y m d) := by
  show (if isoDate y m d = "" then Option.none
      else
        if fromisoOK (pyStrip (isoDate y m d)) = true then some (pyStrip (isoDate y m d))
        else
          match du (pyStrip (isoDate y m d)) with
          | some (y', m', d') => some (isoDate y' m' d')
          | Option.none => slashFallback (pyStrip (isoDate y m d)).data)
      = some (isoDate y m d)
  rw [if_neg (isoDate_ne_empty y m d), pyStrip_isoDate, if_pos (fromisoOK_isoDate hv)]

theorem isoOrNone_fixed {du : DateOracle} (hdu : DateOracleValid du) {v : PyVal} {t : String}
    (h : isoOrNone du v = some t) :
    pyStrip t = t ∧ t ≠ "" ∧ isoOrNone du (.str t) = some t := by
  cases v with
  | str s =>
    have h' : (if s = "" then Option.none
        else
          if fromisoOK (pyStrip s) = true then some (pyStrip s)
          else
            match du (pyStrip s) with
            | some (y', m', d') => some (isoDate y' m' d')
            | Option.none => slashFallback (pyStrip s).data)
        = some t := h
    by_cases hse : s = ""
    · rw [if_pos hse] at h'; cases h'
    · rw [if_neg hse] at h'
      by_cases hiso : fromisoOK (pyStrip s) = true
      · rw [if_pos hiso] at h'
        have ht : t = pyStrip s := (Option.some.inj h').symm
        subst ht
        have h2 : pyStrip s ≠ "" := by
          intro he
          rw [he] at hiso
          exact absurd hiso (by decide)
        refine ⟨pyStrip_idem s, h2, ?_⟩
        show (if pyStrip s = "" then Option.none
            else
              if fromisoOK (pyStrip (pyStrip s)) = true then some (pyStrip (pyStrip s))
              else
                match du (pyStrip (pyStrip s)) with
                | some (y', m', d') => some (isoDate y' m' d')
                | Option.none => slashFallback (pyStrip (pyStrip s)).data)
            = some (pyStrip s)
        rw [pyStrip_idem s, if_neg h2, if_pos hiso]
      · rw [if_neg hiso] at h'
        cases hdu' : du (pyStrip s) with
        | some ymd =>
          obtain ⟨y', m', d'⟩ := ymd
          rw [hdu'] at h'
          have h'' : some (isoDate y' m' d') = some t := h'
          have ht : t = isoDate y' m' d' := (Option.some.inj h'').symm
          subst ht
          have hval : validDate y' m' d' = true := hdu _ _ _ _ hdu'
          exact ⟨pyStrip_isoDate _ _ _, isoDate_ne_empty _ _ _, isoOrNone_isoDate_self du hval⟩
        | none =>
          rw [hdu'] at h'
          have h'' : slashFallback (pyStrip s).data = some t := h'
          obtain ⟨y', m', d', hval, ht⟩ := slashFallback_inv h''
          subst ht
          exact ⟨pyStrip_isoDate _ _ _, isoDate_ne_empty _ _ _, isoOrNone_isoDate_self du hval⟩
  | none => cases h
  | bool b => cases h
  | int n => cases h
  | float q => cases h
  | list xs => cases h
  | dict kvs => cases h

/-! ### Stability of the per-type coercions on their own output -/

theorem filterMap_eq_self {α : Type} {g : α → Option α} : ∀ {l : List α},
    (∀ x ∈ l, g x = some x) → l.filterMap g = l := by
  intro l
  induction l with
  | nil => intro _; rfl
  | cons a t ih =>
    intro h
    rw [List.filterMap_cons, h a (List.mem_cons_self a t),
      ih (fun x hx => h x (List.mem_cons_of_mem a hx))]

theorem keep_str_stable {v w : PyVal} (h : keep_str v = some w) : keep_str w = some w := by
  cases v
  case str s =>
    have h' : (if pyStrip s ≠ "" then some (PyVal.str (pyStrip s)) else Option.none)
        = some w := h
    by_cases hs : pyStrip s ≠ ""
    · rw [if_pos hs] at h'
      have hw : w = .str (pyStrip s) := (Option.some.inj h').symm
      subst hw
      show (if pyStrip (pyStrip s) ≠ "" then some (PyVal.str (pyStrip (pyStrip s)))
          else Option.none) = some (PyVal.str (pyStrip s))
      rw [pyStrip_idem, if_pos hs]
    · rw [if_neg hs] at h'; cases h'
  all_goals exact Option.noConfusion h

theorem keep_int_shape {v w : PyVal} (h : keep_int v = some w) :
    (∃ b, w = .bool b) ∨ (∃ n, w = .int n) := by
  cases v
  case bool b => exact Or.inl ⟨b, (Option.some.inj h).symm⟩
  case int n => exact Or.inr ⟨n, (Option.some.inj h).symm⟩
  case float q => exact Or.inr ⟨pyTrunc q, (Option.some.inj h).symm⟩
  case str s =>
    have h' : (pyParseInt (pyStrip s)).map PyVal.int = some w := h
    cases hp : pyParseInt (pyStrip s) with
    | none => rw [hp] at h'; cases h'
    | some n =>
      rw [hp] at h'
      exact Or.inr ⟨n, (Option.some.inj h').symm⟩
  all_goals exact Option.noConfusion h

theorem keep_int_stable {v w : PyVal} (h : keep_int v = some w) : keep_int w = some w := by
  rcases keep_int_shape h with ⟨b, rfl⟩ | ⟨n, rfl⟩ <;> rfl

theorem keep_float_shape {v w : PyVal} (h : keep_float v = some w) : ∃ q, w = .float q := by
  cases v
  case bool b => exact ⟨_, (Option.some.inj h).symm⟩
  case int n => exact ⟨_, (Option.some.inj h).symm⟩
  case float q => exact ⟨q, (Option.some.inj h).symm⟩
  case str s =>
    have h' : (pyParseFloat (pyStrip s)).map PyVal.float = some w := h
    cases hp : pyParseFloat (pyStrip s) with
    | none => rw [hp] at h'; cases h'
    | some q =>
      rw [hp] at h'
      exact ⟨q, (Option.some.inj h').symm⟩
  all_goals exact Option.noConfusion h

theorem keep_float_stable {v w : PyVal} (h : keep_float v = some w) : keep_float w = some w := by
  obtain ⟨q, rfl⟩ := keep_float_shape h
  rfl

theorem keep_bool_shape {v w : PyVal} (h : keep_bool v = some w) : ∃ b, w = .bool b := by
  cases v
  case bool b => exact ⟨b, (Option.some.inj h).symm⟩
  case str s =>
    have h' : (if pyLower (pyStrip s) = "true" ∨ pyLower (pyStrip s) = "yes" ∨
          pyLower (pyStrip s) = "1" then some (PyVal.bool true)
        else if pyLower (pyStrip s) = "false" ∨ pyLower (pyStrip s) = "no" ∨
          pyLower (pyStrip s) = "0" then some (PyVal.bool false)
        else Option.none) = some w := h
    by_cases h1 : pyLower (pyStrip s) = "true" ∨ pyLower (pyStrip s) = "yes" ∨
        pyLower (pyStrip s) = "1"
    · rw [if_pos h1] at h'
      exact ⟨true, (Option.some.inj h').symm⟩
    · rw [if_neg h1] at h'
      by_cases h2 : pyLower (pyStrip s) = "false" ∨ pyLower (pyStrip s) = "no" ∨
          pyLower (pyStrip s) = "0"
      · rw [if_pos h2] at h'
        exact ⟨false, (Option.some.inj h').symm⟩
      · rw [if_neg h2] at h'; cases h'
  all_goals exact Option.noConfusion h

theorem keep_bool_stable {v w : PyVal} (h : keep_bool v = some w) : keep_bool w = some w := by
  obtain ⟨b, rfl⟩ := keep_bool_shape h
  rfl

theorem strEntry_mem {x : String} {v : PyVal} (h : strEntry v = some x) :
    pyStrip x = x ∧ x ≠ "" := by
  cases v
  case str s =>
    have h' : (if pyStrip s ≠ "" then some (pyStrip s) else Option.none) = some x := h
    by_cases hs : pyStrip s ≠ ""
    · rw [if_pos hs] at h'
      obtain rfl := Option.some.inj h'
      exact ⟨pyStrip_idem s, hs⟩
    · rw [if_neg hs] at h'; cases h'
  all_goals exact Option.noConfusion h

theorem strEntry_revisit {x : String} (h1 : pyStrip x = x) (h2 : x ≠ "") :
    strEntry (.str x) = some x := by
  show (if pyStrip x ≠ "" then some (pyStrip x) else Option.none) = some x
  rw [h1, if_pos h2]

theorem filterMap_strEntry_map {l : List String}
    (h : ∀ x ∈ l, pyStrip x = x ∧ x ≠ "") :
    (l.map PyVal.str).filterMap strEntry = l := by
  rw [List.filterMap_map]
  exact filterMap_eq_self (fun x hx => strEntry_revisit (h x hx).1 (h x hx).2)

theorem keep_list_of_str_stable {v w : PyVal} (h : keep_list_of_str v = some w) :
    keep_list_of_str w = some w := by
  cases v
  case list xs =>
    have h' : (if xs.filterMap strEntry ≠ [] then
        some (PyVal.list ((pyDedup (xs.filterMap strEntry)).map .str))
        else Option.none) = some w := h
    by_cases hne : xs.filterMap strEntry ≠ []
    · rw [if_pos hne] at h'
      have hw : w = .list ((pyDedup (xs.filterMap strEntry)).map .str) :=
        (Option.some.inj h').symm
      subst hw
      have hmem : ∀ x ∈ pyDedup (xs.filterMap strEntry), pyStrip x = x ∧ x ≠ "" := by
        intro x hx
        obtain ⟨v', _, hv'⟩ := List.mem_filterMap.mp (pyDedup_subset hx)
        exact strEntry_mem hv'
      have hcalc := filterMap_strEntry_map hmem
      show (if ((pyDedup (xs.filterMap strEntry)).map PyVal.str).filterMap strEntry ≠ [] then
          some (PyVal.list ((pyDedup (((pyDedup (xs.filterMap strEntry)).map
            PyVal.str).filterMap strEntry)).map .str))
          else Option.none)
        = some (PyVal.list ((pyDedup (xs.filterMap strEntry)).map .str))
      rw [hcalc, if_pos (pyDedup_ne_nil hne), pyDedup_idem]
    · rw [if_neg hne] at h'; cases h'
  case str s =>
    have h' : (if pyStrip s ≠ "" then some (PyVal.list [.str (pyStrip s)]) else Option.none)
        = some w := h
    by_cases hs : pyStrip s ≠ ""
    · rw [if_pos hs] at h'
      have hw : w = .list [.str (pyStrip s)] := (Option.some.inj h').symm
      subst hw
      have hfm : [PyVal.str (pyStrip s)].filterMap strEntry = [pyStrip s] := by
        have := filterMap_strEntry_map (l := [pyStrip s])
          (fun x hx => by
            rw [List.mem_singleton] at hx
            subst hx
            exact ⟨pyStrip_idem s, hs⟩)
        exact this
      show (if [PyVal.str (pyStrip s)].filterMap strEntry ≠ [] then
          some (PyVal.list ((pyDedup ([PyVal.str (pyStrip s)].filterMap strEntry)).map .str))
          else Option.none)
        = some (PyVal.list [.str (pyStrip s)])
      rw [hfm, if_pos (by simp)]
      rfl
    · rw [if_neg hs] at h'; cases h'
  all_goals exact Option.noConfusion h

/-! ### Lookup in sub-objects built from optional entries -/

theorem lookupA_optEntry_append (k : String) (o : Option PyVal) (rest : PyDict) :
    lookupA (optEntry k o ++ rest) k = o.or (lookupA rest k) := by
  cases o with
  | none => rfl
  | some v =>
    show lookupA ((k, v) :: rest) k = some v
    rw [lookupA_cons, if_pos rfl]

theorem lookupA_optEntry_append_ne {k k' : String} (h : k' ≠ k) (o : Option PyVal)
    (rest : PyDict) :
    lookupA (optEntry k' o ++ rest) k = lookupA rest k := by
  cases o with
  | none => rfl
  | some v =>
    show lookupA ((k', v) :: rest) k = lookupA rest k
    rw [lookupA_cons, if_neg h]

theorem lookupA_optEntry_self (k : String) (o : Option PyVal) :
    lookupA (optEntry k o) k = o := by
  cases o with
  | none => rfl
  | some v =>
    show lookupA [(k, v)] k = some v
    rw [lookupA_cons, if_pos rfl]

theorem lookupA_optEntry_ne {k k' : String} (h : k' ≠ k) (o : Option PyVal) :
    lookupA (optEntry k' o) k = Option.none := by
  cases o with
  | none => rfl
  | some v =>
    show lookupA [(k', v)] k = Option.none
    rw [lookupA_cons, if_neg h]
    rfl

/-! ### Stability of the `people` cleaner -/

theorem personBuild_name (no : Option String) (ao : Option Int) (oo io : Option String) :
    lookupA (personBuild no ao oo io) "name" = no.map .str := by
  unfold personBuild
  rw [List.append_assoc, List.append_assoc, lookupA_optEntry_append,
    lookupA_optEntry_append_ne (by decide), lookupA_optEntry_append_ne (by decide),
    lookupA_optEntry_ne (by decide), Option.or_none]

theorem personBuild_age (no : Option String) (ao : Option Int) (oo io : Option String) :
    lookupA (personBuild no ao oo io) "age" = ao.map .int := by
  unfold personBuild
  rw [List.append_assoc, List.append_assoc,
    lookupA_optEntry_append_ne (by decide), lookupA_optEntry_append,
    lookupA_optEntry_append_ne (by decide), lookupA_optEntry_ne (by decide), Option.or_none]

theorem personBuild_outcome (no : Option String) (ao : Option Int) (oo io : Option String) :
    lookupA (personBuild no ao oo io) "outcome" = oo.map .str := by
  unfold personBuild
  rw [List.append_assoc, List.append_assoc,
    lookupA_optEntry_append_ne (by decide), lookupA_optEntry_append_ne (by decide),
    lookupA_optEntry_append, lookupA_optEntry_ne (by decide), Option.or_none]

theorem personBuild_injuries (no : Option String) (ao : Option Int) (oo io : Option String) :
    lookupA (personBuild no ao oo io) "injuries" = io.map .str := by
  unfold personBuild
  rw [List.append_assoc, List.append_assoc,
    lookupA_optEntry_append_ne (by decide), lookupA_optEntry_append_ne (by decide),
    lookupA_optEntry_append_ne (by decide), lookupA_optEntry_self]

theorem personName_mem {person : PyDict} {s : String} (h : personName person = some s) :
    pyStrip s = s ∧ s ≠ "" := by
  cases hl : lookupA person "name" with
  | none =>
    simp only [personName, hl] at h
    exact Option.noConfusion h
  | some v' =>
    cases v'
    case str t =>
      simp only [personName, hl] at h
      by_cases ht : pyStrip t ≠ ""
      · rw [if_pos ht] at h
        obtain rfl := Option.some.inj h
        exact ⟨pyStrip_idem t, ht⟩
      · rw [if_neg ht] at h; cases h
    all_goals (simp only [personName, hl] at h; exact Option.noConfusion h)

theorem personOutcome_mem {person : PyDict} {s : String} (h : personOutcome person = some s) :
    pyStrip s = s := by
  cases hl : lookupA person "outcome" with
  | none =>
    simp only [personOutcome, hl] at h
    exact Option.noConfusion h
  | some v' =>
    cases v'
    case str t =>
      simp only [personOutcome, hl] at h
      obtain rfl := (Option.some.inj h).symm
      exact pyStrip_idem t
    all_goals (simp only [personOutcome, hl] at h; exact Option.noConfusion h)

theorem personInjuries_mem {person : PyDict} {s : String} (h : personInjuries person = some s) :
    pyStrip s = s := by
  cases hl : lookupA person "injuries" with
  | none =>
    simp only [personInjuries, hl] at h
    exact Option.noConfusion h
  | some v' =>
    cases v'
    case str t =>
      simp only [personInjuries, hl] at h
      obtain rfl := (Option.some.inj h).symm
      exact pyStrip_idem t
    all_goals (simp only [personInjuries, hl] at h; exact Option.noConfusion h)

theorem personName_revisit {no : Option String}
    (hno : ∀ s, no = some s → pyStrip s = s ∧ s ≠ "")
    (ao : Option Int) (oo io : Option String) :
    personName (personBuild no ao oo io) = no := by
  unfold personName
  rw [personBuild_name]
  cases no with
  | none => rfl
  | some s =>
    show (if pyStrip s ≠ "" then some (pyStrip s) else Option.none) = some s
    obtain ⟨h1, h2⟩ := hno s rfl
    rw [h1, if_pos h2]

theorem personAge_revisit (no : Option String) (ao : Option Int) (oo io : Option String) :
    personAge (personBuild no ao oo io) = ao := by
  unfold personAge
  rw [personBuild_age]
  cases ao with
  | none => rfl
  | some n => rfl

theorem personOutcome_revisit (no : Option String) (ao : Option Int) {oo : Option String}
    (hoo : ∀ s, oo = some s → pyStrip s = s) (io : Option String) :
    personOutcome (personBuild no ao oo io) = oo := by
  unfold personOutcome
  rw [personBuild_outcome]
  cases oo with
  | none => rfl
  | some s =>
    show some (pyStrip s) = some s
    rw [hoo s rfl]

theorem personInjuries_revisit (no : Option String) (ao : Option Int) (oo : Option String)
    {io : Option String} (hio : ∀ s, io = some s → pyStrip s = s) :
    personInjuries (personBuild no ao oo io) = io := by
  unfold personInjuries
  rw [personBuild_injuries]
  cases io with
  | none => rfl
  | some s =>
    show some (pyStrip s) = some s
    rw [hio s rfl]

theorem cleanPerson_build {no : Option String} {ao : Option Int} {oo io : Option String}
    (hno : ∀ s, no = some s → pyStrip s = s ∧ s ≠ "")
    (hoo : ∀ s, oo = some s → pyStrip s = s)
    (hio : ∀ s, io = some s → pyStrip s = s)
    (hemp : (personBuild no ao oo io).isEmpty = false) :
    cleanPerson (.dict (personBuild no ao oo io)) = some (personBuild no ao oo io) := by
  show (if (personBuild (personName (personBuild no ao oo io))
        (personAge (personBuild no ao oo io)) (personOutcome (personBuild no ao oo io))
        (personInjuries (personBuild no ao oo io))).isEmpty then Option.none
      else some (personBuild (personName (personBuild no ao oo io))
        (personAge (personBuild no ao oo io)) (personOutcome (personBuild no ao oo io))
        (personInjuries (personBuild no ao oo io))))
    = some (personBuild no ao oo io)
  rw [personName_revisit hno, personAge_revisit, personOutcome_revisit _ _ hoo,
    personInjuries_revisit _ _ _ hio,
    if_neg (fun hc => by rw [hemp] at hc; exact Bool.noConfusion hc)]

theorem cleanPerson_stable {v : PyVal} {p : PyDict} (h : cleanPerson v = some p) :
    cleanPerson (.dict p) = some p := by
  cases v
  case dict person =>
    have h' : (if (personBuild (personName person) (personAge person) (personOutcome person)
          (personInjuries person)).isEmpty then Option.none
        else some (personBuild (personName person) (personAge person) (personOutcome person)
          (personInjuries person))) = some p := h
    cases hemp : (personBuild (personName person) (personAge person) (personOutcome person)
        (personInjuries person)).isEmpty with
    | true => rw [if_pos hemp] at h'; cases h'
    | false =>
      rw [if_neg (fun hc => by rw [hemp] at hc; exact Bool.noConfusion hc)] at h'
      have hp : p = personBuild (personName person) (personAge person) (personOutcome person)
          (personInjuries person) := (Option.some.inj h').symm
      subst hp
      exact cleanPerson_build (fun s hs => personName_mem hs)
        (fun s hs => personOutcome_mem hs) (fun s hs => personInjuries_mem hs) hemp
  all_goals exact Option.noConfusion h

theorem keep_people_stable {v w : PyVal} (h : keep_people v = some w) :
    keep_people w = some w := by
  cases v
  case list xs =>
    have h' : (if (xs.filterMap cleanPerson).isEmpty then Option.none
        else some (PyVal.list ((xs.filterMap cleanPerson).map .dict))) = some w := h
    cases hemp : (xs.filterMap cleanPerson).isEmpty with
    | true => rw [if_pos hemp] at h'; cases h'
    | false =>
      rw [if_neg (fun hc => by rw [hemp] at hc; exact Bool.noConfusion hc)] at h'
      have hw : w = .list ((xs.filterMap cleanPerson).map .dict) := (Option.some.inj h').symm
      subst hw
      have hcalc : ((xs.filterMap cleanPerson).map PyVal.dict).filterMap cleanPerson
          = xs.filterMap cleanPerson := by
        rw [List.filterMap_map]
        apply filterMap_eq_self
        intro p hp
        obtain ⟨x, _, hx⟩ := List.mem_filterMap.mp hp
        exact cleanPerson_stable hx
      show (if (((xs.filterMap cleanPerson).map PyVal.dict).filterMap cleanPerson).isEmpty
          then Option.none
          else some (PyVal.list ((((xs.filterMap cleanPerson).map
            PyVal.dict).filterMap cleanPerson).map .dict)))
        = some (PyVal.list ((xs.filterMap cleanPerson).map .dict))
      rw [hcalc, if_neg (fun hc => by rw [hemp] at hc; exact Bool.noConfusion hc)]
  all_goals exact Option.noConfusion h

/-! ### Stability of the enum and list coercions of the nested cleaner -/

theorem map_ne_nil {α β : Type} (f : α → β) {l : List α} (h : l ≠ []) : l.map f ≠ [] := by
  cases l with
  | nil => exact absurd rfl h
  | cons a t => exact fun hc => List.noConfusion hc

theorem clean_list_str_mem {v : Option PyVal} {x : String} (hx : x ∈ clean_list_str v) :
    pyStrip x = x ∧ x ≠ "" := by
  cases v with
  | none => cases hx
  | some v' =>
    cases v'
    case list xs =>
      obtain ⟨y, _, hy⟩ := List.mem_filterMap.mp hx
      exact strEntry_mem hy
    case str s =>
      have hx' : x ∈ (if pyStrip s ≠ "" then [pyStrip s] else []) := hx
      by_cases hs : pyStrip s ≠ ""
      · rw [if_pos hs, List.mem_singleton] at hx'
        subst hx'
        exact ⟨pyStrip_idem s, hs⟩
      · rw [if_neg hs] at hx'; cases hx'
    all_goals cases hx

theorem clean_list_str_revisit {l : List String}
    (h : ∀ x ∈ l, pyStrip x = x ∧ x ≠ "") :
    clean_list_str (some (.list (l.map .str))) = l :=
  filterMap_strEntry_map h

theorem keep_enum_mem {v : Option PyVal} {allowed : List String} {t : String}
    (h : keep_enum v allowed = some t) : t ∈ allowed := by
  cases v with
  | none => exact Option.noConfusion h
  | some v' =>
    cases v'
    case str s =>
      have h' : (if s ≠ "" then
          (if pyLower (pyStrip s) ∈ allowed then some (pyLower (pyStrip s)) else Option.none)
          else Option.none) = some t := h
      by_cases hs : s ≠ ""
      · rw [if_pos hs] at h'
        by_cases hm : pyLower (pyStrip s) ∈ allowed
        · rw [if_pos hm] at h'
          obtain rfl := (Option.some.inj h').symm
          exact hm
        · rw [if_neg hm] at h'; cases h'
      · rw [if_neg hs] at h'; cases h'
    all_goals exact Option.noConfusion h

theorem keep_enum_revisit {allowed : List String} {t : String}
    (hvoc : ∀ u ∈ allowed, pyStrip u = u ∧ pyLower u = u ∧ u ≠ "")
    (ht : t ∈ allowed) :
    keep_enum (some (.str t)) allowed = some t := by
  obtain ⟨h1, h2, h3⟩ := hvoc t ht
  show (if t ≠ "" then
      (if pyLower (pyStrip t) ∈ allowed then some (pyLower (pyStrip t)) else Option.none)
      else Option.none) = some t
  rw [if_pos h3, h1, h2, if_pos ht]

theorem causes_str_mem {v : Option PyVal} {t : String} (h : causes_str v = some t) :
    pyStrip t = t ∧ t ≠ "" := by
  cases v with
  | none => exact Option.noConfusion h
  | some v' =>
    cases v'
    case str s =>
      have h' : (if pyStrip s ≠ "" then some (pyStrip s) else Option.none) = some t := h
      by_cases hs : pyStrip s ≠ ""
      · rw [if_pos hs] at h'
        obtain rfl := (Option.some.inj h').symm
        exact ⟨pyStrip_idem s, hs⟩
      · rw [if_neg hs] at h'; cases h'
    all_goals exact Option.noConfusion h

theorem causes_str_revisit {t : String} (h1 : pyStrip t = t) (h2 : t ≠ "") :
    causes_str (some (.str t)) = some t := by
  show (if pyStrip t ≠ "" then some (pyStrip t) else Option.none) = some t
  rw [h1, if_pos h2]

theorem causes_bool_revisit (b : Bool) : causes_bool (some (.bool b)) = some b := rfl

theorem lowerDedup_mem {l : List String} {x : String} (hx : x ∈ lowerDedup l)
    (hl : ∀ p ∈ l, pyStrip p = p ∧ p ≠ "") :
    pyStrip x = x ∧ x ≠ "" ∧ pyLower x = x := by
  have hx' : x ∈ l.map pyLower := pyDedup_subset hx
  obtain ⟨p, hp, rfl⟩ := List.mem_map.mp hx'
  exact ⟨by rw [pyStrip_pyLower, (hl p hp).1], pyLower_ne_empty (hl p hp).2, pyLower_idem p⟩

theorem lowerDedup_ne_nil {l : List String} (h : l ≠ []) : lowerDedup l ≠ [] :=
  pyDedup_ne_nil (map_ne_nil pyLower h)

theorem lowerDedup_idem_on {l : List String} (hl : ∀ x ∈ lowerDedup l, pyLower x = x) :
    lowerDedup (lowerDedup l) = lowerDedup l := by
  show pyDedup ((lowerDedup l).map pyLower) = lowerDedup l
  have hm : (lowerDedup l).map pyLower = lowerDedup l := by
    rw [List.map_congr_left hl, List.map_id']
  rw [hm]
  exact pyDedup_eq_self (pyDedup_nodup _)

theorem enumListClean_mem {v : Option PyVal} {allowed : List String} {l : List String}
    (h : enumListClean v allowed = some l) : ∀ x ∈ l, x ∈ allowed := by
  have h' : (if (clean_list_str v).filterMap
        (fun p => if pyLower p ∈ allowed then some (pyLower p) else Option.none) ≠ [] then
      some (pyDedup ((clean_list_str v).filterMap
        (fun p => if pyLower p ∈ allowed then some (pyLower p) else Option.none)))
      else Option.none) = some l := h
  by_cases hne : (clean_list_str v).filterMap
      (fun p => if pyLower p ∈ allowed then some (pyLower p) else Option.none) ≠ []
  · rw [if_pos hne] at h'
    have hl : l = pyDedup ((clean_list_str v).filterMap
        (fun p => if pyLower p ∈ allowed then some (pyLower p) else Option.none)) :=
      (Option.some.inj h').symm
    subst hl
    intro x hx
    obtain ⟨p, _, hp⟩ := List.mem_filterMap.mp (pyDedup_subset hx)
    by_cases hm : pyLower p ∈ allowed
    · rw [if_pos hm] at hp
      obtain rfl := (Option.some.inj hp).symm
      exact hm
    · rw [if_neg hm] at hp; cases hp
  · rw [if_neg hne] at h'; cases h'

theorem enumListClean_stable {v : Option PyVal} {allowed : List String} {l : List String}
    (hvoc : ∀ u ∈ allowed, pyStrip u = u ∧ pyLower u = u ∧ u ≠ "")
    (h : enumListClean v allowed = some l) :
    enumListClean (some (.list (l.map .str))) allowed = some l := by
  have hmem : ∀ x ∈ l, x ∈ allowed := enumListClean_mem h
  have h' : (if (clean_list_str v).filterMap
        (fun p => if pyLower p ∈ allowed then some (pyLower p) else Option.none) ≠ [] then
      some (pyDedup ((clean_list_str v).filterMap
        (fun p => if pyLower p ∈ allowed then some (pyLower p) else Option.none)))
      else Option.none) = some l := h
  by_cases hne : (clean_list_str v).filterMap
      (fun p => if pyLower p ∈ allowed then some (pyLower p) else Option.none) ≠ []
  · rw [if_pos hne] at h'
    have hl : l = pyDedup ((clean_list_str v).filterMap
        (fun p => if pyLower p ∈ allowed then some (pyLower p) else Option.none)) :=
      (Option.some.inj h').symm
    have hnodup : l.Nodup := by rw [hl]; exact pyDedup_nodup _
    have hlne : l ≠ [] := by rw [hl]; exact pyDedup_ne_nil hne
    have hstr : ∀ x ∈ l, pyStrip x = x ∧ x ≠ "" :=
      fun x hx => ⟨(hvoc x (hmem x hx)).1, (hvoc x (hmem x hx)).2.2⟩
    have hcls : clean_list_str (some (.list (l.map .str))) = l := clean_list_str_revisit hstr
    have hfm : l.filterMap
        (fun p => if pyLower p ∈ allowed then some (pyLower p) else Option.none) = l :=
      filterMap_eq_self (fun x hx => by
        rw [(hvoc x (hmem x hx)).2.1, if_pos (hmem x hx)])
    show (if (clean_list_str (some (.list (l.map .str)))).filterMap
          (fun p => if pyLower p ∈ allowed then some (pyLower p) else Option.none) ≠ [] then
        some (pyDedup ((clean_list_str (some (.list (l.map .str)))).filterMap
          (fun p => if pyLower p ∈ allowed then some (pyLower p) else Option.none)))
        else Option.none) = some l
    rw [hcls, hfm, if_pos hlne, pyDedup_eq_self hnodup]
  · rw [if_neg hne] at h'; cases h'

/-! ### Stability of the `anchor_system` cleaner -/

theorem anchorBuild_1 (o1 : Option String) (o2 : Option Int) (o3 : Option Bool)
    (o4 o5 : Option String) :
    lookupA (anchorBuild o1 o2 o3 o4 o5) "anchor_type" = o1.map .str := by
  unfold anchorBuild
  simp only [List.append_assoc]
  rw [lookupA_optEntry_append, lookupA_optEntry_append_ne (by decide),
    lookupA_optEntry_append_ne (by decide), lookupA_optEntry_append_ne (by decide),
    lookupA_optEntry_ne (by decide), Option.or_none]

theorem anchorBuild_2 (o1 : Option String) (o2 : Option Int) (o3 : Option Bool)
    (o4 o5 : Option String) :
    lookupA (anchorBuild o1 o2 o3 o4 o5) "num_points" = o2.map .int := by
  unfold anchorBuild
  simp only [List.append_assoc]
  rw [lookupA_optEntry_append_ne (by decide), lookupA_optEntry_append,
    lookupA_optEntry_append_ne (by decide), lookupA_optEntry_append_ne (by decide),
    lookupA_optEntry_ne (by decide), Option.or_none]

theorem anchorBuild_3 (o1 : Option String) (o2 : Option Int) (o3 : Option Bool)
    (o4 o5 : Option String) :
    lookupA (anchorBuild o1 o2 o3 o4 o5) "redundancy_present" = o3.map .bool := by
  unfold anchorBuild
  simp only [List.append_assoc]
  rw [lookupA_optEntry_append_ne (by decide), lookupA_optEntry_append_ne (by decide),
    lookupA_optEntry_append, lookupA_optEntry_append_ne (by decide),
    lookupA_optEntry_ne (by decide), Option.or_none]

theorem anchorBuild_4 (o1 : Option String) (o2 : Option Int) (o3 : Option Bool)
    (o4 o5 : Option String) :
    lookupA (anchorBuild o1 o2 o3 o4 o5) "anchor_condition" = o4.map .str := by
  unfold anchorBuild
  simp only [List.append_assoc]
  rw [lookupA_optEntry_append_ne (by decide), lookupA_optEntry_append_ne (by decide),
    lookupA_optEntry_append_ne (by decide), lookupA_optEntry_append,
    lookupA_optEntry_ne (by decide), Option.or_none]

theorem anchorBuild_5 (o1 : Option String) (o2 : Option Int) (o3 : Option Bool)
    (o4 o5 : Option String) :
    lookupA (anchorBuild o1 o2 o3 o4 o5) "failure_mode" = o5.map .str := by
  unfold anchorBuild
  simp only [List.append_assoc]
  rw [lookupA_optEntry_append_ne (by decide), lookupA_optEntry_append_ne (by decide),
    lookupA_optEntry_append_ne (by decide), lookupA_optEntry_append_ne (by decide),
    lookupA_optEntry_self]

theorem cleanAnchor_build {o1 : Option String} {o2 : Option Int} {o3 : Option Bool}
    {o4 o5 : Option String}
    (h1 : ∀ t, o1 = some t → t ∈ ["piton", "bolt", "gear_anchor", "snow_picket", "bollard",
      "v-thread", "tree", "rock_horn", "natural", "unknown"])
    (h4 : ∀ t, o4 = some t → t ∈ ["new", "good", "old", "weathered", "rusted", "unknown"])
    (h5 : ∀ t, o5 = some t → t ∈ ["pulled", "snapped", "sheared", "unknown"])
    (hemp : (anchorBuild o1 o2 o3 o4 o5).isEmpty = false) :
    cleanAnchor (some (.dict (anchorBuild o1 o2 o3 o4 o5)))
      = some (anchorBuild o1 o2 o3 o4 o5) := by
  have e1 : keep_enum (lookupA (anchorBuild o1 o2 o3 o4 o5) "anchor_type")
      ["piton", "bolt", "gear_anchor", "snow_picket", "bollard", "v-thread", "tree",
       "rock_horn", "natural", "unknown"] = o1 := by
    rw [anchorBuild_1]
    cases o1 with
    | none => rfl
    | some t => exact keep_enum_revisit (by decide) (h1 t rfl)
  have e2 : causes_int (lookupA (anchorBuild o1 o2 o3 o4 o5) "num_points") = o2 := by
    rw [anchorBuild_2]
    cases o2 with
    | none => rfl
    | some n => exact causes_int_revisit n
  have e3 : causes_bool (lookupA (anchorBuild o1 o2 o3 o4 o5) "redundancy_present") = o3 := by
    rw [anchorBuild_3]
    cases o3 <;> rfl
  have e4 : keep_enum (lookupA (anchorBuild o1 o2 o3 o4 o5) "anchor_condition")
      ["new", "good", "old", "weathered", "rusted", "unknown"] = o4 := by
    rw [anchorBuild_4]
    cases o4 with
    | none => rfl
    | some t => exact keep_enum_revisit (by decide) (h4 t rfl)
  have e5 : keep_enum (lookupA (anchorBuild o1 o2 o3 o4 o5) "failure_mode")
      ["pulled", "snapped", "sheared", "unknown"] = o5 := by
    rw [anchorBuild_5]
    cases o5 with
    | none => rfl
    | some t => exact keep_enum_revisit (by decide) (h5 t rfl)
  simp only [cleanAnchor]
  rw [e1, e2, e3, e4, e5, if_neg (fun hc => by rw [hemp] at hc; exact Bool.noConfusion hc)]

theorem cleanAnchor_stable {v : Option PyVal} {a : PyDict} (h : cleanAnchor v = some a) :
    cleanAnchor (some (.dict a)) = some a := by
  cases v with
  | none => exact Option.noConfusion h
  | some v' =>
    cases v'
    case dict dd =>
      have h' : (if (anchorBuild
            (keep_enum (lookupA dd "anchor_type")
              ["piton", "bolt", "gear_anchor", "snow_picket", "bollard", "v-thread", "tree",
               "rock_horn", "natural", "unknown"])
            (causes_int (lookupA dd "num_points"))
            (causes_bool (lookupA dd "redundancy_present"))
            (keep_enum (lookupA dd "anchor_condition")
              ["new", "good", "old", "weathered", "rusted", "unknown"])
            (keep_enum (lookupA dd "failure_mode")
              ["pulled", "snapped", "sheared", "unknown"])).isEmpty then Option.none
          else some (anchorBuild
            (keep_enum (lookupA dd "anchor_type")
              ["piton", "bolt", "gear_anchor", "snow_picket", "bollard", "v-thread", "tree",
               "rock_horn", "natural", "unknown"])
            (causes_int (lookupA dd "num_points"))
            (causes_bool (lookupA dd "redundancy_present"))
            (keep_enum (lookupA dd "anchor_condition")
              ["new", "good", "old", "weathered", "rusted", "unknown"])
            (keep_enum (lookupA dd "failure_mode")
              ["pulled", "snapped", "sheared", "unknown"]))) = some a := h
      cases hemp : (anchorBuild
          (keep_enum (lookupA dd "anchor_type")
            ["piton", "bolt", "gear_anchor", "snow_picket", "bollard", "v-thread", "tree",
             "rock_horn", "natural", "unknown"])
          (causes_int (lookupA dd "num_points"))
          (causes_bool (lookupA dd "redundancy_present"))
          (keep_enum (lookupA dd "anchor_condition")
            ["new", "good", "old", "weathered", "rusted", "unknown"])
          (keep_enum (lookupA dd "failure_mode")
            ["pulled", "snapped", "sheared", "unknown"])).isEmpty with
      | true => rw [if_pos hemp] at h'; cases h'
      | false =>
        rw [if_neg (fun hc => by rw [hemp] at hc; exact Bool.noConfusion hc)] at h'
        have ha := (Option.some.inj h').symm
        subst ha
        exact cleanAnchor_build (fun t ht => keep_enum_mem ht) (fun t ht => keep_enum_mem ht)
          (fun t ht => keep_enum_mem ht) hemp
    all_goals exact Option.noConfusion h

theorem ite_none_some_inv {α : Type} {C : Prop} [Decidable C] {X a : α}
    (h : (if C then Option.none else some X) = some a) : ¬C ∧ a = X := by
  by_cases hc : C
  · rw [if_pos hc] at h; cases h
  · rw [if_neg hc] at h; exact ⟨hc, (Option.some.inj h).symm⟩

/-! ### Stability of the `cleanRope` sub-object cleaner -/

theorem ropeBuild_1 (o1 : Option Int) (o2 o3 o4 : Option Bool) (o5 o6 o7 : Option String) (o8 : Option (List String)) :
    lookupA (ropeBuild o1 o2 o3 o4 o5 o6 o7 o8) "num_people_on_rope" = o1.map .int := by
  unfold ropeBuild
  simp only [List.append_assoc]
  rw [lookupA_optEntry_append,
    lookupA_optEntry_append_ne (by decide),
    lookupA_optEntry_append_ne (by decide),
    lookupA_optEntry_append_ne (by decide),
    lookupA_optEntry_append_ne (by decide),
    lookupA_optEntry_append_ne (by decide),
    lookupA_optEntry_append_ne (by decide),
    lookupA_optEntry_ne (by decide),
    Option.or_none]

theorem ropeBuild_2 (o1 : Option Int) (o2 o3 o4 : Option Bool) (o5 o6 o7 : Option String) (o8 : Option (List String)) :
    lookupA (ropeBuild o1 o2 o3 o4 o5 o6 o7 o8) "roped_for_descent" = o2.map .bool := by
  unfold ropeBuild
  simp only [List.append_assoc]
  rw [lookupA_optEntry_append_ne (by decide),
    lookupA_optEntry_append,
    lookupA_optEntry_append_ne (by decide),
    lookupA_optEntry_append_ne (by decide),
    lookupA_optEntry_append_ne (by decide),
    lookupA_optEntry_append_ne (by decide),
    lookupA_optEntry_append_ne (by decide),
    lookupA_optEntry_ne (by decide),
    Option.or_none]

theorem ropeBuild_3 (o1 : Option Int) (o2 o3 o4 : Option Bool) (o5 o6 o7 : Option String) (o8 : Option (List String)) :
    lookupA (ropeBuild o1 o2 o3 o4 o5 o6 o7 o8) "roped_for_ascent" = o3.map .bool := by
  unfold ropeBuild
  simp only [List.append_assoc]
  rw [lookupA_optEntry_append_ne (by decide),
    lookupA_optEntry_append_ne (by decide),
    lookupA_optEntry_append,
    lookupA_optEntry_append_ne (by decide),
    lookupA_optEntry_append_ne (by decide),
    lookupA_optEntry_append_ne (by decide),
    lookupA_optEntry_append_ne (by decide),
    lookupA_optEntry_ne (by decide),
    Option.or_none]

theorem ropeBuild_4 (o1 : Option Int) (o2 o3 o4 : Option Bool) (o5 o6 o7 : Option String) (o8 : Option (List String)) :
    lookupA (ropeBuild o1 o2 o3 o4 o5 o6 o7 o8) "protection_in_place" = o4.map .bool := by
  unfold ropeBuild
  simp only [List.append_assoc]
  rw [lookupA_optEntry_append_ne (by decide),
    lookupA_optEntry_append_ne (by decide),
    lookupA_optEntry_append_ne (by decide),
    lookupA_optEntry_append,
    lookupA_optEntry_append_ne (by decide),
    lookupA_optEntry_append_ne (by decide),
    lookupA_optEntry_append_ne (by decide),
    lookupA_optEntry_ne (by decide),
    Option.or_none]

theorem ropeBuild_5 (o1 : Option Int) (o2 o3 o4 : Option Bool) (o5 o6 o7 : Option String) (o8 : Option (List String)) :
    lookupA (ropeBuild o1 o2 o3 o4 o5 o6 o7 o8) "rope_type" = o5.map .str := by
  unfold ropeBuild
  simp only [List.append_assoc]
  rw [lookupA_optEntry_append_ne (by decide),
    lookupA_optEntry_append_ne (by decide),
    lookupA_optEntry_append_ne (by decide),
    lookupA_optEntry_append_ne (by decide),
    lookupA_optEntry_append,
    lookupA_optEntry_append_ne (by decide),
    lookupA_optEntry_append_ne (by decide),
    lookupA_optEntry_ne (by decide),
    Option.or_none]

theorem ropeBuild_6 (o1 : Option Int) (o2 o3 o4 : Option Bool) (o5 o6 o7 : Option String) (o8 : Option (List String)) :
    lookupA (ropeBuild o1 o2 o3 o4 o5 o6 o7 o8) "belay_method" = o6.map .str := by
  unfold ropeBuild
  simp only [List.append_assoc]
  rw [lookupA_optEntry_append_ne (by decide),
    lookupA_optEntry_append_ne (by decide),
    lookupA_optEntry_append_ne (by decide),
    lookupA_optEntry_append_ne (by decide),
    lookupA_optEntry_append_ne (by decide),
    lookupA_optEntry_append,
    lookupA_optEntry_append_ne (by decide),
    lookupA_optEntry_ne (by decide),
    Option.or_none]

theorem ropeBuild_7 (o1 : Option Int) (o2 o3 o4 : Option Bool) (o5 o6 o7 : Option String) (o8 : Option (List String)) :
    lookupA (ropeBuild o1 o2 o3 o4 o5 o6 o7 o8) "failure_description" = o7.map .str := by
  unfold ropeBuild
  simp only [List.append_assoc]
  rw [lookupA_optEntry_append_ne (by decide),
    lookupA_optEntry_append_ne (by decide),
    lookupA_optEntry_append_ne (by decide),
    lookupA_optEntry_append_ne (by decide),
    lookupA_optEntry_append_ne (by decide),
    lookupA_optEntry_append_ne (by decide),
    lookupA_optEntry_append,
    lookupA_optEntry_ne (by decide),
    Option.or_none]

theorem ropeBuild_8 (o1 : Option Int) (o2 o3 o4 : Option Bool) (o5 o6 o7 : Option String) (o8 : Option (List String)) :
    lookupA (ropeBuild o1 o2 o3 o4 o5 o6 o7 o8) "knots_used" = o8.map (fun l => PyVal.list (l.map .str)) := by
  unfold ropeBuild
  simp only [List.append_assoc]
  rw [lookupA_optEntry_append_ne (by decide),
    lookupA_optEntry_append_ne (by decide),
    lookupA_optEntry_append_ne (by decide),
    lookupA_optEntry_append_ne (by decide),
    lookupA_optEntry_append_ne (by decide),
    lookupA_optEntry_append_ne (by decide),
    lookupA_optEntry_append_ne (by decide),
    lookupA_optEntry_self]

theorem cleanRope_build {o1 : Option Int} {o2 o3 o4 : Option Bool} {o5 o6 o7 : Option String} {o8 : Option (List String)}
    (h5 : ∀ t, o5 = some t → t ∈ ["single", "half", "twin", "static", "unknown"])
    (h6 : ∀ t, o6 = some t → t ∈ ["rappel", "lower", "simul", "pitch", "running_belay", "short_rope", "unroped"])
    (h7 : ∀ t, o7 = some t → pyStrip t = t ∧ t ≠ "")
    (h8 : ∀ L, o8 = some L → (∀ x ∈ L, pyStrip x = x ∧ x ≠ "") ∧ L ≠ [])
    (hemp : (ropeBuild o1 o2 o3 o4 o5 o6 o7 o8).isEmpty ≠ true) :
    cleanRope (some (.dict (ropeBuild o1 o2 o3 o4 o5 o6 o7 o8)))
      = some (ropeBuild o1 o2 o3 o4 o5 o6 o7 o8) := by
  have e1 : causes_int (lookupA (ropeBuild o1 o2 o3 o4 o5 o6 o7 o8) "num_people_on_rope") = o1 := by
    rw [ropeBuild_1]
    cases o1 with
    | none => rfl
    | some n => exact causes_int_revisit n
  have e2 : causes_bool (lookupA (ropeBuild o1 o2 o3 o4 o5 o6 o7 o8) "roped_for_descent") = o2 := by
    rw [ropeBuild_2]
    cases o2 <;> rfl
  have e3 : causes_bool (lookupA (ropeBuild o1 o2 o3 o4 o5 o6 o7 o8) "roped_for_ascent") = o3 := by
    rw [ropeBuild_3]
    cases o3 <;> rfl
  have e4 : causes_bool (lookupA (ropeBuild o1 o2 o3 o4 o5 o6 o7 o8) "protection_in_place") = o4 := by
    rw [ropeBuild_4]
    cases o4 <;> rfl
  have e5 : keep_enum (lookupA (ropeBuild o1 o2 o3 o4 o5 o6 o7 o8) "rope_type")
      ["single", "half", "twin", "static", "unknown"] = o5 := by
    rw [ropeBuild_5]
    cases o5 with
    | none => rfl
    | some t => exact keep_enum_revisit (by decide) (h5 t rfl)
  have e6 : keep_enum (lookupA (ropeBuild o1 o2 o3 o4 o5 o6 o7 o8) "belay_method")
      ["rappel", "lower", "simul", "pitch", "running_belay", "short_rope", "unroped"] = o6 := by
    rw [ropeBuild_6]
    cases o6 with
    | none => rfl
    | some t => exact keep_enum_revisit (by decide) (h6 t rfl)
  have e7 : causes_str (lookupA (ropeBuild o1 o2 o3 o4 o5 o6 o7 o8) "failure_description") = o7 := by
    rw [ropeBuild_7]
    cases o7 with
    | none => rfl
    | some t => exact causes_str_revisit (h7 t rfl).1 (h7 t rfl).2
  have e8 : (if clean_list_str (lookupA (ropeBuild o1 o2 o3 o4 o5 o6 o7 o8) "knots_used") ≠ [] then
      some (clean_list_str (lookupA (ropeBuild o1 o2 o3 o4 o5 o6 o7 o8) "knots_used")) else Option.none) = o8 := by
    rw [ropeBuild_8]
    cases o8 with
    | none => rfl
    | some L =>
      show (if clean_list_str (some (.list (L.map .str))) ≠ [] then
          some (clean_list_str (some (.list (L.map .str)))) else Option.none) = some L
      rw [clean_list_str_revisit (h8 L rfl).1, if_pos (h8 L rfl).2]
  simp only [cleanRope]
  rw [e1, e2, e3, e4, e5, e6, e7, e8, if_neg hemp]

theorem cleanRope_stable {v : Option PyVal} {a : PyDict} (h : cleanRope v = some a) :
    cleanRope (some (.dict a)) = some a := by
  cases v with
  | none => exact Option.noConfusion h
  | some v' =>
    cases v'
    case dict dd =>
      simp only [cleanRope] at h
      obtain ⟨hC, ha⟩ := ite_none_some_inv h
      subst ha
      exact cleanRope_build
          (fun t ht => keep_enum_mem ht)
          (fun t ht => keep_enum_mem ht)
          (fun t ht => causes_str_mem ht)
          (fun L hL => by
            by_cases hk : clean_list_str (lookupA dd "knots_used") ≠ []
            · rw [if_pos hk] at hL
              obtain rfl := (Option.some.inj hL).symm
              exact ⟨fun x hx => clean_list_str_mem hx, hk⟩
            · rw [if_neg hk] at hL; cases hL)
          hC
    all_goals exact Option.noConfusion h

/-! ### Stability of the `cleanDecision` sub-object cleaner -/

theorem decisionBuild_1 (o1 : Option String) (o2 : Option Bool) (o3 o4 : Option String) (o5 o6 : Option Bool) :
    lookupA (decisionBuild o1 o2 o3 o4 o5 o6) "objective_hazard_awareness" = o1.map .str := by
  unfold decisionBuild
  simp only [List.append_assoc]
  rw [lookupA_optEntry_append,
    lookupA_optEntry_append_ne (by decide),
    lookupA_optEntry_append_ne (by decide),
    lookupA_optEntry_append_ne (by decide),
    lookupA_optEntry_append_ne (by decide),
    lookupA_optEntry_ne (by decide),
    Option.or_none]

theorem decisionBuild_2 (o1 : Option String) (o2 : Option Bool) (o3 o4 : Option String) (o5 o6 : Option Bool) :
    lookupA (decisionBuild o1 o2 o3 o4 o5 o6) "time_pressure" = o2.map .bool := by
  unfold decisionBuild
  simp only [List.append_assoc]
  rw [lookupA_optEntry_append_ne (by decide),
    lookupA_optEntry_append,
    lookupA_optEntry_append_ne (by decide),
    lookupA_optEntry_append_ne (by decide),
    lookupA_optEntry_append_ne (by decide),
    lookupA_optEntry_ne (by decide),
    Option.or_none]

theorem decisionBuild_3 (o1 : Option String) (o2 : Option Bool) (o3 o4 : Option String) (o5 o6 : Option Bool) :
    lookupA (decisionBuild o1 o2 o3 o4 o5 o6) "group_dynamics" = o3.map .str := by
  unfold decisionBuild
  simp only [List.append_assoc]
  rw [lookupA_optEntry_append_ne (by decide),
    lookupA_optEntry_append_ne (by decide),
    lookupA_optEntry_append,
    lookupA_optEntry_append_ne (by decide),
    lookupA_optEntry_append_ne (by decide),
    lookupA_optEntry_ne (by decide),
    Option.or_none]

theorem decisionBuild_4 (o1 : Option String) (o2 : Option Bool) (o3 o4 : Option String) (o5 o6 : Option Bool) :
    lookupA (decisionBuild o1 o2 o3 o4 o5 o6) "experience_level_est" = o4.map .str := by
  unfold decisionBuild
  simp only [List.append_assoc]
  rw [lookupA_optEntry_append_ne (by decide),
    lookupA_optEntry_append_ne (by decide),
    lookupA_optEntry_append_ne (by decide),
    lookupA_optEntry_append,
    lookupA_optEntry_append_ne (by decide),
    lookupA_optEntry_ne (by decide),
    Option.or_none]

theorem decisionBuild_5 (o1 : Option String) (o2 : Option Bool) (o3 o4 : Option String) (o5 o6 : Option Bool) :
    lookupA (decisionBuild o1 o2 o3 o4 o5 o6) "weather_forecast_considered" = o5.map .bool := by
  unfold decisionBuild
  simp only [List.append_assoc]
  rw [lookupA_optEntry_append_ne (by decide),
    lookupA_optEntry_append_ne (by decide),
    lookupA_optEntry_append_ne (by decide),
    lookupA_optEntry_append_ne (by decide),
    lookupA_optEntry_append,
    lookupA_optEntry_ne (by decide),
    Option.or_none]

theorem decisionBuild_6 (o1 : Option String) (o2 : Option Bool) (o3 o4 : Option String) (o5 o6 : Option Bool) :
    lookupA (decisionBuild o1 o2 o3 o4 o5 o6) "alternate_plan_available" = o6.map .bool := by
  unfold decisionBuild
  simp only [List.append_assoc]
  rw [lookupA_optEntry_append_ne (by decide),
    lookupA_optEntry_append_ne (by decide),
    lookupA_optEntry_append_ne (by decide),
    lookupA_optEntry_append_ne (by decide),
    lookupA_optEntry_append_ne (by decide),
    lookupA_optEntry_self]

theorem cleanDecision_build {o1 : Option String} {o2 : Option Bool} {o3 o4 : Option String} {o5 o6 : Option Bool}
    (h1 : ∀ t, o1 = some t → t ∈ ["low", "medium", "high", "unknown"])
    (h3 : ∀ t, o3 = some t → t ∈ ["leader_follower", "peer_pressure", "independent", "unknown"])
    (h4 : ∀ t, o4 = some t → t ∈ ["beginner", "intermediate", "advanced", "expert", "mixed", "unknown"])
    (hemp : (decisionBuild o1 o2 o3 o4 o5 o6).isEmpty ≠ true) :
    cleanDecision (some (.dict (decisionBuild o1 o2 o3 o4 o5 o6)))
      = some (decisionBuild o1 o2 o3 o4 o5 o6) := by
  have e1 : keep_enum (lookupA (decisionBuild o1 o2 o3 o4 o5 o6) "objective_hazard_awareness")
      ["low", "medium", "high", "unknown"] = o1 := by
    rw [decisionBuild_1]
    cases o1 with
    | none => rfl
    | some t => exact keep_enum_revisit (by decide) (h1 t rfl)
  have e2 : causes_bool (lookupA (decisionBuild o1 o2 o3 o4 o5 o6) "time_pressure") = o2 := by
    rw [decisionBuild_2]
    cases o2 <;> rfl
  have e3 : keep_enum (lookupA (decisionBuild o1 o2 o3 o4 o5 o6) "group_dynamics")
      ["leader_follower", "peer_pressure", "independent", "unknown"] = o3 := by
    rw [decisionBuild_3]
    cases o3 with
    | none => rfl
    | some t => exact keep_enum_revisit (by decide) (h3 t rfl)
  have e4 : keep_enum (lookupA (decisionBuild o1 o2 o3 o4 o5 o6) "experience_level_est")
      ["beginner", "intermediate", "advanced", "expert", "mixed", "unknown"] = o4 := by
    rw [decisionBuild_4]
    cases o4 with
    | none => rfl
    | some t => exact keep_enum_revisit (by decide) (h4 t rfl)
  have e5 : causes_bool (lookupA (decisionBuild o1 o2 o3 o4 o5 o6) "weather_forecast_considered") = o5 := by
    rw [decisionBuild_5]
    cases o5 <;> rfl
  have e6 : causes_bool (lookupA (decisionBuild o1 o2 o3 o4 o5 o6) "alternate_plan_available") = o6 := by
    rw [decisionBuild_6]
    cases o6 <;> rfl
  simp only [cleanDecision]
  rw [e1, e2, e3, e4, e5, e6, if_neg hemp]

theorem cleanDecision_stable {v : Option PyVal} {a : PyDict} (h : cleanDecision v = some a) :
    cleanDecision (some (.dict a)) = some a := by
  cases v with
  | none => exact Option.noConfusion h
  | some v' =>
    cases v'
    case dict dd =>
      simp only [cleanDecision] at h
      obtain ⟨hC, ha⟩ := ite_none_some_inv h
      subst ha
      exact cleanDecision_build
          (fun t ht => keep_enum_mem ht)
          (fun t ht => keep_enum_mem ht)
          (fun t ht => keep_enum_mem ht)
          hC
    all_goals exact Option.noConfusion h

/-! ### Stability of the `cleanEquipment` sub-object cleaner -/

theorem equipmentBuild_1 (o1 o2 o3 o4 : Option (List String)) :
    lookupA (equipmentBuild o1 o2 o3 o4) "critical_gear_present" = o1.map (fun l => PyVal.list (l.map .str)) := by
  unfold equipmentBuild
  simp only [List.append_assoc]
  rw [lookupA_optEntry_append,
    lookupA_optEntry_append_ne (by decide),
    lookupA_optEntry_append_ne (by decide),
    lookupA_optEntry_ne (by decide),
    Option.or_none]

theorem equipmentBuild_2 (o1 o2 o3 o4 : Option (List String)) :
    lookupA (equipmentBuild o1 o2 o3 o4) "gear_condition_issues" = o2.map (fun l => PyVal.list (l.map .str)) := by
  unfold equipmentBuild
  simp only [List.append_assoc]
  rw [lookupA_optEntry_append_ne (by decide),
    lookupA_optEntry_append,
    lookupA_optEntry_append_ne (by decide),
    lookupA_optEntry_ne (by decide),
    Option.or_none]

theorem equipmentBuild_3 (o1 o2 o3 o4 : Option (List String)) :
    lookupA (equipmentBuild o1 o2 o3 o4) "missing_expected_gear" = o3.map (fun l => PyVal.list (l.map .str)) := by
  unfold equipmentBuild
  simp only [List.append_assoc]
  rw [lookupA_optEntry_append_ne (by decide),
    lookupA_optEntry_append_ne (by decide),
    lookupA_optEntry_append,
    lookupA_optEntry_ne (by decide),
    Option.or_none]

theorem equipmentBuild_4 (o1 o2 o3 o4 : Option (List String)) :
    lookupA (equipmentBuild o1 o2 o3 o4) "equipment_failure_noted" = o4.map (fun l => PyVal.list (l.map .str)) := by
  unfold equipmentBuild
  simp only [List.append_assoc]
  rw [lookupA_optEntry_append_ne (by decide),
    lookupA_optEntry_append_ne (by decide),
    lookupA_optEntry_append_ne (by decide),
    lookupA_optEntry_self]

theorem cleanEquipment_build {o1 o2 o3 o4 : Option (List String)}
    (h1 : ∀ L, o1 = some L → (∀ x ∈ L, pyStrip x = x ∧ x ≠ "") ∧ L ≠ [])
    (h2 : ∀ L, o2 = some L → (∀ x ∈ L, pyStrip x = x ∧ x ≠ "") ∧ L ≠ [])
    (h3 : ∀ L, o3 = some L → (∀ x ∈ L, pyStrip x = x ∧ x ≠ "") ∧ L ≠ [])
    (h4 : ∀ L, o4 = some L → (∀ x ∈ L, pyStrip x = x ∧ x ≠ "") ∧ L ≠ [])
    (hemp : (equipmentBuild o1 o2 o3 o4).isEmpty ≠ true) :
    cleanEquipment (some (.dict (equipmentBuild o1 o2 o3 o4)))
      = some (equipmentBuild o1 o2 o3 o4) := by
  have e1 : (if clean_list_str (lookupA (equipmentBuild o1 o2 o3 o4) "critical_gear_present") ≠ [] then
      some (clean_list_str (lookupA (equipmentBuild o1 o2 o3 o4) "critical_gear_present")) else Option.none) = o1 := by
    rw [equipmentBuild_1]
    cases o1 with
    | none => rfl
    | some L =>
      show (if clean_list_str (some (.list (L.map .str))) ≠ [] then
          some (clean_list_str (some (.list (L.map .str)))) else Option.none) = some L
      rw [clean_list_str_revisit (h1 L rfl).1, if_pos (h1 L rfl).2]
  have e2 : (if clean_list_str (lookupA (equipmentBuild o1 o2 o3 o4) "gear_condition_issues") ≠ [] then
      some (clean_list_str (lookupA (equipmentBuild o1 o2 o3 o4) "gear_condition_issues")) else Option.none) = o2 := by
    rw [equipmentBuild_2]
    cases o2 with
    | none => rfl
    | some L =>
      show (if clean_list_str (some (.list (L.map .str))) ≠ [] then
          some (clean_list_str (some (.list (L.map .str)))) else Option.none) = some L
      rw [clean_list_str_revisit (h2 L rfl).1, if_pos (h2 L rfl).2]
  have e3 : (if clean_list_str (lookupA (equipmentBuild o1 o2 o3 o4) "missing_expected_gear") ≠ [] then
      some (clean_list_str (lookupA (equipmentBuild o1 o2 o3 o4) "missing_expected_gear")) else Option.none) = o3 := by
    rw [equipmentBuild_3]
    cases o3 with
    | none => rfl
    | some L =>
      show (if clean_list_str (some (.list (L.map .str))) ≠ [] then
          some (clean_list_str (some (.list (L.map .str)))) else Option.none) = some L
      rw [clean_list_str_revisit (h3 L rfl).1, if_pos (h3 L rfl).2]
  have e4 : (if clean_list_str (lookupA (equipmentBuild o1 o2 o3 o4) "equipment_failure_noted") ≠ [] then
      some (clean_list_str (lookupA (equipmentBuild o1 o2 o3 o4) "equipment_failure_noted")) else Option.none) = o4 := by
    rw [equipmentBuild_4]
    cases o4 with
    | none => rfl
    | some L =>
      show (if clean_list_str (some (.list (L.map .str))) ≠ [] then
          some (clean_list_str (some (.list (L.map .str)))) else Option.none) = some L
      rw [clean_list_str_revisit (h4 L rfl).1, if_pos (h4 L rfl).2]
  simp only [cleanEquipment]
  rw [e1, e2, e3, e4, if_neg hemp]

theorem cleanEquipment_stable {v : Option PyVal} {a : PyDict} (h : cleanEquipment v = some a) :
    cleanEquipment (some (.dict a)) = some a := by
  cases v with
  | none => exact Option.noConfusion h
  | some v' =>
    cases v'
    case dict dd =>
      simp only [cleanEquipment] at h
      obtain ⟨hC, ha⟩ := ite_none_some_inv h
      subst ha
      exact cleanEquipment_build
          (fun L hL => by
            by_cases hk : clean_list_str (lookupA dd "critical_gear_present") ≠ []
            · rw [if_pos hk] at hL
              obtain rfl := (Option.some.inj hL).symm
              exact ⟨fun x hx => clean_list_str_mem hx, hk⟩
            · rw [if_neg hk] at hL; cases hL)
          (fun L hL => by
            by_cases hk : clean_list_str (lookupA dd "gear_condition_issues") ≠ []
            · rw [if_pos hk] at hL
              obtain rfl := (Option.some.inj hL).symm
              exact ⟨fun x hx => clean_list_str_mem hx, hk⟩
            · rw [if_neg hk] at hL; cases hL)
          (fun L hL => by
            by_cases hk : clean_list_str (lookupA dd "missing_expected_gear") ≠ []
            · rw [if_pos hk] at hL
              obtain rfl := (Option.some.inj hL).symm
              exact ⟨fun x hx => clean_list_str_mem hx, hk⟩
            · rw [if_neg hk] at hL; cases hL)
          (fun L hL => by
            by_cases hk : clean_list_str (lookupA dd "equipment_failure_noted") ≠ []
            · rw [if_pos hk] at hL
              obtain rfl := (Option.some.inj hL).symm
              exact ⟨fun x hx => clean_list_str_mem hx, hk⟩
            · rw [if_neg hk] at hL; cases hL)
          hC
    all_goals exact Option.noConfusion h

/-! ### Stability of the `cleanEnv` sub-object cleaner -/

theorem envBuild_1 (o1 o2 o3 o4 : Option String) (o5 : Option (List String)) (o6 : Option String) :
    lookupA (envBuild o1 o2 o3 o4 o5 o6) "weather_change_timing" = o1.map .str := by
  unfold envBuild
  simp only [List.append_assoc]
  rw [lookupA_optEntry_append,
    lookupA_optEntry_append_ne (by decide),
    lookupA_optEntry_append_ne (by decide),
    lookupA_optEntry_append_ne (by decide),
    lookupA_optEntry_append_ne (by decide),
    lookupA_optEntry_ne (by decide),
    Option.or_none]

theorem envBuild_2 (o1 o2 o3 o4 : Option String) (o5 : Option (List String)) (o6 : Option String) :
    lookupA (envBuild o1 o2 o3 o4 o5 o6) "precipitation_intensity" = o2.map .str := by
  unfold envBuild
  simp only [List.append_assoc]
  rw [lookupA_optEntry_append_ne (by decide),
    lookupA_optEntry_append,
    lookupA_optEntry_append_ne (by decide),
    lookupA_optEntry_append_ne (by decide),
    lookupA_optEntry_append_ne (by decide),
    lookupA_optEntry_ne (by decide),
    Option.or_none]

theorem envBuild_3 (o1 o2 o3 o4 : Option String) (o5 : Option (List String)) (o6 : Option String) :
    lookupA (envBuild o1 o2 o3 o4 o5 o6) "temperature_trend" = o3.map .str := by
  unfold envBuild
  simp only [List.append_assoc]
  rw [lookupA_optEntry_append_ne (by decide),
    lookupA_optEntry_append_ne (by decide),
    lookupA_optEntry_append,
    lookupA_optEntry_append_ne (by decide),
    lookupA_optEntry_append_ne (by decide),
    lookupA_optEntry_ne (by decide),
    Option.or_none]

theorem envBuild_4 (o1 o2 o3 o4 : Option String) (o5 : Option (List String)) (o6 : Option String) :
    lookupA (envBuild o1 o2 o3 o4 o5 o6) "wind_speed_est" = o4.map .str := by
  unfold envBuild
  simp only [List.append_assoc]
  rw [lookupA_optEntry_append_ne (by decide),
    lookupA_optEntry_append_ne (by decide),
    lookupA_optEntry_append_ne (by decide),
    lookupA_optEntry_append,
    lookupA_optEntry_append_ne (by decide),
    lookupA_optEntry_ne (by decide),
    Option.or_none]

theorem envBuild_5 (o1 o2 o3 o4 : Option String) (o5 : Option (List String)) (o6 : Option String) :
    lookupA (envBuild o1 o2 o3 o4 o5 o6) "snowpack_instability_signs" = o5.map (fun l => PyVal.list (l.map .str)) := by
  unfold envBuild
  simp only [List.append_assoc]
  rw [lookupA_optEntry_append_ne (by decide),
    lookupA_optEntry_append_ne (by decide),
    lookupA_optEntry_append_ne (by decide),
    lookupA_optEntry_append_ne (by decide),
    lookupA_optEntry_append,
    lookupA_optEntry_ne (by decide),
    Option.or_none]

theorem envBuild_6 (o1 o2 o3 o4 : Option String) (o5 : Option (List String)) (o6 : Option String) :
    lookupA (envBuild o1 o2 o3 o4 o5 o6) "visibility_class" = o6.map .str := by
  unfold envBuild
  simp only [List.append_assoc]
  rw [lookupA_optEntry_append_ne (by decide),
    lookupA_optEntry_append_ne (by decide),
    lookupA_optEntry_append_ne (by decide),
    lookupA_optEntry_append_ne (by decide),
    lookupA_optEntry_append_ne (by decide),
    lookupA_optEntry_self]

theorem cleanEnv_build {o1 o2 o3 o4 : Option String} {o5 : Option (List String)} {o6 : Option String}
    (h1 : ∀ t, o1 = some t → t ∈ ["before", "during", "after", "none", "unknown"])
    (h2 : ∀ t, o2 = some t → t ∈ ["none", "light", "moderate", "heavy"])
    (h3 : ∀ t, o3 = some t → t ∈ ["warming", "cooling", "stable", "unknown"])
    (h4 : ∀ t, o4 = some t → t ∈ ["calm", "moderate", "strong", "storm"])
    (h5 : ∀ L, o5 = some L → (∀ x ∈ L, pyStrip x = x ∧ x ≠ "") ∧ L ≠ [] ∧ lowerDedup L = L)
    (h6 : ∀ t, o6 = some t → t ∈ ["good", "moderate", "poor", "whiteout"])
    (hemp : (envBuild o1 o2 o3 o4 o5 o6).isEmpty ≠ true) :
    cleanEnv (some (.dict (envBuild o1 o2 o3 o4 o5 o6)))
      = some (envBuild o1 o2 o3 o4 o5 o6) := by
  have e1 : keep_enum (lookupA (envBuild o1 o2 o3 o4 o5 o6) "weather_change_timing")
      ["before", "during", "after", "none", "unknown"] = o1 := by
    rw [envBuild_1]
    cases o1 with
    | none => rfl
    | some t => exact keep_enum_revisit (by decide) (h1 t rfl)
  have e2 : keep_enum (lookupA (envBuild o1 o2 o3 o4 o5 o6) "precipitation_intensity")
      ["none", "light", "moderate", "heavy"] = o2 := by
    rw [envBuild_2]
    cases o2 with
    | none => rfl
    | some t => exact keep_enum_revisit (by decide) (h2 t rfl)
  have e3 : keep_enum (lookupA (envBuild o1 o2 o3 o4 o5 o6) "temperature_trend")
      ["warming", "cooling", "stable", "unknown"] = o3 := by
    rw [envBuild_3]
    cases o3 with
    | none => rfl
    | some t => exact keep_enum_revisit (by decide) (h3 t rfl)
  have e4 : keep_enum (lookupA (envBuild o1 o2 o3 o4 o5 o6) "wind_speed_est")
      ["calm", "moderate", "strong", "storm"] = o4 := by
    rw [envBuild_4]
    cases o4 with
    | none => rfl
    | some t => exact keep_enum_revisit (by decide) (h4 t rfl)
  have e5 : (if clean_list_str (lookupA (envBuild o1 o2 o3 o4 o5 o6) "snowpack_instability_signs") ≠ [] then
      some (lowerDedup (clean_list_str (lookupA (envBuild o1 o2 o3 o4 o5 o6) "snowpack_instability_signs"))) else Option.none) = o5 := by
    rw [envBuild_5]
    cases o5 with
    | none => rfl
    | some L =>
      show (if clean_list_str (some (.list (L.map .str))) ≠ [] then
          some (lowerDedup (clean_list_str (some (.list (L.map .str))))) else Option.none)
        = some L
      rw [clean_list_str_revisit (h5 L rfl).1, if_pos (h5 L rfl).2.1,
        (h5 L rfl).2.2]
  have e6 : keep_enum (lookupA (envBuild o1 o2 o3 o4 o5 o6) "visibility_class")
      ["good", "moderate", "poor", "whiteout"] = o6 := by
    rw [envBuild_6]
    cases o6 with
    | none => rfl
    | some t => exact keep_enum_revisit (by decide) (h6 t rfl)
  simp only [cleanEnv]
  rw [e1, e2, e3, e4, e5, e6, if_neg hemp]

theorem cleanEnv_stable {v : Option PyVal} {a : PyDict} (h : cleanEnv v = some a) :
    cleanEnv (some (.dict a)) = some a := by
  cases v with
  | none => exact Option.noConfusion h
  | some v' =>
    cases v'
    case dict dd =>
      simp only [cleanEnv] at h
      obtain ⟨hC, ha⟩ := ite_none_some_inv h
      subst ha
      exact cleanEnv_build
          (fun t ht => keep_enum_mem ht)
          (fun t ht => keep_enum_mem ht)
          (fun t ht => keep_enum_mem ht)
          (fun t ht => keep_enum_mem ht)
          (fun L hL => by
            by_cases hk : clean_list_str (lookupA dd "snowpack_instability_signs") ≠ []
            · rw [if_pos hk] at hL
              obtain rfl := (Option.some.inj hL).symm
              exact ⟨fun x hx => ⟨(lowerDedup_mem hx (fun p hp => clean_list_str_mem hp)).1,
                  (lowerDedup_mem hx (fun p hp => clean_list_str_mem hp)).2.1⟩,
                lowerDedup_ne_nil hk,
                lowerDedup_idem_on (fun x hx =>
                  (lowerDedup_mem hx (fun p hp => clean_list_str_mem hp)).2.2)⟩
            · rw [if_neg hk] at hL; cases hL)
          (fun t ht => keep_enum_mem ht)
          hC
    all_goals exact Option.noConfusion h

/-! ### Stability of the `cleanHuman` sub-object cleaner -/

theorem humanBuild_1 (o1 : Option Int) (o2 : Option String) (o3 : Option (List String)) (o4 : Option Bool) (o5 : Option (List String)) (o6 o7 : Option String) :
    lookupA (humanBuild o1 o2 o3 o4 o5 o6 o7) "group_size" = o1.map .int := by
  unfold humanBuild
  simp only [List.append_assoc]
  rw [lookupA_optEntry_append,
    lookupA_optEntry_append_ne (by decide),
    lookupA_optEntry_append_ne (by decide),
    lookupA_optEntry_append_ne (by decide),
    lookupA_optEntry_append_ne (by decide),
    lookupA_optEntry_append_ne (by decide),
    lookupA_optEntry_ne (by decide),
    Option.or_none]

theorem humanBuild_2 (o1 : Option Int) (o2 : Option String) (o3 : Option (List String)) (o4 : Option Bool) (o5 : Option (List String)) (o6 o7 : Option String) :
    lookupA (humanBuild o1 o2 o3 o4 o5 o6 o7) "group_experience_mix" = o2.map .str := by
  unfold humanBuild
  simp only [List.append_assoc]
  rw [lookupA_optEntry_append_ne (by decide),
    lookupA_optEntry_append,
    lookupA_optEntry_append_ne (by decide),
    lookupA_optEntry_append_ne (by decide),
    lookupA_optEntry_append_ne (by decide),
    lookupA_optEntry_append_ne (by decide),
    lookupA_optEntry_ne (by decide),
    Option.or_none]

theorem humanBuild_3 (o1 : Option Int) (o2 : Option String) (o3 : Option (List String)) (o4 : Option Bool) (o5 : Option (List String)) (o6 o7 : Option String) :
    lookupA (humanBuild o1 o2 o3 o4 o5 o6 o7) "communication_method" = o3.map (fun l => PyVal.list (l.map .str)) := by
  unfold humanBuild
  simp only [List.append_assoc]
  rw [lookupA_optEntry_append_ne (by decide),
    lookupA_optEntry_append_ne (by decide),
    lookupA_optEntry_append,
    lookupA_optEntry_append_ne (by decide),
    lookupA_optEntry_append_ne (by decide),
    lookupA_optEntry_append_ne (by decide),
    lookupA_optEntry_ne (by decide),
    Option.or_none]

theorem humanBuild_4 (o1 : Option Int) (o2 : Option String) (o3 : Option (List String)) (o4 : Option Bool) (o5 : Option (List String)) (o6 o7 : Option String) :
    lookupA (humanBuild o1 o2 o3 o4 o5 o6 o7) "language_barrier_present" = o4.map .bool := by
  unfold humanBuild
  simp only [List.append_assoc]
  rw [lookupA_optEntry_append_ne (by decide),
    lookupA_optEntry_append_ne (by decide),
    lookupA_optEntry_append_ne (by decide),
    lookupA_optEntry_append,
    lookupA_optEntry_append_ne (by decide),
    lookupA_optEntry_append_ne (by decide),
    lookupA_optEntry_ne (by decide),
    Option.or_none]

theorem humanBuild_5 (o1 : Option Int) (o2 : Option String) (o3 : Option (List String)) (o4 : Option Bool) (o5 : Option (List String)) (o6 o7 : Option String) :
    lookupA (humanBuild o1 o2 o3 o4 o5 o6 o7) "heuristic_traps_observed" = o5.map (fun l => PyVal.list (l.map .str)) := by
  unfold humanBuild
  simp only [List.append_assoc]
  rw [lookupA_optEntry_append_ne (by decide),
    lookupA_optEntry_append_ne (by decide),
    lookupA_optEntry_append_ne (by decide),
    lookupA_optEntry_append_ne (by decide),
    lookupA_optEntry_append,
    lookupA_optEntry_append_ne (by decide),
    lookupA_optEntry_ne (by decide),
    Option.or_none]

theorem humanBuild_6 (o1 : Option Int) (o2 : Option String) (o3 : Option (List String)) (o4 : Option Bool) (o5 : Option (List String)) (o6 o7 : Option String) :
    lookupA (humanBuild o1 o2 o3 o4 o5 o6 o7) "fatigue_level" = o6.map .str := by
  unfold humanBuild
  simp only [List.append_assoc]
  rw [lookupA_optEntry_append_ne (by decide),
    lookupA_optEntry_append_ne (by decide),
    lookupA_optEntry_append_ne (by decide),
    lookupA_optEntry_append_ne (by decide),
    lookupA_optEntry_append_ne (by decide),
    lookupA_optEntry_append,
    lookupA_optEntry_ne (by decide),
    Option.or_none]

theorem humanBuild_7 (o1 : Option Int) (o2 : Option String) (o3 : Option (List String)) (o4 : Option Bool) (o5 : Option (List String)) (o6 o7 : Option String) :
    lookupA (humanBuild o1 o2 o3 o4 o5 o6 o7) "risk_tolerance_inferred" = o7.map .str := by
  unfold humanBuild
  simp only [List.append_assoc]
  rw [lookupA_optEntry_append_ne (by decide),
    lookupA_optEntry_append_ne (by decide),
    lookupA_optEntry_append_ne (by decide),
    lookupA_optEntry_append_ne (by decide),
    lookupA_optEntry_append_ne (by decide),
    lookupA_optEntry_append_ne (by decide),
    lookupA_optEntry_self]

theorem cleanHuman_build {o1 : Option Int} {o2 : Option String} {o3 : Option (List String)} {o4 : Option Bool} {o5 : Option (List String)} {o6 o7 : Option String}
    (h2 : ∀ t, o2 = some t → t ∈ ["homogeneous", "mixed", "unknown"])
    (h3 : ∀ L, o3 = some L → (∀ x ∈ L, pyStrip x = x ∧ x ≠ "") ∧ L ≠ [] ∧ lowerDedup L = L)
    (h5 : ∀ L, o5 = some L → (∀ x ∈ L, pyStrip x = x ∧ x ≠ "") ∧ L ≠ [] ∧ lowerDedup L = L)
    (h6 : ∀ t, o6 = some t → t ∈ ["low", "moderate", "high", "unknown"])
    (h7 : ∀ t, o7 = some t → t ∈ ["low", "moderate", "high", "unknown"])
    (hemp : (humanBuild o1 o2 o3 o4 o5 o6 o7).isEmpty ≠ true) :
    cleanHuman (some (.dict (humanBuild o1 o2 o3 o4 o5 o6 o7)))
      = some (humanBuild o1 o2 o3 o4 o5 o6 o7) := by
  have e1 : causes_int (lookupA (humanBuild o1 o2 o3 o4 o5 o6 o7) "group_size") = o1 := by
    rw [humanBuild_1]
    cases o1 with
    | none => rfl
    | some n => exact causes_int_revisit n
  have e2 : keep_enum (lookupA (humanBuild o1 o2 o3 o4 o5 o6 o7) "group_experience_mix")
      ["homogeneous", "mixed", "unknown"] = o2 := by
    rw [humanBuild_2]
    cases o2 with
    | none => rfl
    | some t => exact keep_enum_revisit (by decide) (h2 t rfl)
  have e3 : (if clean_list_str (lookupA (humanBuild o1 o2 o3 o4 o5 o6 o7) "communication_method") ≠ [] then
      some (lowerDedup (clean_list_str (lookupA (humanBuild o1 o2 o3 o4 o5 o6 o7) "communication_method"))) else Option.none) = o3 := by
    rw [humanBuild_3]
    cases o3 with
    | none => rfl
    | some L =>
      show (if clean_list_str (some (.list (L.map .str))) ≠ [] then
          some (lowerDedup (clean_list_str (some (.list (L.map .str))))) else Option.none)
        = some L
      rw [clean_list_str_revisit (h3 L rfl).1, if_pos (h3 L rfl).2.1,
        (h3 L rfl).2.2]
  have e4 : causes_bool (lookupA (humanBuild o1 o2 o3 o4 o5 o6 o7) "language_barrier_present") = o4 := by
    rw [humanBuild_4]
    cases o4 <;> rfl
  have e5 : (if clean_list_str (lookupA (humanBuild o1 o2 o3 o4 o5 o6 o7) "heuristic_traps_observed") ≠ [] then
      some (lowerDedup (clean_list_str (lookupA (humanBuild o1 o2 o3 o4 o5 o6 o7) "heuristic_traps_observed"))) else Option.none) = o5 := by
    rw [humanBuild_5]
    cases o5 with
    | none => rfl
    | some L =>
      show (if clean_list_str (some (.list (L.map .str))) ≠ [] then
          some (lowerDedup (clean_list_str (some (.list (L.map .str))))) else Option.none)
        = some L
      rw [clean_list_str_revisit (h5 L rfl).1, if_pos (h5 L rfl).2.1,
        (h5 L rfl).2.2]
  have e6 : keep_enum (lookupA (humanBuild o1 o2 o3 o4 o5 o6 o7) "fatigue_level")
      ["low", "moderate", "high", "unknown"] = o6 := by
    rw [humanBuild_6]
    cases o6 with
    | none => rfl
    | some t => exact keep_enum_revisit (by decide) (h6 t rfl)
  have e7 : keep_enum (lookupA (humanBuild o1 o2 o3 o4 o5 o6 o7) "risk_tolerance_inferred")
      ["low", "moderate", "high", "unknown"] = o7 := by
    rw [humanBuild_7]
    cases o7 with
    | none => rfl
    | some t => exact keep_enum_revisit (by decide) (h7 t rfl)
  simp only [cleanHuman]
  rw [e1, e2, e3, e4, e5, e6, e7, if_neg hemp]

theorem cleanHuman_stable {v : Option PyVal} {a : PyDict} (h : cleanHuman v = some a) :
    cleanHuman (some (.dict a)) = some a := by
  cases v with
  | none => exact Option.noConfusion h
  | some v' =>
    cases v'
    case dict dd =>
      simp only [cleanHuman] at h
      obtain ⟨hC, ha⟩ := ite_none_some_inv h
      subst ha
      exact cleanHuman_build
          (fun t ht => keep_enum_mem ht)
          (fun L hL => by
            by_cases hk : clean_list_str (lookupA dd "communication_method") ≠ []
            · rw [if_pos hk] at hL
              obtain rfl := (Option.some.inj hL).symm
              exact ⟨fun x hx => ⟨(lowerDedup_mem hx (fun p hp => clean_list_str_mem hp)).1,
                  (lowerDedup_mem hx (fun p hp => clean_list_str_mem hp)).2.1⟩,
                lowerDedup_ne_nil hk,
                lowerDedup_idem_on (fun x hx =>
                  (lowerDedup_mem hx (fun p hp => clean_list_str_mem hp)).2.2)⟩
            · rw [if_neg hk] at hL; cases hL)
          (fun L hL => by
            by_cases hk : clean_list_str (lookupA dd "heuristic_traps_observed") ≠ []
            · rw [if_pos hk] at hL
              obtain rfl := (Option.some.inj hL).symm
              exact ⟨fun x hx => ⟨(lowerDedup_mem hx (fun p hp => clean_list_str_mem hp)).1,
                  (lowerDedup_mem hx (fun p hp => clean_list_str_mem hp)).2.1⟩,
                lowerDedup_ne_nil hk,
                lowerDedup_idem_on (fun x hx =>
                  (lowerDedup_mem hx (fun p hp => clean_list_str_mem hp)).2.2)⟩
            · rw [if_neg hk] at hL; cases hL)
          (fun t ht => keep_enum_mem ht)
          (fun t ht => keep_enum_mem ht)
          hC
    all_goals exact Option.noConfusion h

/-! ### Stability of the `cleanRescue` sub-object cleaner -/

theorem rescueBuild_1 (o1 : Option Int) (o2 o3 : Option Bool) (o4 o5 : Option String) :
    lookupA (rescueBuild o1 o2 o3 o4 o5) "rescue_delay_minutes_est" = o1.map .int := by
  unfold rescueBuild
  simp only [List.append_assoc]
  rw [lookupA_optEntry_append,
    lookupA_optEntry_append_ne (by decide),
    lookupA_optEntry_append_ne (by decide),
    lookupA_optEntry_append_ne (by decide),
    lookupA_optEntry_ne (by decide),
    Option.or_none]

theorem rescueBuild_2 (o1 : Option Int) (o2 o3 : Option Bool) (o4 o5 : Option String) :
    lookupA (rescueBuild o1 o2 o3 o4 o5) "self_rescue_attempted" = o2.map .bool := by
  unfold rescueBuild
  simp only [List.append_assoc]
  rw [lookupA_optEntry_append_ne (by decide),
    lookupA_optEntry_append,
    lookupA_optEntry_append_ne (by decide),
    lookupA_optEntry_append_ne (by decide),
    lookupA_optEntry_ne (by decide),
    Option.or_none]

theorem rescueBuild_3 (o1 : Option Int) (o2 o3 : Option Bool) (o4 o5 : Option String) :
    lookupA (rescueBuild o1 o2 o3 o4 o5) "remains_recovered" = o3.map .bool := by
  unfold rescueBuild
  simp only [List.append_assoc]
  rw [lookupA_optEntry_append_ne (by decide),
    lookupA_optEntry_append_ne (by decide),
    lookupA_optEntry_append,
    lookupA_optEntry_append_ne (by decide),
    lookupA_optEntry_ne (by decide),
    Option.or_none]

theorem rescueBuild_4 (o1 : Option Int) (o2 o3 : Option Bool) (o4 o5 : Option String) :
    lookupA (rescueBuild o1 o2 o3 o4 o5) "survivor_condition_notes" = o4.map .str := by
  unfold rescueBuild
  simp only [List.append_assoc]
  rw [lookupA_optEntry_append_ne (by decide),
    lookupA_optEntry_append_ne (by decide),
    lookupA_optEntry_append_ne (by decide),
    lookupA_optEntry_append,
    lookupA_optEntry_ne (by decide),
    Option.or_none]

theorem rescueBuild_5 (o1 : Option Int) (o2 o3 : Option Bool) (o4 o5 : Option String) :
    lookupA (rescueBuild o1 o2 o3 o4 o5) "body_recovery_difficulty" = o5.map .str := by
  unfold rescueBuild
  simp only [List.append_assoc]
  rw [lookupA_optEntry_append_ne (by decide),
    lookupA_optEntry_append_ne (by decide),
    lookupA_optEntry_append_ne (by decide),
    lookupA_optEntry_append_ne (by decide),
    lookupA_optEntry_self]

theorem cleanRescue_build {o1 : Option Int} {o2 o3 : Option Bool} {o4 o5 : Option String}
    (h4 : ∀ t, o4 = some t → pyStrip t = t ∧ t ≠ "")
    (h5 : ∀ t, o5 = some t → t ∈ ["easy", "moderate", "technical", "high", "unknown"])
    (hemp : (rescueBuild o1 o2 o3 o4 o5).isEmpty ≠ true) :
    cleanRescue (some (.dict (rescueBuild o1 o2 o3 o4 o5)))
      = some (rescueBuild o1 o2 o3 o4 o5) := by
  have e1 : causes_int (lookupA (rescueBuild o1 o2 o3 o4 o5) "rescue_delay_minutes_est") = o1 := by
    rw [rescueBuild_1]
    cases o1 with
    | none => rfl
    | some n => exact causes_int_revisit n
  have e2 : causes_bool (lookupA (rescueBuild o1 o2 o3 o4 o5) "self_rescue_attempted") = o2 := by
    rw [rescueBuild_2]
    cases o2 <;> rfl
  have e3 : causes_bool (lookupA (rescueBuild o1 o2 o3 o4 o5) "remains_recovered") = o3 := by
    rw [rescueBuild_3]
    cases o3 <;> rfl
  have e4 : causes_str (lookupA (rescueBuild o1 o2 o3 o4 o5) "survivor_condition_notes") = o4 := by
    rw [rescueBuild_4]
    cases o4 with
    | none => rfl
    | some t => exact causes_str_revisit (h4 t rfl).1 (h4 t rfl).2
  have e5 : keep_enum (lookupA (rescueBuild o1 o2 o3 o4 o5) "body_recovery_difficulty")
      ["easy", "moderate", "technical", "high", "unknown"] = o5 := by
    rw [rescueBuild_5]
    cases o5 with
    | none => rfl
    | some t => exact keep_enum_revisit (by decide) (h5 t rfl)
  simp only [cleanRescue]
  rw [e1, e2, e3, e4, e5, if_neg hemp]

theorem cleanRescue_stable {v : Option PyVal} {a : PyDict} (h : cleanRescue v = some a) :
    cleanRescue (some (.dict a)) = some a := by
  cases v with
  | none => exact Option.noConfusion h
  | some v' =>
    cases v'
    case dict dd =>
      simp only [cleanRescue] at h
      obtain ⟨hC, ha⟩ := ite_none_some_inv h
      subst ha
      exact cleanRescue_build
          (fun t ht => causes_str_mem ht)
          (fun t ht => keep_enum_mem ht)
          hC
    all_goals exact Option.noConfusion h

/-! ### Stability of the `cleanInv` sub-object cleaner -/

theorem invBuild_1 (o1 o2 o3 : Option Bool) (o4 : Option String) (o5 : Option (List String)) :
    lookupA (invBuild o1 o2 o3 o4 o5) "investigation_in_progress" = o1.map .bool := by
  unfold invBuild
  simp only [List.append_assoc]
  rw [lookupA_optEntry_append,
    lookupA_optEntry_append_ne (by decide),
    lookupA_optEntry_append_ne (by decide),
    lookupA_optEntry_append_ne (by decide),
    lookupA_optEntry_ne (by decide),
    Option.or_none]

theorem invBuild_2 (o1 o2 o3 : Option Bool) (o4 : Option String) (o5 : Option (List String)) :
    lookupA (invBuild o1 o2 o3 o4 o5) "anchor_recovered" = o2.map .bool := by
  unfold invBuild
  simp only [List.append_assoc]
  rw [lookupA_optEntry_append_ne (by decide),
    lookupA_optEntry_append,
    lookupA_optEntry_append_ne (by decide),
    lookupA_optEntry_append_ne (by decide),
    lookupA_optEntry_ne (by decide),
    Option.or_none]

theorem invBuild_3 (o1 o2 o3 : Option Bool) (o4 : Option String) (o5 : Option (List String)) :
    lookupA (invBuild o1 o2 o3 o4 o5) "anchor_backup_found" = o3.map .bool := by
  unfold invBuild
  simp only [List.append_assoc]
  rw [lookupA_optEntry_append_ne (by decide),
    lookupA_optEntry_append_ne (by decide),
    lookupA_optEntry_append,
    lookupA_optEntry_append_ne (by decide),
    lookupA_optEntry_ne (by decide),
    Option.or_none]

theorem invBuild_4 (o1 o2 o3 : Option Bool) (o4 : Option String) (o5 : Option (List String)) :
    lookupA (invBuild o1 o2 o3 o4 o5) "gear_recovered_description" = o4.map .str := by
  unfold invBuild
  simp only [List.append_assoc]
  rw [lookupA_optEntry_append_ne (by decide),
    lookupA_optEntry_append_ne (by decide),
    lookupA_optEntry_append_ne (by decide),
    lookupA_optEntry_append,
    lookupA_optEntry_ne (by decide),
    Option.or_none]

theorem invBuild_5 (o1 o2 o3 : Option Bool) (o4 : Option String) (o5 : Option (List String)) :
    lookupA (invBuild o1 o2 o3 o4 o5) "uncertainties_list" = o5.map (fun l => PyVal.list (l.map .str)) := by
  unfold invBuild
  simp only [List.append_assoc]
  rw [lookupA_optEntry_append_ne (by decide),
    lookupA_optEntry_append_ne (by decide),
    lookupA_optEntry_append_ne (by decide),
    lookupA_optEntry_append_ne (by decide),
    lookupA_optEntry_self]

theorem cleanInv_build {o1 o2 o3 : Option Bool} {o4 : Option String} {o5 : Option (List String)}
    (h4 : ∀ t, o4 = some t → pyStrip t = t ∧ t ≠ "")
    (h5 : ∀ L, o5 = some L → (∀ x ∈ L, pyStrip x = x ∧ x ≠ "") ∧ L ≠ [])
    (hemp : (invBuild o1 o2 o3 o4 o5).isEmpty ≠ true) :
    cleanInv (some (.dict (invBuild o1 o2 o3 o4 o5)))
      = some (invBuild o1 o2 o3 o4 o5) := by
  have e1 : causes_bool (lookupA (invBuild o1 o2 o3 o4 o5) "investigation_in_progress") = o1 := by
    rw [invBuild_1]
    cases o1 <;> rfl
  have e2 : causes_bool (lookupA (invBuild o1 o2 o3 o4 o5) "anchor_recovered") = o2 := by
    rw [invBuild_2]
    cases o2 <;> rfl
  have e3 : causes_bool (lookupA (invBuild o1 o2 o3 o4 o5) "anchor_backup_found") = o3 := by
    rw [invBuild_3]
    cases o3 <;> rfl
  have e4 : causes_str (lookupA (invBuild o1 o2 o3 o4 o5) "gear_recovered_description") = o4 := by
    rw [invBuild_4]
    cases o4 with
    | none => rfl
    | some t => exact causes_str_revisit (h4 t rfl).1 (h4 t rfl).2
  have e5 : (if clean_list_str (lookupA (invBuild o1 o2 o3 o4 o5) "uncertainties_list") ≠ [] then
      some (clean_list_str (lookupA (invBuild o1 o2 o3 o4 o5) "uncertainties_list")) else Option.none) = o5 := by
    rw [invBuild_5]
    cases o5 with
    | none => rfl
    | some L =>
      show (if clean_list_str (some (.list (L.map .str))) ≠ [] then
          some (clean_list_str (some (.list (L.map .str)))) else Option.none) = some L
      rw [clean_list_str_revisit (h5 L rfl).1, if_pos (h5 L rfl).2]
  simp only [cleanInv]
  rw [e1, e2, e3, e4, e5, if_neg hemp]

theorem cleanInv_stable {v : Option PyVal} {a : PyDict} (h : cleanInv v = some a) :
    cleanInv (some (.dict a)) = some a := by
  cases v with
  | none => exact Option.noConfusion h
  | some v' =>
    cases v'
    case dict dd =>
      simp only [cleanInv] at h
      obtain ⟨hC, ha⟩ := ite_none_some_inv h
      subst ha
      exact cleanInv_build
          (fun t ht => causes_str_mem ht)
          (fun L hL => by
            by_cases hk : clean_list_str (lookupA dd "uncertainties_list") ≠ []
            · rw [if_pos hk] at hL
              obtain rfl := (Option.some.inj hL).symm
              exact ⟨fun x hx => clean_list_str_mem hx, hk⟩
            · rw [if_neg hk] at hL; cases hL)
          hC
    all_goals exact Option.noConfusion h

/-! ### Stability of the `cleanClass` sub-object cleaner -/

theorem classBuild_1 (o1 : Option String) (o2 : Option (List String)) (o3 : Option String) :
    lookupA (classBuild o1 o2 o3) "primary_cause_category" = o1.map .str := by
  unfold classBuild
  simp only [List.append_assoc]
  rw [lookupA_optEntry_append,
    lookupA_optEntry_append_ne (by decide),
    lookupA_optEntry_ne (by decide),
    Option.or_none]

theorem classBuild_2 (o1 : Option String) (o2 : Option (List String)) (o3 : Option String) :
    lookupA (classBuild o1 o2 o3) "secondary_cause_categories" = o2.map (fun l => PyVal.list (l.map .str)) := by
  unfold classBuild
  simp only [List.append_assoc]
  rw [lookupA_optEntry_append_ne (by decide),
    lookupA_optEntry_append,
    lookupA_optEntry_ne (by decide),
    Option.or_none]

theorem classBuild_3 (o1 : Option String) (o2 : Option (List String)) (o3 : Option String) :
    lookupA (classBuild o1 o2 o3) "narrative_summary" = o3.map .str := by
  unfold classBuild
  simp only [List.append_assoc]
  rw [lookupA_optEntry_append_ne (by decide),
    lookupA_optEntry_append_ne (by decide),
    lookupA_optEntry_self]

theorem cleanClass_build {o1 : Option String} {o2 : Option (List String)} {o3 : Option String}
    (h1 : ∀ t, o1 = some t → t ∈ ["technical_system_failure", "environmental", "human_factor", "medical", "unknown"])
    (h2 : ∀ L, o2 = some L → (∀ x ∈ L, pyStrip x = x ∧ x ≠ "") ∧ L ≠ [] ∧ lowerDedup L = L)
    (h3 : ∀ t, o3 = some t → pyStrip t = t ∧ t ≠ "")
    (hemp : (classBuild o1 o2 o3).isEmpty ≠ true) :
    cleanClass (some (.dict (classBuild o1 o2 o3)))
      = some (classBuild o1 o2 o3) := by
  have e1 : keep_enum (lookupA (classBuild o1 o2 o3) "primary_cause_category")
      ["technical_system_failure", "environmental", "human_factor", "medical", "unknown"] = o1 := by
    rw [classBuild_1]
    cases o1 with
    | none => rfl
    | some t => exact keep_enum_revisit (by decide) (h1 t rfl)
  have e2 : (if clean_list_str (lookupA (classBuild o1 o2 o3) "secondary_cause_categories") ≠ [] then
      some (lowerDedup (clean_list_str (lookupA (classBuild o1 o2 o3) "secondary_cause_categories"))) else Option.none) = o2 := by
    rw [classBuild_2]
    cases o2 with
    | none => rfl
    | some L =>
      show (if clean_list_str (some (.list (L.map .str))) ≠ [] then
          some (lowerDedup (clean_list_str (some (.list (L.map .str))))) else Option.none)
        = some L
      rw [clean_list_str_revisit (h2 L rfl).1, if_pos (h2 L rfl).2.1,
        (h2 L rfl).2.2]
  have e3 : causes_str (lookupA (classBuild o1 o2 o3) "narrative_summary") = o3 := by
    rw [classBuild_3]
    cases o3 with
    | none => rfl
    | some t => exact causes_str_revisit (h3 t rfl).1 (h3 t rfl).2
  simp only [cleanClass]
  rw [e1, e2, e3, if_neg hemp]

theorem cleanClass_stable {v : Option PyVal} {a : PyDict} (h : cleanClass v = some a) :
    cleanClass (some (.dict a)) = some a := by
  cases v with
  | none => exact Option.noConfusion h
  | some v' =>
    cases v'
    case dict dd =>
      simp only [cleanClass] at h
      obtain ⟨hC, ha⟩ := ite_none_some_inv h
      subst ha
      exact cleanClass_build
          (fun t ht => keep_enum_mem ht)
          (fun L hL => by
            by_cases hk : clean_list_str (lookupA dd "secondary_cause_categories") ≠ []
            · rw [if_pos hk] at hL
              obtain rfl := (Option.some.inj hL).symm
              exact ⟨fun x hx => ⟨(lowerDedup_mem hx (fun p hp => clean_list_str_mem hp)).1,
                  (lowerDedup_mem hx (fun p hp => clean_list_str_mem hp)).2.1⟩,
                lowerDedup_ne_nil hk,
                lowerDedup_idem_on (fun x hx =>
                  (lowerDedup_mem hx (fun p hp => clean_list_str_mem hp)).2.2)⟩
            · rw [if_neg hk] at hL; cases hL)
          (fun t ht => causes_str_mem ht)
          hC
    all_goals exact Option.noConfusion h

/-! ### Stability of the full nested-causes cleaner -/

theorem ccLookup_1 (w1 w2 w3 w4 w5 w6 w7 w8 w9 w10 w11 : Option PyVal) :
    lookupA (optEntry "proximate_causes" w1 ++
      optEntry "contributing_factors" w2 ++
      optEntry "anchor_system" w3 ++
      optEntry "rope_system" w4 ++
      optEntry "decision_factors" w5 ++
      optEntry "equipment_status" w6 ++
      optEntry "environmental_conditions" w7 ++
      optEntry "human_factors" w8 ++
      optEntry "rescue_and_outcome" w9 ++
      optEntry "investigation_notes" w10 ++
      optEntry "cause_classification" w11) "proximate_causes" = w1 := by
  simp only [List.append_assoc]
  rw [lookupA_optEntry_append,
    lookupA_optEntry_append_ne (by decide),
    lookupA_optEntry_append_ne (by decide),
    lookupA_optEntry_append_ne (by decide),
    lookupA_optEntry_append_ne (by decide),
    lookupA_optEntry_append_ne (by decide),
    lookupA_optEntry_append_ne (by decide),
    lookupA_optEntry_append_ne (by decide),
    lookupA_optEntry_append_ne (by decide),
    lookupA_optEntry_append_ne (by decide),
    lookupA_optEntry_ne (by decide),
    Option.or_none]

theorem ccLookup_2 (w1 w2 w3 w4 w5 w6 w7 w8 w9 w10 w11 : Option PyVal) :
    lookupA (optEntry "proximate_causes" w1 ++
      optEntry "contributing_factors" w2 ++
      optEntry "anchor_system" w3 ++
      optEntry "rope_system" w4 ++
      optEntry "decision_factors" w5 ++
      optEntry "equipment_status" w6 ++
      optEntry "environmental_conditions" w7 ++
      optEntry "human_factors" w8 ++
      optEntry "rescue_and_outcome" w9 ++
      optEntry "investigation_notes" w10 ++
      optEntry "cause_classification" w11) "contributing_factors" = w2 := by
  simp only [List.append_assoc]
  rw [lookupA_optEntry_append_ne (by decide),
    lookupA_optEntry_append,
    lookupA_optEntry_append_ne (by decide),
    lookupA_optEntry_append_ne (by decide),
    lookupA_optEntry_append_ne (by decide),
    lookupA_optEntry_append_ne (by decide),
    lookupA_optEntry_append_ne (by decide),
    lookupA_optEntry_append_ne (by decide),
    lookupA_optEntry_append_ne (by decide),
    lookupA_optEntry_append_ne (by decide),
    lookupA_optEntry_ne (by decide),
    Option.or_none]

theorem ccLookup_3 (w1 w2 w3 w4 w5 w6 w7 w8 w9 w10 w11 : Option PyVal) :
    lookupA (optEntry "proximate_causes" w1 ++
      optEntry "contributing_factors" w2 ++
      optEntry "anchor_system" w3 ++
      optEntry "rope_system" w4 ++
      optEntry "decision_factors" w5 ++
      optEntry "equipment_status" w6 ++
      optEntry "environmental_conditions" w7 ++
      optEntry "human_factors" w8 ++
      optEntry "rescue_and_outcome" w9 ++
      optEntry "investigation_notes" w10 ++
      optEntry "cause_classification" w11) "anchor_system" = w3 := by
  simp only [List.append_assoc]
  rw [lookupA_optEntry_append_ne (by decide),
    lookupA_optEntry_append_ne (by decide),
    lookupA_optEntry_append,
    lookupA_optEntry_append_ne (by decide),
    lookupA_optEntry_append_ne (by decide),
    lookupA_optEntry_append_ne (by decide),
    lookupA_optEntry_append_ne (by decide),
    lookupA_optEntry_append_ne (by decide),
    lookupA_optEntry_append_ne (by decide),
    lookupA_optEntry_append_ne (by decide),
    lookupA_optEntry_ne (by decide),
    Option.or_none]

theorem ccLookup_4 (w1 w2 w3 w4 w5 w6 w7 w8 w9 w10 w11 : Option PyVal) :
    lookupA (optEntry "proximate_causes" w1 ++
      optEntry "contributing_factors" w2 ++
      optEntry "anchor_system" w3 ++
      optEntry "rope_system" w4 ++
      optEntry "decision_factors" w5 ++
      optEntry "equipment_status" w6 ++
      optEntry "environmental_conditions" w7 ++
      optEntry "human_factors" w8 ++
      optEntry "rescue_and_outcome" w9 ++
      optEntry "investigation_notes" w10 ++
      optEntry "cause_classification" w11) "rope_system" = w4 := by
  simp only [List.append_assoc]
  rw [lookupA_optEntry_append_ne (by decide),
    lookupA_optEntry_append_ne (by decide),
    lookupA_optEntry_append_ne (by decide),
    lookupA_optEntry_append,
    lookupA_optEntry_append_ne (by decide),
    lookupA_optEntry_append_ne (by decide),
    lookupA_optEntry_append_ne (by decide),
    lookupA_optEntry_append_ne (by decide),
    lookupA_optEntry_append_ne (by decide),
    lookupA_optEntry_append_ne (by decide),
    lookupA_optEntry_ne (by decide),
    Option.or_none]

theorem ccLookup_5 (w1 w2 w3 w4 w5 w6 w7 w8 w9 w10 w11 : Option PyVal) :
    lookupA (optEntry "proximate_causes" w1 ++
      optEntry "contributing_factors" w2 ++
      optEntry "anchor_system" w3 ++
      optEntry "rope_system" w4 ++
      optEntry "decision_factors" w5 ++
      optEntry "equipment_status" w6 ++
      optEntry "environmental_conditions" w7 ++
      optEntry "human_factors" w8 ++
      optEntry "rescue_and_outcome" w9 ++
      optEntry "investigation_notes" w10 ++
      optEntry "cause_classification" w11) "decision_factors" = w5 := by
  simp only [List.append_assoc]
  rw [lookupA_optEntry_append_ne (by decide),
    lookupA_optEntry_append_ne (by decide),
    lookupA_optEntry_append_ne (by decide),
    lookupA_optEntry_append_ne (by decide),
    lookupA_optEntry_append,
    lookupA_optEntry_append_ne (by decide),
    lookupA_optEntry_append_ne (by decide),
    lookupA_optEntry_append_ne (by decide),
    lookupA_optEntry_append_ne (by decide),
    lookupA_optEntry_append_ne (by decide),
    lookupA_optEntry_ne (by decide),
    Option.or_none]

theorem ccLookup_6 (w1 w2 w3 w4 w5 w6 w7 w8 w9 w10 w11 : Option PyVal) :
    lookupA (optEntry "proximate_causes" w1 ++
      optEntry "contributing_factors" w2 ++
      optEntry "anchor_system" w3 ++
      optEntry "rope_system" w4 ++
      optEntry "decision_factors" w5 ++
      optEntry "equipment_status" w6 ++
      optEntry "environmental_conditions" w7 ++
      optEntry "human_factors" w8 ++
      optEntry "rescue_and_outcome" w9 ++
      optEntry "investigation_notes" w10 ++
      optEntry "cause_classification" w11) "equipment_status" = w6 := by
  simp only [List.append_assoc]
  rw [lookupA_optEntry_append_ne (by decide),
    lookupA_optEntry_append_ne (by decide),
    lookupA_optEntry_append_ne (by decide),
    lookupA_optEntry_append_ne (by decide),
    lookupA_optEntry_append_ne (by decide),
    lookupA_optEntry_append,
    lookupA_optEntry_append_ne (by decide),
    lookupA_optEntry_append_ne (by decide),
    lookupA_optEntry_append_ne (by decide),
    lookupA_optEntry_append_ne (by decide),
    lookupA_optEntry_ne (by decide),
    Option.or_none]

theorem ccLookup_7 (w1 w2 w3 w4 w5 w6 w7 w8 w9 w10 w11 : Option PyVal) :
    lookupA (optEntry "proximate_causes" w1 ++
      optEntry "contributing_factors" w2 ++
      optEntry "anchor_system" w3 ++
      optEntry "rope_system" w4 ++
      optEntry "decision_factors" w5 ++
      optEntry "equipment_status" w6 ++
      optEntry "environmental_conditions" w7 ++
      optEntry "human_factors" w8 ++
      optEntry "rescue_and_outcome" w9 ++
      optEntry "investigation_notes" w10 ++
      optEntry "cause_classification" w11) "environmental_conditions" = w7 := by
  simp only [List.append_assoc]
  rw [lookupA_optEntry_append_ne (by decide),
    lookupA_optEntry_append_ne (by decide),
    lookupA_optEntry_append_ne (by decide),
    lookupA_optEntry_append_ne (by decide),
    lookupA_optEntry_append_ne (by decide),
    lookupA_optEntry_append_ne (by decide),
    lookupA_optEntry_append,
    lookupA_optEntry_append_ne (by decide),
    lookupA_optEntry_append_ne (by decide),
    lookupA_optEntry_append_ne (by decide),
    lookupA_optEntry_ne (by decide),
    Option.or_none]

theorem ccLookup_8 (w1 w2 w3 w4 w5 w6 w7 w8 w9 w10 w11 : Option PyVal) :
    lookupA (optEntry "proximate_causes" w1 ++
      optEntry "contributing_factors" w2 ++
      optEntry "anchor_system" w3 ++
      optEntry "rope_system" w4 ++
      optEntry "decision_factors" w5 ++
      optEntry "equipment_status" w6 ++
      optEntry "environmental_conditions" w7 ++
      optEntry "human_factors" w8 ++
      optEntry "rescue_and_outcome" w9 ++
      optEntry "investigation_notes" w10 ++
      optEntry "cause_classification" w11) "human_factors" = w8 := by
  simp only [List.append_assoc]
  rw [lookupA_optEntry_append_ne (by decide),
    lookupA_optEntry_append_ne (by decide),
    lookupA_optEntry_append_ne (by decide),
    lookupA_optEntry_append_ne (by decide),
    lookupA_optEntry_append_ne (by decide),
    lookupA_optEntry_append_ne (by decide),
    lookupA_optEntry_append_ne (by decide),
    lookupA_optEntry_append,
    lookupA_optEntry_append_ne (by decide),
    lookupA_optEntry_append_ne (by decide),
    lookupA_optEntry_ne (by decide),
    Option.or_none]

theorem ccLookup_9 (w1 w2 w3 w4 w5 w6 w7 w8 w9 w10 w11 : Option PyVal) :
    lookupA (optEntry "proximate_causes" w1 ++
      optEntry "contributing_factors" w2 ++
      optEntry "anchor_system" w3 ++
      optEntry "rope_system" w4 ++
      optEntry "decision_factors" w5 ++
      optEntry "equipment_status" w6 ++
      optEntry "environmental_conditions" w7 ++
      optEntry "human_factors" w8 ++
      optEntry "rescue_and_outcome" w9 ++
      optEntry "investigation_notes" w10 ++
      optEntry "cause_classification" w11) "rescue_and_outcome" = w9 := by
  simp only [List.append_assoc]
  rw [lookupA_optEntry_append_ne (by decide),
    lookupA_optEntry_append_ne (by decide),
    lookupA_optEntry_append_ne (by decide),
    lookupA_optEntry_append_ne (by decide),
    lookupA_optEntry_append_ne (by decide),
    lookupA_optEntry_append_ne (by decide),
    lookupA_optEntry_append_ne (by decide),
    lookupA_optEntry_append_ne (by decide),
    lookupA_optEntry_append,
    lookupA_optEntry_append_ne (by decide),
    lookupA_optEntry_ne (by decide),
    Option.or_none]

theorem ccLookup_10 (w1 w2 w3 w4 w5 w6 w7 w8 w9 w10 w11 : Option PyVal) :
    lookupA (optEntry "proximate_causes" w1 ++
      optEntry "contributing_factors" w2 ++
      optEntry "anchor_system" w3 ++
      optEntry "rope_system" w4 ++
      optEntry "decision_factors" w5 ++
      optEntry "equipment_status" w6 ++
      optEntry "environmental_conditions" w7 ++
      optEntry "human_factors" w8 ++
      optEntry "rescue_and_outcome" w9 ++
      optEntry "investigation_notes" w10 ++
      optEntry "cause_classification" w11) "investigation_notes" = w10 := by
  simp only [List.append_assoc]
  rw [lookupA_optEntry_append_ne (by decide),
    lookupA_optEntry_append_ne (by decide),
    lookupA_optEntry_append_ne (by decide),
    lookupA_optEntry_append_ne (by decide),
    lookupA_optEntry_append_ne (by decide),
    lookupA_optEntry_append_ne (by decide),
    lookupA_optEntry_append_ne (by decide),
    lookupA_optEntry_append_ne (by decide),
    lookupA_optEntry_append_ne (by decide),
    lookupA_optEntry_append,
    lookupA_optEntry_ne (by decide),
    Option.or_none]

theorem ccLookup_11 (w1 w2 w3 w4 w5 w6 w7 w8 w9 w10 w11 : Option PyVal) :
    lookupA (optEntry "proximate_causes" w1 ++
      optEntry "contributing_factors" w2 ++
      optEntry "anchor_system" w3 ++
      optEntry "rope_system" w4 ++
      optEntry "decision_factors" w5 ++
      optEntry "equipment_status" w6 ++
      optEntry "environmental_conditions" w7 ++
      optEntry "human_factors" w8 ++
      optEntry "rescue_and_outcome" w9 ++
      optEntry "investigation_notes" w10 ++
      optEntry "cause_classification" w11) "cause_classification" = w11 := by
  simp only [List.append_assoc]
  rw [lookupA_optEntry_append_ne (by decide),
    lookupA_optEntry_append_ne (by decide),
    lookupA_optEntry_append_ne (by decide),
    lookupA_optEntry_append_ne (by decide),
    lookupA_optEntry_append_ne (by decide),
    lookupA_optEntry_append_ne (by decide),
    lookupA_optEntry_append_ne (by decide),
    lookupA_optEntry_append_ne (by decide),
    lookupA_optEntry_append_ne (by decide),
    lookupA_optEntry_append_ne (by decide),
    lookupA_optEntry_self]

theorem cleanCauses_idem (v : PyVal) :
    cleanCauses (.dict (cleanCauses v)) = cleanCauses v := by
  cases v
  case dict data =>
    have g1 : enumListClean ((enumListClean (lookupA data "proximate_causes")
          proxAllowed).map (fun l => PyVal.list (l.map .str))) proxAllowed
        = enumListClean (lookupA data "proximate_causes") proxAllowed := by
      cases ho : enumListClean (lookupA data "proximate_causes") proxAllowed with
      | none => rfl
      | some l =>
        show enumListClean (some (.list (l.map .str))) proxAllowed = some l
        exact enumListClean_stable (by decide) ho
    have g2 : enumListClean ((enumListClean (lookupA data "contributing_factors")
          contribAllowed).map (fun l => PyVal.list (l.map .str))) contribAllowed
        = enumListClean (lookupA data "contributing_factors") contribAllowed := by
      cases ho : enumListClean (lookupA data "contributing_factors") contribAllowed with
      | none => rfl
      | some l =>
        show enumListClean (some (.list (l.map .str))) contribAllowed = some l
        exact enumListClean_stable (by decide) ho
    have g3 : cleanAnchor ((cleanAnchor (lookupA data "anchor_system")).map PyVal.dict)
        = cleanAnchor (lookupA data "anchor_system") := by
      cases ho : cleanAnchor (lookupA data "anchor_system") with
      | none => rfl
      | some a =>
        show cleanAnchor (some (.dict a)) = some a
        exact cleanAnchor_stable ho
    have g4 : cleanRope ((cleanRope (lookupA data "rope_system")).map PyVal.dict)
        = cleanRope (lookupA data "rope_system") := by
      cases ho : cleanRope (lookupA data "rope_system") with
      | none => rfl
      | some a =>
        show cleanRope (some (.dict a)) = some a
        exact cleanRope_stable ho
    have g5 : cleanDecision ((cleanDecision (lookupA data "decision_factors")).map PyVal.dict)
        = cleanDecision (lookupA data "decision_factors") := by
      cases ho : cleanDecision (lookupA data "decision_factors") with
      | none => rfl
      | some a =>
        show cleanDecision (some (.dict a)) = some a
        exact cleanDecision_stable ho
    have g6 : cleanEquipment ((cleanEquipment (lookupA data "equipment_status")).map PyVal.dict)
        = cleanEquipment (lookupA data "equipment_status") := by
      cases ho : cleanEquipment (lookupA data "equipment_status") with
      | none => rfl
      | some a =>
        show cleanEquipment (some (.dict a)) = some a
        exact cleanEquipment_stable ho
    have g7 : cleanEnv ((cleanEnv (lookupA data "environmental_conditions")).map PyVal.dict)
        = cleanEnv (lookupA data "environmental_conditions") := by
      cases ho : cleanEnv (lookupA data "environmental_conditions") with
      | none => rfl
      | some a =>
        show cleanEnv (some (.dict a)) = some a
        exact cleanEnv_stable ho
    have g8 : cleanHuman ((cleanHuman (lookupA data "human_factors")).map PyVal.dict)
        = cleanHuman (lookupA data "human_factors") := by
      cases ho : cleanHuman (lookupA data "human_factors") with
      | none => rfl
      | some a =>
        show cleanHuman (some (.dict a)) = some a
        exact cleanHuman_stable ho
    have g9 : cleanRescue ((cleanRescue (lookupA data "rescue_and_outcome")).map PyVal.dict)
        = cleanRescue (lookupA data "rescue_and_outcome") := by
      cases ho : cleanRescue (lookupA data "rescue_and_outcome") with
      | none => rfl
      | some a =>
        show cleanRescue (some (.dict a)) = some a
        exact cleanRescue_stable ho
    have g10 : cleanInv ((cleanInv (lookupA data "investigation_notes")).map PyVal.dict)
        = cleanInv (lookupA data "investigation_notes") := by
      cases ho : cleanInv (lookupA data "investigation_notes") with
      | none => rfl
      | some a =>
        show cleanInv (some (.dict a)) = some a
        exact cleanInv_stable ho
    have g11 : cleanClass ((cleanClass (lookupA data "cause_classification")).map PyVal.dict)
        = cleanClass (lookupA data "cause_classification") := by
      cases ho : cleanClass (lookupA data "cause_classification") with
      | none => rfl
      | some a =>
        show cleanClass (some (.dict a)) = some a
        exact cleanClass_stable ho
    simp only [cleanCauses]
    rw [ccLookup_1, ccLookup_2, ccLookup_3, ccLookup_4, ccLookup_5, ccLookup_6, ccLookup_7, ccLookup_8, ccLookup_9, ccLookup_10, ccLookup_11]
    rw [g1, g2, g3, g4, g5, g6, g7, g8, g9, g10, g11]
  all_goals rfl

/-! ### Stability of the whole per-key coercion -/

theorem keep_people_shape {v w : PyVal} (h : keep_people v = some w) :
    ∃ ys, w = .list ys := by
  cases v
  case list xs =>
    have h' : (if (xs.filterMap cleanPerson).isEmpty then Option.none
        else some (PyVal.list ((xs.filterMap cleanPerson).map .dict))) = some w := h
    obtain ⟨_, hw⟩ := ite_none_some_inv h'
    exact ⟨_, hw⟩
  all_goals exact Option.noConfusion h

theorem keep_list_of_str_shape {v w : PyVal} (h : keep_list_of_str v = some w) :
    ∃ ys, w = .list ys := by
  cases v
  case list xs =>
    have h' : (if xs.filterMap strEntry ≠ [] then
        some (PyVal.list ((pyDedup (xs.filterMap strEntry)).map .str))
        else Option.none) = some w := h
    by_cases hne : xs.filterMap strEntry ≠ []
    · rw [if_pos hne] at h'
      exact ⟨_, (Option.some.inj h').symm⟩
    · rw [if_neg hne] at h'; cases h'
  case str s =>
    have h' : (if pyStrip s ≠ "" then some (PyVal.list [.str (pyStrip s)]) else Option.none)
        = some w := h
    by_cases hs : pyStrip s ≠ ""
    · rw [if_pos hs] at h'
      exact ⟨_, (Option.some.inj h').symm⟩
    · rw [if_neg hs] at h'; cases h'
  all_goals exact Option.noConfusion h

theorem processKey_stable {k : String} {v w : PyVal}
    (hp : k = "people" → ∀ s, v = .str s → pyStrip s = "")
    (h : processKey k v = some w) :
    processKey k w = some w := by
  cases het : expectedType k with
  | none =>
    simp only [processKey, het] at h ⊢
    cases v with
    | str s =>
      have h'' : (if pyStrip s ≠ "" then some (PyVal.str (pyStrip s)) else Option.none)
          = some w := h
      by_cases hs : pyStrip s ≠ ""
      · rw [if_pos hs] at h''
        have hw : w = .str (pyStrip s) := (Option.some.inj h'').symm
        subst hw
        show (if pyStrip (pyStrip s) ≠ "" then some (PyVal.str (pyStrip (pyStrip s)))
            else Option.none) = some (PyVal.str (pyStrip s))
        rw [pyStrip_idem, if_pos hs]
      · rw [if_neg hs] at h''; cases h''
    | none => exact Option.noConfusion h
    | bool b => exact Option.noConfusion h
    | int n => exact Option.noConfusion h
    | float q => exact Option.noConfusion h
    | list xs => exact Option.noConfusion h
    | dict kvs => exact Option.noConfusion h
  | some ty =>
    cases ty with
    | str =>
      simp only [processKey, het] at h ⊢
      exact keep_str_stable h
    | int =>
      simp only [processKey, het] at h ⊢
      exact keep_int_stable h
    | float =>
      simp only [processKey, het] at h ⊢
      exact keep_float_stable h
    | bool =>
      simp only [processKey, het] at h ⊢
      exact keep_bool_stable h
    | list =>
      simp only [processKey, het] at h ⊢
      by_cases hk : k = "people"
      · rw [if_pos hk] at h ⊢
        cases v with
        | list xs =>
          obtain ⟨ys, rfl⟩ := keep_people_shape h
          exact keep_people_stable h
        | str s =>
          have h'' : (if pyStrip s ≠ "" then some (PyVal.list [.str (pyStrip s)])
              else Option.none) = some w := h
          rw [hp hk s rfl] at h''
          rw [if_neg (by simp)] at h''
          cases h''
        | none => exact Option.noConfusion h
        | bool b => exact Option.noConfusion h
        | int n => exact Option.noConfusion h
        | float q => exact Option.noConfusion h
        | dict kvs => exact Option.noConfusion h
      · rw [if_neg hk] at h ⊢
        obtain ⟨ys, rfl⟩ := keep_list_of_str_shape h
        exact keep_list_of_str_stable h
    | dict =>
      simp only [processKey, het] at h ⊢
      by_cases hk : k = "accident_causes"
      · rw [if_pos hk] at h ⊢
        obtain ⟨hC, hw⟩ := ite_none_some_inv h
        subst hw
        rw [cleanCauses_idem, if_neg hC]
      · rw [if_neg hk] at h; cases h

/-! ### The postprocessor as a fixed point on its own output -/

theorem find_isSome_of_lookupA {kvs : PyDict} {k : String} {v0 : PyVal}
    (h : lookupA kvs k = some v0) : (kvs.find? (fun p => p.1 = k)).isSome := by
  unfold lookupA at h
  cases hf : kvs.find? (fun p => p.1 = k) with
  | none => rw [hf] at h; cases h
  | some q => rfl

theorem lookupA_removeA_self (out : PyDict) (k : String) :
    lookupA (removeA out k) k = Option.none := by
  induction out with
  | nil => rfl
  | cons q t ih =>
    obtain ⟨k1, v1⟩ := q
    rw [removeA_cons]
    by_cases hk : k1 = k
    · rw [if_pos hk]
      exact ih
    · rw [if_neg hk, lookupA_cons, if_neg hk]
      exact ih

theorem updateA_id_of_not_mem {out : PyDict} {k : String} {v : PyVal}
    (h : ∀ p ∈ out, p.1 ≠ k) : updateA out k v = out := by
  induction out with
  | nil => rfl
  | cons q t ih =>
    obtain ⟨k1, v1⟩ := q
    rw [updateA_cons, if_neg (h (k1, v1) (List.mem_cons_self _ _)),
      ih (fun p hp => h p (List.mem_cons_of_mem _ hp))]

theorem updateA_eq_self {out : PyDict} {k : String} {v : PyVal}
    (hnd : (out.map Prod.fst).Nodup) (hl : lookupA out k = some v) :
    updateA out k v = out := by
  induction out with
  | nil => rfl
  | cons q t ih =>
    obtain ⟨k1, v1⟩ := q
    rw [lookupA_cons] at hl
    rw [updateA_cons]
    rw [List.map_cons, List.nodup_cons] at hnd
    by_cases hk : k1 = k
    · rw [if_pos hk] at hl ⊢
      obtain rfl := (Option.some.inj hl).symm
      rw [updateA_id_of_not_mem]
      intro p hp hpk
      apply hnd.1
      have hmem : p.1 ∈ t.map Prod.fst := List.mem_map_of_mem Prod.fst hp
      rw [hpk, ← hk] at hmem
      exact hmem
    · rw [if_neg hk] at hl ⊢
      rw [ih hnd.2 hl]

theorem mem_updateA {out : PyDict} {k : String} {v : PyVal} {p : String × PyVal}
    (hp : p ∈ updateA out k v) : p ∈ out ∨ (p.1 = k ∧ p.2 = v) := by
  unfold updateA at hp
  obtain ⟨q, hq, hqe⟩ := List.mem_map.mp hp
  by_cases hqk : q.1 = k
  · rw [if_pos hqk] at hqe
    subst hqe
    exact Or.inr ⟨hqk, rfl⟩
  · rw [if_neg hqk] at hqe
    subst hqe
    exact Or.inl hq

theorem mem_removeA {out : PyDict} {k : String} {p : String × PyVal}
    (hp : p ∈ removeA out k) : p ∈ out :=
  List.mem_of_mem_filter hp

theorem mem_mainLoop {obj : PyDict} {p : String × PyVal} (hp : p ∈ mainLoop obj) :
    ∃ v, (p.1, v) ∈ obj ∧ processKey p.1 v = some p.2 := by
  obtain ⟨q, hq, hq2⟩ := List.mem_filterMap.mp hp
  cases hpk : processKey q.1 q.2 with
  | none => rw [hpk] at hq2; cases hq2
  | some w =>
    rw [hpk] at hq2
    have hqp : (q.1, w) = p := Option.some.inj hq2
    subst hqp
    exact ⟨q.2, hq, hpk⟩

theorem mainLoop_eq_self {out : PyDict}
    (h : ∀ p ∈ out, processKey p.1 p.2 = some p.2) :
    mainLoop out = out := by
  unfold mainLoop
  apply filterMap_eq_self
  intro p hp
  rw [h p hp]
  rfl

theorem mainLoop_keys_sublist (obj : PyDict) :
    ((mainLoop obj).map Prod.fst).Sublist (obj.map Prod.fst) := by
  induction obj with
  | nil => exact List.Sublist.refl _
  | cons q t ih =>
    obtain ⟨k', v'⟩ := q
    rw [mainLoop_cons]
    cases hpk : processKey k' v' with
    | none =>
      show ((mainLoop t).map Prod.fst).Sublist (k' :: t.map Prod.fst)
      exact List.Sublist.cons _ ih
    | some w =>
      show (k' :: (mainLoop t).map Prod.fst).Sublist (k' :: t.map Prod.fst)
      exact List.Sublist.cons₂ _ ih

theorem dateFix1_cases (du : DateOracle) (out : PyDict) (dk : String) :
    dateFix1 du out dk = out ∨
    (∃ v iso, lookupA out dk = some v ∧ isoOrNone du v = some iso ∧
      dateFix1 du out dk = updateA out dk (.str iso)) ∨
    dateFix1 du out dk = removeA out dk := by
  cases hl : lookupA out dk with
  | none =>
    left
    simp only [dateFix1, hl]
  | some v =>
    cases hi : isoOrNone du v with
    | some iso =>
      right; left
      exact ⟨v, iso, rfl, hi, by simp only [dateFix1, hl, hi]⟩
    | none =>
      right; right
      simp only [dateFix1, hl, hi]

theorem scoreFix_cases (out : PyDict) :
    scoreFix out = out ∨
    (∃ q, scoreFix out = updateA out "extraction_confidence_score" (.float q)) ∨
    scoreFix out = removeA out "extraction_confidence_score" := by
  cases hl : lookupA out "extraction_confidence_score" with
  | none =>
    left
    simp only [scoreFix, hl]
  | some v =>
    cases hf : pyFloatOf v with
    | none =>
      right; right
      simp only [scoreFix, hl, hf]
    | some q =>
      by_cases hq : 0 ≤ q ∧ q ≤ 1
      · right; left
        refine ⟨q, ?_⟩
        simp only [scoreFix, hl, hf]
        rw [if_pos hq]
      · right; right
        simp only [scoreFix, hl, hf]
        rw [if_neg hq]

theorem updateA_keys (out : PyDict) (k : String) (v : PyVal) :
    (updateA out k v).map Prod.fst = out.map Prod.fst := by
  unfold updateA
  rw [List.map_map]
  apply List.map_congr_left
  intro p _
  show Prod.fst (if p.1 = k then (p.1, v) else p) = p.1
  by_cases hp : p.1 = k
  · rw [if_pos hp]
  · rw [if_neg hp]

theorem removeA_keys_sublist (out : PyDict) (k : String) :
    ((removeA out k).map Prod.fst).Sublist (out.map Prod.fst) :=
  List.Sublist.map _ (List.filter_sublist _)

theorem nodup_dateFix1 {du : DateOracle} {out : PyDict} {dk : String}
    (h : (out.map Prod.fst).Nodup) : ((dateFix1 du out dk).map Prod.fst).Nodup := by
  rcases dateFix1_cases du out dk with he | ⟨v, iso, _, _, he⟩ | he <;> rw [he]
  · exact h
  · rw [updateA_keys]; exact h
  · exact List.Nodup.sublist (removeA_keys_sublist out dk) h

theorem nodup_scoreFix {out : PyDict}
    (h : (out.map Prod.fst).Nodup) : ((scoreFix out).map Prod.fst).Nodup := by
  rcases scoreFix_cases out with he | ⟨q, he⟩ | he <;> rw [he]
  · exact h
  · rw [updateA_keys]; exact h
  · exact List.Nodup.sublist (removeA_keys_sublist out _) h

theorem nodup_dateFix {du : DateOracle} {out : PyDict}
    (h : (out.map Prod.fst).Nodup) : ((dateFix du out).map Prod.fst).Nodup := by
  show (((dateFix1 du (dateFix1 du (dateFix1 du (dateFix1 du out
      "article_date_published") "accident_date") "missing_since")
      "recovery_date")).map Prod.fst).Nodup
  exact nodup_dateFix1 (nodup_dateFix1 (nodup_dateFix1 (nodup_dateFix1 h)))

theorem processKey_dateKey {dk : String} (hdk : dk ∈ dateKeys) {iso : String}
    (h1 : pyStrip iso = iso) (h2 : iso ≠ "") :
    processKey dk (.str iso) = some (.str iso) := by
  fin_cases hdk
  all_goals
    show (if pyStrip iso ≠ "" then some (PyVal.str (pyStrip iso)) else Option.none)
      = some (PyVal.str iso)
    rw [h1, if_pos h2]

theorem stable_dateFix1 {du : DateOracle} {out : PyDict} {dk : String}
    (hdu : DateOracleValid du) (hdk : dk ∈ dateKeys)
    (h : ∀ p ∈ out, processKey p.1 p.2 = some p.2) :
    ∀ p ∈ dateFix1 du out dk, processKey p.1 p.2 = some p.2 := by
  rcases dateFix1_cases du out dk with he | ⟨v, iso, hl, hi, he⟩ | he <;> rw [he]
  · exact h
  · intro p hp
    rcases mem_updateA hp with hpo | ⟨hp1, hp2⟩
    · exact h p hpo
    · obtain ⟨hs1, hs2, _⟩ := isoOrNone_fixed hdu hi
      obtain ⟨pk, pv⟩ := p
      subst hp1
      subst hp2
      exact processKey_dateKey hdk hs1 hs2
  · intro p hp
    exact h p (mem_removeA hp)

theorem stable_scoreFix {out : PyDict}
    (h : ∀ p ∈ out, processKey p.1 p.2 = some p.2) :
    ∀ p ∈ scoreFix out, processKey p.1 p.2 = some p.2 := by
  rcases scoreFix_cases out with he | ⟨q, he⟩ | he <;> rw [he]
  · exact h
  · intro p hp
    rcases mem_updateA hp with hpo | ⟨hp1, hp2⟩
    · exact h p hpo
    · obtain ⟨pk, pv⟩ := p
      subst hp1
      subst hp2
      rfl
  · intro p hp
    exact h p (mem_removeA hp)

theorem lookupA_dateFix1_self (du : DateOracle) (out : PyDict) (dk : String) :
    lookupA (dateFix1 du out dk) dk =
      match lookupA out dk with
      | some v =>
        (match isoOrNone du v with
         | some iso => some (PyVal.str iso)
         | Option.none => Option.none)
      | Option.none => Option.none := by
  cases hl : lookupA out dk with
  | none => simp only [dateFix1, hl]
  | some v =>
    cases hi : isoOrNone du v with
    | none =>
      simp only [dateFix1, hl, hi]
      exact lookupA_removeA_self out dk
    | some iso =>
      simp only [dateFix1, hl, hi]
      exact lookupA_updateA _ (find_isSome_of_lookupA hl)

theorem lookupA_dateFix {du : DateOracle} {out : PyDict} {dk : String}
    (hdk : dk ∈ dateKeys) :
    lookupA (dateFix du out) dk =
      match lookupA out dk with
      | some v =>
        (match isoOrNone du v with
         | some iso => some (PyVal.str iso)
         | Option.none => Option.none)
      | Option.none => Option.none := by
  fin_cases hdk
  · show lookupA (dateFix1 du (dateFix1 du (dateFix1 du (dateFix1 du out
        "article_date_published") "accident_date") "missing_since") "recovery_date")
        "article_date_published" = _
    rw [dateFix1_preserves (by decide), dateFix1_preserves (by decide),
      dateFix1_preserves (by decide), lookupA_dateFix1_self]
  · show lookupA (dateFix1 du (dateFix1 du (dateFix1 du (dateFix1 du out
        "article_date_published") "accident_date") "missing_since") "recovery_date")
        "accident_date" = _
    rw [dateFix1_preserves (by decide), dateFix1_preserves (by decide),
      lookupA_dateFix1_self, dateFix1_preserves (by decide)]
  · show lookupA (dateFix1 du (dateFix1 du (dateFix1 du (dateFix1 du out
        "article_date_published") "accident_date") "missing_since") "recovery_date")
        "missing_since" = _
    rw [dateFix1_preserves (by decide), lookupA_dateFix1_self,
      dateFix1_preserves (by decide), dateFix1_preserves (by decide)]
  · show lookupA (dateFix1 du (dateFix1 du (dateFix1 du (dateFix1 du out
        "article_date_published") "accident_date") "missing_since") "recovery_date")
        "recovery_date" = _
    rw [lookupA_dateFix1_self, dateFix1_preserves (by decide),
      dateFix1_preserves (by decide), dateFix1_preserves (by decide)]

theorem dateFix1_noop {du : DateOracle} {out : PyDict} {dk : String}
    (hnd : (out.map Prod.fst).Nodup)
    (hchar : ∀ v, lookupA out dk = some v →
      ∃ iso, v = .str iso ∧ isoOrNone du (.str iso) = some iso) :
    dateFix1 du out dk = out := by
  cases hl : lookupA out dk with
  | none => simp only [dateFix1, hl]
  | some v =>
    obtain ⟨iso, rfl, hfix⟩ := hchar v hl
    simp only [dateFix1, hl, hfix]
    exact updateA_eq_self hnd hl

theorem lookupA_scoreFix_self (out : PyDict) :
    lookupA (scoreFix out) "extraction_confidence_score" =
      match lookupA out "extraction_confidence_score" with
      | some v =>
        (match pyFloatOf v with
         | some q => if 0 ≤ q ∧ q ≤ 1 then some (PyVal.float q) else Option.none
         | Option.none => Option.none)
      | Option.none => Option.none := by
  cases hl : lookupA out "extraction_confidence_score" with
  | none => simp only [scoreFix, hl]
  | some v =>
    cases hf : pyFloatOf v with
    | none =>
      simp only [scoreFix, hl, hf]
      exact lookupA_removeA_self _ _
    | some q =>
      simp only [scoreFix, hl, hf]
      by_cases hq : 0 ≤ q ∧ q ≤ 1
      · rw [if_pos hq, if_pos hq]
        exact lookupA_updateA _ (find_isSome_of_lookupA hl)
      · rw [if_neg hq, if_neg hq]
        exact lookupA_removeA_self _ _

theorem scoreFix_noop {out : PyDict} (hnd : (out.map Prod.fst).Nodup)
    (hchar : ∀ v, lookupA out "extraction_confidence_score" = some v →
      ∃ q, v = .float q ∧ 0 ≤ q ∧ q ≤ 1) :
    scoreFix out = out := by
  cases hl : lookupA out "extraction_confidence_score" with
  | none => simp only [scoreFix, hl]
  | some v =>
    obtain ⟨q, rfl, hq⟩ := hchar v hl
    simp only [scoreFix, hl, pyFloatOf]
    rw [if_pos hq]
    exact updateA_eq_self hnd hl

/-- C5 (amended): on inputs whose keys are free of duplicates and whose
`people` field, when it is a string at all, is blank (the non-blank-string
`people` case is the non-idempotent corner shown by the counterexample),
the postprocessor is idempotent for every well-behaved `dateutil` oracle:
`_postprocess(_postprocess(x)) == _postprocess(x)`.  Every field, once
coerced into its canonical form, passes through the main loop, the date
pass and the score pass unchanged. -/
theorem c5_postprocess_idempotent (du : DateOracle) (obj : PyDict)
    (hdu : DateOracleValid du)
    (hkeys : (obj.map Prod.fst).Nodup)
    (hpeople : ∀ s, ("people", PyVal.str s) ∈ obj → pyStrip s = "") :
    postprocess du (postprocess du obj) = postprocess du obj := by
  have hs1 : ∀ p ∈ mainLoop obj, processKey p.1 p.2 = some p.2 := by
    intro p hp
    obtain ⟨v, hv, hpk⟩ := mem_mainLoop hp
    refine processKey_stable (fun hk s hs => hpeople s ?_) hpk
    rw [← hk, ← hs]
    exact hv
  have hs2 : ∀ p ∈ dateFix du (mainLoop obj), processKey p.1 p.2 = some p.2 :=
    stable_dateFix1 hdu (by decide)
      (stable_dateFix1 hdu (by decide)
        (stable_dateFix1 hdu (by decide)
          (stable_dateFix1 hdu (by decide) hs1)))
  have hs3 : ∀ p ∈ scoreFix (dateFix du (mainLoop obj)), processKey p.1 p.2 = some p.2 :=
    stable_scoreFix hs2
  have hn1 : ((mainLoop obj).map Prod.fst).Nodup :=
    List.Nodup.sublist (mainLoop_keys_sublist obj) hkeys
  have hn3 : ((scoreFix (dateFix du (mainLoop obj))).map Prod.fst).Nodup :=
    nodup_scoreFix (nodup_dateFix hn1)
  have hcdate : ∀ dk ∈ dateKeys, ∀ v,
      lookupA (scoreFix (dateFix du (mainLoop obj))) dk = some v →
      ∃ iso, v = .str iso ∧ isoOrNone du (.str iso) = some iso := by
    intro dk hdk v hv
    have hne : dk ≠ "extraction_confidence_score" := by
      fin_cases hdk <;> decide
    rw [scoreFix_preserves hne, lookupA_dateFix hdk] at hv
    cases hl1 : lookupA (mainLoop obj) dk with
    | none =>
      simp only [hl1] at hv
      exact Option.noConfusion hv
    | some v0 =>
      simp only [hl1] at hv
      cases hi : isoOrNone du v0 with
      | none =>
        simp only [hi] at hv
        exact Option.noConfusion hv
      | some iso =>
        simp only [hi] at hv
        obtain rfl := (Option.some.inj hv).symm
        exact ⟨iso, rfl, (isoOrNone_fixed hdu hi).2.2⟩
  have hcscore : ∀ v,
      lookupA (scoreFix (dateFix du (mainLoop obj))) "extraction_confidence_score" = some v →
      ∃ q, v = .float q ∧ 0 ≤ q ∧ q ≤ 1 := by
    intro v hv
    rw [lookupA_scoreFix_self] at hv
    cases hl2 : lookupA (dateFix du (mainLoop obj)) "extraction_confidence_score" with
    | none =>
      simp only [hl2] at hv
      exact Option.noConfusion hv
    | some v0 =>
      simp only [hl2] at hv
      cases hf : pyFloatOf v0 with
      | none =>
        simp only [hf] at hv
        exact Option.noConfusion hv
      | some q =>
        simp only [hf] at hv
        by_cases hq : 0 ≤ q ∧ q ≤ 1
        · rw [if_pos hq] at hv
          obtain rfl := (Option.some.inj hv).symm
          exact ⟨q, rfl, hq⟩
        · rw [if_neg hq] at hv
          exact Option.noConfusion hv
  have hm : mainLoop (scoreFix (dateFix du (mainLoop obj)))
      = scoreFix (dateFix du (mainLoop obj)) := mainLoop_eq_self hs3
  have hdf : dateFix du (scoreFix (dateFix du (mainLoop obj)))
      = scoreFix (dateFix du (mainLoop obj)) := by
    show dateFix1 du (dateFix1 du (dateFix1 du (dateFix1 du
        (scoreFix (dateFix du (mainLoop obj))) "article_date_published")
        "accident_date") "missing_since") "recovery_date"
      = scoreFix (dateFix du (mainLoop obj))
    rw [dateFix1_noop hn3 (hcdate _ (by decide)),
      dateFix1_noop hn3 (hcdate _ (by decide)),
      dateFix1_noop hn3 (hcdate _ (by decide)),
      dateFix1_noop hn3 (hcdate _ (by decide))]
  have hsf : scoreFix (scoreFix (dateFix du (mainLoop obj)))
      = scoreFix (dateFix du (mainLoop obj)) := scoreFix_noop hn3 hcscore
  show scoreFix (dateFix du (mainLoop (scoreFix (dateFix du (mainLoop obj)))))
    = scoreFix (dateFix du (mainLoop obj))
  rw [hm, hdf, hsf]

/-- Witness for the amended C5 theorem: a concrete record with a list
`people` field, a slash-format `accident_date`, an in-range confidence
score, a stringly-typed fatality count and an unknown key, under the
absent-dateutil oracle. -/
theorem c5_postprocess_idempotent_witness :
    postprocess (fun _ => Option.none)
        (postprocess (fun _ => Option.none)
          [("people", .list [.dict [("name", .str " Jane Doe "), ("age", .str "34")]]),
           ("accident_date", .str "2025/10/01"),
           ("extraction_confidence_score", .float (1 / 2)),
           ("num_fatalities", .str " 2 "),
           ("mystery_key", .str " x ")])
      = postprocess (fun _ => Option.none)
          [("people", .list [.dict [("name", .str " Jane Doe "), ("age", .str "34")]]),
           ("accident_date", .str "2025/10/01"),
           ("extraction_confidence_score", .float (1 / 2)),
           ("num_fatalities", .str " 2 "),
           ("mystery_key", .str " x ")] :=
  c5_postprocess_idempotent (fun _ => Option.none)
    [("people", .list [.dict [("name", .str " Jane Doe "), ("age", .str "34")]]),
     ("accident_date", .str "2025/10/01"),
     ("extraction_confidence_score", .float (1 / 2)),
     ("num_fatalities", .str " 2 "),
     ("mystery_key", .str " x ")]
    (fun s y m d h => Option.noConfusion h)
    (by decide)
    (fun s h => by simp at h)

end StructuringTest
